import Mathlib

/-!
# Dimension entities of LibreCAD: `rs_dimension.cpp`

A shallow embedding of `librecad/src/lib/engine/rs_dimension.cpp` and theorems
about it.

Conventions of the embedding:

* a C++ `double` is the rational number it holds, and every arithmetic
  operation on doubles gives the double nearest to the exact result
  (`roundDouble`: 53 binary places, ties to the even last place, subnormal
  numbers included); the infinities and the values that are no numbers are
  not modelled, so that the embedding speaks of runs that stay in the finite
  range of a `double`; the functions of `<math.h>` are parameters, and the
  two functions of LibreCAD that are modelled by their contract alone,
  `correctAngle` and `getIntersection`, compute in exact arithmetic and say
  so;
* a C++ `int` is an integer (the code only stores and compares them);
* a `QString` is a list of characters; keys of graphic variables are `String`s;
* a member function that changes the object takes the old state and returns
  the new one;
* classes of LibreCAD that `rs_dimension.cpp` uses but does not define
  (`RS_Vector`, `RS_Line`, the variable dictionary of the graphic, ...) are
  modelled from their description in the specification, and say so.
-/

namespace LibreCAD

/-! ## Strings -/

/-- A `QString`, as the list of its characters. -/
abbrev QString := List Char

/-- The call `s.replace(QString("<>"), after)` of Qt: the string is scanned
from left to right, every occurrence of the two characters `<>` is replaced
by `after`, and the scan goes on behind the replaced occurrence. -/
def replaceToken (after : QString) : QString → QString
  | '<' :: '>' :: rest => after ++ replaceToken after rest
  | c :: rest => c :: replaceToken after rest
  | [] => []

/-- The token `<>` that stands for the measured label in a template. -/
def token : QString := ['<', '>']

/-! ## The arithmetic of a `double` -/

/-- The integer nearest to a rational number, the even one of the two when
the number lies in the middle of two integers. -/
def roundHalfEven (x : ℚ) : ℤ :=
  if x - ⌊x⌋ < 1 / 2 then ⌊x⌋
  else if 1 / 2 < x - ⌊x⌋ then ⌊x⌋ + 1
  else if ⌊x⌋ % 2 = 0 then ⌊x⌋ else ⌊x⌋ + 1

/-- The exponent of the last binary place that a `double` near `q` holds: 52
places below the leading one, and never below the place `2 ^ (-1074)` of the
subnormal numbers. -/
def ulpExponent (q : ℚ) : ℤ := max (Int.log 2 |q| - 52) (-1074)

/-- The `double` nearest to a rational number, the one with the even last
place when the number lies in the middle of two doubles. -/
def roundDouble (q : ℚ) : ℚ :=
  roundHalfEven (q / 2 ^ ulpExponent q) * 2 ^ ulpExponent q

/-- The sum of two doubles, as `+` computes it. -/
def fadd (a b : ℚ) : ℚ := roundDouble (a + b)

/-- The difference of two doubles, as `-` computes it. -/
def fsub (a b : ℚ) : ℚ := roundDouble (a - b)

/-- The product of two doubles, as `*` computes it. -/
def fmul (a b : ℚ) : ℚ := roundDouble (a * b)

/-- The quotient of two doubles, as `/` computes it. -/
def fdiv (a b : ℚ) : ℚ := roundDouble (a / b)

/-! ## Points -/

/-- Modelled from the spec: `RS_Vector`, a point of the plane with its
validity flag (`RS_Vector(false)` is the invalid point). -/
structure RS_Vector where
  x : ℚ
  y : ℚ
  valid : Bool
deriving DecidableEq, Repr

namespace RS_Vector

/-- The constructor `RS_Vector(x, y)`. -/
def mk2 (x y : ℚ) : RS_Vector := ⟨x, y, true⟩

/-- The constructor `RS_Vector(false)`. -/
def invalid : RS_Vector := ⟨0, 0, false⟩

/-- Modelled from the spec: `operator +`, a new point. -/
def add (a b : RS_Vector) : RS_Vector := mk2 (fadd a.x b.x) (fadd a.y b.y)

/-- Modelled from the spec: `operator -`, a new point. -/
def sub (a b : RS_Vector) : RS_Vector := mk2 (fsub a.x b.x) (fsub a.y b.y)

/-- Modelled from the spec: `RS_Vector::move`, "translate by the vector".
The coordinates change in place, the validity flag stays. -/
def move (p offset : RS_Vector) : RS_Vector :=
  { p with x := fadd p.x offset.x, y := fadd p.y offset.y }

/-- Modelled from the spec: `RS_Vector::rotate(center, angleVector)`,
"rotate about `center` by the given angle", the angle being given by the
vector `(cos, sin)`: the difference to the centre is multiplied by the angle
vector as a complex number and added to the centre. -/
def rotate (p center angleVector : RS_Vector) : RS_Vector :=
  { p with
    x := fadd center.x (fsub (fmul (fsub p.x center.x) angleVector.x)
      (fmul (fsub p.y center.y) angleVector.y))
    y := fadd center.y (fadd (fmul (fsub p.x center.x) angleVector.y)
      (fmul (fsub p.y center.y) angleVector.x)) }

/-- Modelled from the spec: `RS_Vector::scale(center, factor)`, "scale about
`center` by a (possibly non-uniform) factor vector". -/
def scale (p center factor : RS_Vector) : RS_Vector :=
  { p with
    x := fadd center.x (fmul (fsub p.x center.x) factor.x)
    y := fadd center.y (fmul (fsub p.y center.y) factor.y) }

/-- Modelled from the spec: `RS_Vector::mirror(axisPoint1, axisPoint2)`,
"reflect across the line through the two axis points": twice the foot of the
perpendicular minus the point. For an axis of length zero, of which the spec
says nothing, the point stays where it is. -/
def mirror (p axisPoint1 axisPoint2 : RS_Vector) : RS_Vector :=
  let dx := fsub axisPoint2.x axisPoint1.x
  let dy := fsub axisPoint2.y axisPoint1.y
  let a := fadd (fmul dx dx) (fmul dy dy)
  if a = 0 then p
  else
    let t := fdiv (fadd (fmul (fsub p.x axisPoint1.x) dx) (fmul (fsub p.y axisPoint1.y) dy)) a
    { p with
      x := fsub (fmul 2 (fadd axisPoint1.x (fmul t dx))) p.x
      y := fsub (fmul 2 (fadd axisPoint1.y (fmul t dy))) p.y }

end RS_Vector

/-! ## The C math library -/

/-- The functions of `<math.h>` that the code reaches. They are not part of
the repository and are taken as parameters; nothing is assumed of how exact
they are. -/
structure Libm where
  cos : ℚ → ℚ
  sin : ℚ → ℚ
  atan2 : ℚ → ℚ → ℚ
  sqrt : ℚ → ℚ

/-- The constant `M_PI` of `<math.h>`: the `double` nearest to π. -/
def M_PI : ℚ := 884279719003555 / 281474976710656

/-- The constant `M_PI_2` of `<math.h>`. -/
def M_PI_2 : ℚ := M_PI / 2

/-- Modelled from the spec: `RS_Math::correctAngle`, the angle "normalized
into a canonical range". The range is taken to be `[0, 2*M_PI)`; an angle of
this range is left as it is, and from an angle outside of it a multiple of
`2*M_PI` is taken away, in exact arithmetic: how the function rounds is not
part of the model. -/
def correctAngle (a : ℚ) : ℚ := a - 2 * M_PI * ⌊a / (2 * M_PI)⌋

/-- Modelled from the spec: the constructor `RS_Vector(angle)`, the unit
vector of that direction. -/
def RS_Vector.ofAngle (lm : Libm) (angle : ℚ) : RS_Vector :=
  RS_Vector.mk2 (lm.cos angle) (lm.sin angle)

/-- Modelled from the spec: `RS_Vector::angle`, the direction of the vector
as an angle of the canonical range. -/
def RS_Vector.angle (lm : Libm) (v : RS_Vector) : ℚ :=
  correctAngle (lm.atan2 v.y v.x)

/-! ## The data of a dimension -/

/-- The vertical alignments of `RS_MTextData`. -/
inductive VAlign
  | VATop | VAMiddle | VABottom
deriving DecidableEq, Repr

/-- The horizontal alignments of `RS_MTextData`. -/
inductive HAlign
  | HALeft | HACenter | HARight
deriving DecidableEq, Repr

/-- The line spacing styles of `RS_MTextData`. -/
inductive MTextLineSpacingStyle
  | AtLeast | Exact
deriving DecidableEq, Repr

/-- The class `RS_DimensionData`. -/
structure RS_DimensionData where
  definitionPoint : RS_Vector
  middleOfText : RS_Vector
  valign : VAlign
  halign : HAlign
  lineSpacingStyle : MTextLineSpacingStyle
  lineSpacingFactor : ℚ
  text : QString
  style : QString
  angle : ℚ
deriving DecidableEq, Repr

/-- The default constructor `RS_DimensionData::RS_DimensionData()`. -/
def RS_DimensionData.default : RS_DimensionData where
  definitionPoint := RS_Vector.invalid
  middleOfText := RS_Vector.invalid
  valign := VAlign.VABottom
  halign := HAlign.HALeft
  lineSpacingStyle := MTextLineSpacingStyle.Exact
  lineSpacingFactor := 0
  text := []
  style := []
  angle := 0

/-! ## The label -/

/-- The member `RS_Dimension::getLabel(bool resolve)`. The measured label
comes from `getMeasuredLabel()`, which the subclasses define. -/
def getLabel (data : RS_DimensionData) (measuredLabel : QString) (resolve : Bool) : QString :=
  if !resolve then data.text
  else if data.text = [' '] then []
  else if data.text = [] then measuredLabel
  else replaceToken measuredLabel data.text

/-! ## Graphic variables -/

/-- Modelled from the spec: a value of the variable store, a number
(`setNumber`) or an integer (`setInteger`), with the code it was written
with. -/
inductive RS_Variable
  | VariableDouble (v : ℚ) (code : Int)
  | VariableInt (v : Int) (code : Int)
deriving DecidableEq, Repr

/-- Modelled from the spec: the variable store of the graphic. It is kept as
the list of the writes made to it, the latest first, and a read answers with
the latest write to the key; every write makes the list one longer. -/
abbrev VariableDict := List (String × RS_Variable)

/-- The latest value written under a key. -/
def VariableDict.find (g : VariableDict) (key : String) : Option RS_Variable :=
  List.lookup key g

/-- Modelled from the spec: `getGraphicVariableDouble(key, def)`, the number
under the key, and `def` when there is none. -/
def getGraphicVariableDouble (g : VariableDict) (key : String) (dflt : ℚ) : ℚ :=
  match g.find key with
  | some (RS_Variable.VariableDouble v _) => v
  | _ => dflt

/-- Modelled from the spec: `getGraphicVariableInt(key, def)`, the integer
under the key, and `def` when there is none. -/
def getGraphicVariableInt (g : VariableDict) (key : String) (dflt : Int) : Int :=
  match g.find key with
  | some (RS_Variable.VariableInt v _) => v
  | _ => dflt

/-- Modelled from the spec: `addGraphicVariable(key, double, code)`. -/
def addGraphicVariable (g : VariableDict) (key : String) (val : ℚ) (code : Int) :
    VariableDict :=
  (key, RS_Variable.VariableDouble val code) :: g

/-- Modelled from the spec: `addGraphicVariable(key, int, code)`. -/
def addGraphicVariableInt (g : VariableDict) (key : String) (val : Int) (code : Int) :
    VariableDict :=
  (key, RS_Variable.VariableInt val code) :: g

/-- The units of `RS2::Unit`: the millimetre, which the code names, and the
others. -/
inductive RS2Unit
  | Millimeter
  | Other (n : Nat)
deriving DecidableEq, Repr

/-- What the code takes from its surroundings: the constant `RS_MINDOUBLE`,
the unit of the graphic (`getGraphicUnit()`) and `RS_Units::convert`. -/
structure Env where
  RS_MINDOUBLE : ℚ
  graphicUnit : RS2Unit
  convert : ℚ → RS2Unit → RS2Unit → ℚ

/-- A surrounding for the examples: the sentinel `-1.0E+10`, a graphic in
millimetres, and a conversion that leaves a value as it is. -/
def mmEnv : Env where
  RS_MINDOUBLE := -10000000000
  graphicUnit := RS2Unit.Millimeter
  convert := fun x _ _ => x

/-- The member `RS_Dimension::getGraphicVariable(key, defMM, code)`: the value
and the store it leaves. -/
def getGraphicVariable (env : Env) (key : String) (defMM : ℚ) (code : Int)
    (g : VariableDict) : ℚ × VariableDict :=
  let v := getGraphicVariableDouble g key env.RS_MINDOUBLE
  if v ≤ env.RS_MINDOUBLE then
    let g1 := addGraphicVariable g key
      (env.convert defMM RS2Unit.Millimeter env.graphicUnit) code
    (getGraphicVariableDouble g1 key 1, g1)
  else (v, g)

/-- The member `RS_Dimension::getGeneralFactor`. -/
def getGeneralFactor (env : Env) (g : VariableDict) : ℚ × VariableDict :=
  getGraphicVariable env "$DIMLFAC" 1 40 g

/-- The member `RS_Dimension::getGeneralScale`. -/
def getGeneralScale (env : Env) (g : VariableDict) : ℚ × VariableDict :=
  getGraphicVariable env "$DIMSCALE" 1 40 g

/-- The member `RS_Dimension::getArrowSize`. -/
def getArrowSize (env : Env) (g : VariableDict) : ℚ × VariableDict :=
  getGraphicVariable env "$DIMASZ" (5 / 2) 40 g

/-- The member `RS_Dimension::getTickSize`. -/
def getTickSize (env : Env) (g : VariableDict) : ℚ × VariableDict :=
  getGraphicVariable env "$DIMTSZ" 0 40 g

/-- The member `RS_Dimension::getExtensionLineExtension`. -/
def getExtensionLineExtension (env : Env) (g : VariableDict) : ℚ × VariableDict :=
  getGraphicVariable env "$DIMEXE" (5 / 4) 40 g

/-- The member `RS_Dimension::getExtensionLineOffset`. -/
def getExtensionLineOffset (env : Env) (g : VariableDict) : ℚ × VariableDict :=
  getGraphicVariable env "$DIMEXO" (5 / 8) 40 g

/-- The member `RS_Dimension::getDimensionLineGap`. -/
def getDimensionLineGap (env : Env) (g : VariableDict) : ℚ × VariableDict :=
  getGraphicVariable env "$DIMGAP" (5 / 8) 40 g

/-- The member `RS_Dimension::getTextHeight`. -/
def getTextHeight (env : Env) (g : VariableDict) : ℚ × VariableDict :=
  getGraphicVariable env "$DIMTXT" (5 / 2) 40 g

/-- The member `RS_Dimension::getAlignText`: `true` for horizontal text,
`false` for aligned text, and the store it leaves. The value read again after
the flag was written is not used by the code. -/
def getAlignText (g : VariableDict) : Bool × VariableDict :=
  let v := getGraphicVariableInt g "$DIMTIH" 2
  let g1 :=
    if v > 1 then
      let g2 := addGraphicVariableInt g "$DIMTIH" 0 70
      let _reread := getGraphicVariableInt g2 "$DIMTIH" 0
      g2
    else g
  (if v = 0 then false else true, g1)

/-! ## Moving, rotating, scaling and mirroring a dimension -/

/-- The member `RS_Dimension::move`. -/
def move (data : RS_DimensionData) (offset : RS_Vector) : RS_DimensionData :=
  { data with
    definitionPoint := data.definitionPoint.move offset
    middleOfText := data.middleOfText.move offset }

/-- The member `RS_Dimension::rotate(center, angle)`. -/
def rotate (lm : Libm) (data : RS_DimensionData) (center : RS_Vector) (angle : ℚ) :
    RS_DimensionData :=
  let angleVector := RS_Vector.ofAngle lm angle
  { data with
    definitionPoint := data.definitionPoint.rotate center angleVector
    middleOfText := data.middleOfText.rotate center angleVector
    angle := correctAngle (fadd data.angle angle) }

/-- The member `RS_Dimension::rotate(center, angleVector)`. -/
def rotateVector (lm : Libm) (data : RS_DimensionData) (center angleVector : RS_Vector) :
    RS_DimensionData :=
  { data with
    definitionPoint := data.definitionPoint.rotate center angleVector
    middleOfText := data.middleOfText.rotate center angleVector
    angle := correctAngle (fadd data.angle (angleVector.angle lm)) }

/-- The member `RS_Dimension::scale`. -/
def scale (data : RS_DimensionData) (center factor : RS_Vector) : RS_DimensionData :=
  { data with
    definitionPoint := data.definitionPoint.scale center factor
    middleOfText := data.middleOfText.scale center factor }

/-- The member `RS_Dimension::mirror`. -/
def mirror (data : RS_DimensionData) (axisPoint1 axisPoint2 : RS_Vector) : RS_DimensionData :=
  { data with
    definitionPoint := data.definitionPoint.mirror axisPoint1 axisPoint2
    middleOfText := data.middleOfText.mirror axisPoint1 axisPoint2 }

/-- The two points of a dimension mapped by one and the same map of the plane,
and nothing else changed. -/
def mapPoints (f : RS_Vector → RS_Vector) (data : RS_DimensionData) : RS_DimensionData :=
  { data with
    definitionPoint := f data.definitionPoint
    middleOfText := f data.middleOfText }

/-! ## The dimension line -/

/-- Modelled from the spec: `RS_Vector::distanceTo`, the distance
`|p1 - p2|` of two points. -/
def RS_Vector.distanceTo (lm : Libm) (a b : RS_Vector) : ℚ :=
  lm.sqrt (fadd (fmul (fsub a.x b.x) (fsub a.x b.x)) (fmul (fsub a.y b.y) (fsub a.y b.y)))

/-- Modelled from the spec: `RS_Vector::angleTo`, the direction from the
point to another point. -/
def RS_Vector.angleTo (lm : Libm) (a b : RS_Vector) : ℚ :=
  (b.sub a).angle lm

/-- Modelled from the spec: `RS_Vector::setPolar(radius, angle)`. -/
def RS_Vector.polar (lm : Libm) (radius angle : ℚ) : RS_Vector :=
  RS_Vector.mk2 (fmul radius (lm.cos angle)) (fmul radius (lm.sin angle))

/-- Modelled from the spec: `RS_Line` with its `RS_LineData`, a line segment
from its start point to its end point. -/
structure RS_Line where
  startpoint : RS_Vector
  endpoint : RS_Vector
deriving DecidableEq, Repr

/-- Modelled from the spec: `RS_Line::getAngle1`, the direction of the line at
its start point, towards the end point. -/
def RS_Line.getAngle1 (lm : Libm) (l : RS_Line) : ℚ :=
  l.startpoint.angleTo lm l.endpoint

/-- Modelled from the spec: `RS_Line::getAngle2`, the direction of the line at
its end point, towards the start point. -/
def RS_Line.getAngle2 (lm : Libm) (l : RS_Line) : ℚ :=
  l.endpoint.angleTo lm l.startpoint

/-- Modelled from the spec: `RS_Line::getMiddlePoint`, "the line's
midpoint". -/
def RS_Line.getMiddlePoint (l : RS_Line) : RS_Vector :=
  RS_Vector.mk2 (fdiv (fadd l.startpoint.x l.endpoint.x) 2)
    (fdiv (fadd l.startpoint.y l.endpoint.y) 2)

/-- Modelled from the spec: `RS_Information::getIntersection(e1, e2, true)` for
two lines, the "strict-segment intersection": the point that the two straight
lines share when they are not parallel, if it lies strictly inside both
segments, that is on neither of them at an end point. It is the exact point:
how the function computes and rounds it is not part of the model. -/
def getIntersection (e1 e2 : RS_Line) : Option RS_Vector :=
  let d1x := e1.endpoint.x - e1.startpoint.x
  let d1y := e1.endpoint.y - e1.startpoint.y
  let d2x := e2.endpoint.x - e2.startpoint.x
  let d2y := e2.endpoint.y - e2.startpoint.y
  let den := d1x * d2y - d1y * d2x
  if den = 0 then none
  else
    let t := ((e2.startpoint.x - e1.startpoint.x) * d2y
      - (e2.startpoint.y - e1.startpoint.y) * d2x) / den
    let u := ((e2.startpoint.x - e1.startpoint.x) * d1y
      - (e2.startpoint.y - e1.startpoint.y) * d1x) / den
    if 0 < t ∧ t < 1 ∧ 0 < u ∧ u < 1 then
      some (RS_Vector.mk2 (e1.startpoint.x + t * d1x) (e1.startpoint.y + t * d1y))
    else none

/-- The drawing directions of `RS_MTextData`. -/
inductive MTextDrawingDirection
  | LeftToRight | TopToBottom | ByStyle
deriving DecidableEq, Repr

/-- The class `RS_MTextData`, with the fields in the order of its
constructor. -/
structure RS_MTextData where
  insertionPoint : RS_Vector
  height : ℚ
  width : ℚ
  valign : VAlign
  halign : HAlign
  drawingDirection : MTextDrawingDirection
  lineSpacingStyle : MTextLineSpacingStyle
  lineSpacingFactor : ℚ
  text : QString
  style : QString
  angle : ℚ
deriving DecidableEq, Repr

/-- The entities that `updateCreateDimensionLine` adds to the dimension: a
line, a solid shaped as an arrow by `shapeArrow(point, angle, size)`, kept as
these three arguments, and a text. Every one of them gets the invalid pen and
no layer, which is not kept. -/
inductive RS_Entity
  | line (l : RS_Line)
  | arrow (point : RS_Vector) (angle : ℚ) (size : ℚ)
  | mtext (d : RS_MTextData)
deriving DecidableEq, Repr

/-- What `updateCreateDimensionLine` takes from other classes: the measured
label of the subclass, `RS_Math::makeAngleReadable(angle, readable,
&corrected)` with its two results, and the width and the height that the text
entity reports. -/
structure Externals where
  getMeasuredLabel : QString
  makeAngleReadable : ℚ → Bool → ℚ × Bool
  getUsedTextWidth : RS_MTextData → ℚ
  getUsedTextHeight : RS_MTextData → ℚ

/-- The style of one run of `updateCreateDimensionLine`. -/
structure DimStyle where
  dimscale : ℚ
  dimtxt : ℚ
  dimgap : ℚ
  arrowSize : ℚ
  dimtsz : ℚ
deriving DecidableEq, Repr

/-- The five reads of the style, lines 176 to 186 and line 213, in the order
of the code: the general scale, and the text height, the gap, the arrow size
and the tick size, each multiplied by the general scale. What the code does
between these reads does not touch the variable store. -/
def readStyle (env : Env) (g : VariableDict) : DimStyle × VariableDict :=
  let r1 := getGeneralScale env g
  let r2 := getTextHeight env r1.2
  let r3 := getDimensionLineGap env r2.2
  let r4 := getArrowSize env r3.2
  let r5 := getTickSize env r4.2
  ({ dimscale := r1.1
     dimtxt := fmul r2.1 r1.1
     dimgap := fmul r3.1 r1.1
     arrowSize := fmul r4.1 r1.1
     dimtsz := fmul r5.1 r1.1 }, r5.2)

/-- The angles of the two arrows and the dimension line. -/
structure ArrowsAndLine where
  arrowAngle1 : ℚ
  arrowAngle2 : ℚ
  dimensionLine : RS_Line
deriving DecidableEq, Repr

/-- The angles of the arrows and the dimension line, lines 195 to 212: with
the arrows inside, the angles are those of the line from `p1` to `p2`,
exchanged; with the arrows outside, they are not exchanged and the line is set
to run from `p1 + dir` to `p2 - dir`. -/
def arrowAnglesAndLine (lm : Libm) (p1 p2 : RS_Vector) (arrowSize : ℚ)
    (outsideArrows : Bool) : ArrowsAndLine :=
  let dimensionLine : RS_Line := ⟨p1, p2⟩
  if outsideArrows = false then
    { arrowAngle1 := dimensionLine.getAngle2 lm
      arrowAngle2 := dimensionLine.getAngle1 lm
      dimensionLine := dimensionLine }
  else
    let arrowAngle1 := dimensionLine.getAngle1 lm
    let arrowAngle2 := dimensionLine.getAngle2 lm
    -- extend dimension line outside arrows
    let dir := RS_Vector.polar lm (fmul arrowSize 2) arrowAngle2
    { arrowAngle1 := arrowAngle1
      arrowAngle2 := arrowAngle2
      dimensionLine := ⟨p1.add dir, p2.sub dir⟩ }

/-- The arrows or the ticks, lines 214 to 264. The constant `0.01` of the
code is the double nearest to 1/100. -/
def terminators (lm : Libm) (p1 p2 : RS_Vector) (arrow1 arrow2 : Bool)
    (arrowAngle1 arrowAngle2 arrowSize dimtsz : ℚ) : List RS_Entity :=
  if dimtsz < roundDouble (1 / 100) then
    (if arrow1 then [RS_Entity.arrow p1 arrowAngle1 arrowSize] else []) ++
      (if arrow2 then [RS_Entity.arrow p2 arrowAngle2 arrowSize] else [])
  else
    -- tick is 45 degree away
    let tickVector := RS_Vector.polar lm dimtsz (fadd arrowAngle1 (fmul M_PI (1 / 4)))
    (if arrow1 then [RS_Entity.line ⟨p1.sub tickVector, p1.add tickVector⟩] else []) ++
      (if arrow2 then [RS_Entity.line ⟨p2.sub tickVector, p2.add tickVector⟩] else [])

/-- The angle and the position of the text, with the data and the variable
store that finding them leaves. -/
structure TextPlacement where
  textAngle : ℚ
  corrected : Bool
  textPos : RS_Vector
  data : RS_DimensionData
  graphicVariables : VariableDict
deriving DecidableEq, Repr

/-- The angle and the position of the text, lines 269 to 299. -/
def textPlacement (lm : Libm) (ext : Externals) (data : RS_DimensionData) (g : VariableDict)
    (dimensionLine : RS_Line) (dimgap dimtxt : ℚ) (forceAutoText : Bool) : TextPlacement :=
  let dimAngle1 := dimensionLine.getAngle1 lm
  let read1 := getAlignText g
  let readable : ℚ × Bool :=
    if read1.1 then (0, false) else ext.makeAngleReadable dimAngle1 true
  let textAngle := readable.1
  let corrected := readable.2
  if data.middleOfText.valid && !forceAutoText then
    { textAngle := textAngle
      corrected := corrected
      textPos := data.middleOfText
      data := data
      graphicVariables := read1.2 }
  else
    let middle := dimensionLine.getMiddlePoint
    let read2 := getAlignText read1.2
    let textPos :=
      if !read2.1 then
        -- rotate text so it's readable from the bottom or right (ISO)
        let distV :=
          if corrected then
            RS_Vector.polar lm (fadd dimgap (fdiv dimtxt 2)) (fsub dimAngle1 M_PI_2)
          else RS_Vector.polar lm (fadd dimgap (fdiv dimtxt 2)) (fadd dimAngle1 M_PI_2)
        -- move text away from dimension line
        middle.move distV
      else middle
    { textAngle := textAngle
      corrected := corrected
      textPos := textPos
      data := { data with middleOfText := textPos }
      graphicVariables := read2.2 }

/-- The text entity, lines 301 to 320: the text is made at the position of
the text and, when it is wider than the dimension line is long, moved to the
side. -/
def labelText (lm : Libm) (ext : Externals) (data : RS_DimensionData) (textPos : RS_Vector)
    (dimtxt dimgap distance textAngle : ℚ) : RS_MTextData :=
  let textData : RS_MTextData :=
    { insertionPoint := textPos
      height := dimtxt
      width := 30
      valign := VAlign.VAMiddle
      halign := HAlign.HACenter
      drawingDirection := MTextDrawingDirection.LeftToRight
      lineSpacingStyle := MTextLineSpacingStyle.Exact
      lineSpacingFactor := 1
      text := getLabel data ext.getMeasuredLabel true
      style := "standard".toList
      angle := textAngle }
  -- move text to the side
  if ext.getUsedTextWidth textData > distance then
    let distH := RS_Vector.polar lm
      (fadd (fadd (fdiv (ext.getUsedTextWidth textData) 2) (fdiv distance 2)) dimgap) textAngle
    { textData with insertionPoint := textData.insertionPoint.move distH }
  else textData

/-- The four edges of the rectangle around the text, lines 327 to 334: the
bottom, the right, the top and the left edge. -/
def labelEdges (textPos : RS_Vector) (w h : ℚ) : List RS_Line :=
  let v1 := textPos.sub (RS_Vector.mk2 w h)
  let v2 := textPos.add (RS_Vector.mk2 w h)
  [⟨v1, RS_Vector.mk2 v2.x v1.y⟩, ⟨RS_Vector.mk2 v2.x v1.y, v2⟩,
    ⟨v2, RS_Vector.mk2 v1.x v2.y⟩, ⟨RS_Vector.mk2 v1.x v2.y, v1⟩]

/-- One of the two loops
`do { sol = getIntersection(dimensionLine, &(l[inters++]), true); }
while (!sol.hasValid() && inters < 4);`
from the index `inters` on: the solution and the index it ends with. It
answers `none` when it reads behind the end of the array `l`. -/
def scanEdges (dimensionLine : RS_Line) (l : List RS_Line) (inters : Nat) :
    Option (Option RS_Vector × Nat) :=
  match l[inters]? with
  | none => none
  | some edge =>
    let sol := getIntersection dimensionLine edge
    if sol.isNone ∧ inters + 1 < 4 then scanEdges dimensionLine l (inters + 1)
    else some (sol, inters + 1)
termination_by 4 - inters
decreasing_by omega

/-- The search for the two intersections, lines 335 to 345. -/
def findIntersections (dimensionLine : RS_Line) (l : List RS_Line) :
    Option (Option RS_Vector × Option RS_Vector) :=
  match scanEdges dimensionLine l 0 with
  | none => none
  | some (sol1, inters) =>
    if inters < 4 then
      match scanEdges dimensionLine l inters with
      | none => none
      | some (sol2, _) => some (sol1, sol2)
    else some (sol1, none)

/-- The split of the dimension line around the text, lines 327 to 360: the
dimension line and, when it was split, the second dimension line. -/
def splitDimensionLine (lm : Libm) (p1 : RS_Vector) (dimensionLine : RS_Line)
    (textPos : RS_Vector) (w h : ℚ) : Option (RS_Line × Option RS_Line) :=
  match findIntersections dimensionLine (labelEdges textPos w h) with
  | none => none
  | some (some v1, some v2) =>
    -- yes, split dimension line
    if p1.distanceTo lm v1 < p1.distanceTo lm v2 then
      some ({ dimensionLine with endpoint := v1 }, some { dimensionLine with startpoint := v2 })
    else
      some ({ dimensionLine with endpoint := v2 }, some { dimensionLine with startpoint := v1 })
  | some _ => some (dimensionLine, none)

/-- What `updateCreateDimensionLine` has built when it comes to the split of
the dimension line, lines 176 to 322. -/
structure DimensionLineDraft where
  style : DimStyle
  distance : ℚ
  outsideArrows : Bool
  arrows : ArrowsAndLine
  terminators : List RS_Entity
  placement : TextPlacement
  text : RS_MTextData
deriving DecidableEq, Repr

/-- The first part of `RS_Dimension::updateCreateDimensionLine`, lines 176 to
322: the style, the dimension line from `p1` to `p2`, extended when the arrows
are outside, the arrows or ticks, and the text. -/
def draftDimensionLine (env : Env) (lm : Libm) (ext : Externals)
    (data : RS_DimensionData) (g : VariableDict) (p1 p2 : RS_Vector)
    (arrow1 arrow2 forceAutoText : Bool) : DimensionLineDraft :=
  let style := readStyle env g
  -- length of dimension line
  let distance := p1.distanceTo lm p2
  -- do we have to put the arrows outside of the line?
  let outsideArrows := decide (distance < fmul style.1.arrowSize (5 / 2))
  let al := arrowAnglesAndLine lm p1 p2 style.1.arrowSize outsideArrows
  let terms := terminators lm p1 p2 arrow1 arrow2 al.arrowAngle1 al.arrowAngle2
    style.1.arrowSize style.1.dimtsz
  -- text label
  let tp := textPlacement lm ext data style.2 al.dimensionLine style.1.dimgap
    style.1.dimtxt forceAutoText
  let text := labelText lm ext tp.data tp.textPos style.1.dimtxt style.1.dimgap distance
    tp.textAngle
  { style := style.1
    distance := distance
    outsideArrows := outsideArrows
    arrows := al
    terminators := terms
    placement := tp
    text := text }

/-- The rectangle around the text as the split of the dimension line forms
it, lines 325 to 334. -/
def labelRectangle (ext : Externals) (d : DimensionLineDraft) : List RS_Line :=
  labelEdges d.placement.textPos (fadd (fdiv (ext.getUsedTextWidth d.text) 2) d.style.dimgap)
    (fadd (fdiv (ext.getUsedTextHeight d.text) 2) d.style.dimgap)

/-- The parts that one run of `updateCreateDimensionLine` builds. -/
structure DimensionLineParts where
  dimensionLine : RS_Line
  terminators : List RS_Entity
  dimensionLine2 : Option RS_Line
  text : RS_MTextData
deriving DecidableEq, Repr

/-- The body of `RS_Dimension::updateCreateDimensionLine`: the parts it
builds, the data of the dimension and the variable store it leaves. It
answers `none` when the code reads behind the end of an array. -/
def buildDimensionLine (env : Env) (lm : Libm) (ext : Externals)
    (data : RS_DimensionData) (g : VariableDict) (p1 p2 : RS_Vector)
    (arrow1 arrow2 forceAutoText : Bool) :
    Option (DimensionLineParts × RS_DimensionData × VariableDict) :=
  let d := draftDimensionLine env lm ext data g p1 p2 arrow1 arrow2 forceAutoText
  -- horizontal text, split dimensionLine
  let read3 := getAlignText d.placement.graphicVariables
  if read3.1 then
    let w := fadd (fdiv (ext.getUsedTextWidth d.text) 2) d.style.dimgap
    let h := fadd (fdiv (ext.getUsedTextHeight d.text) 2) d.style.dimgap
    match splitDimensionLine lm p1 d.arrows.dimensionLine d.placement.textPos w h with
    | none => none
    | some (line1, line2) =>
      some (⟨line1, d.terminators, line2, d.text⟩, d.placement.data, read3.2)
  else
    some (⟨d.arrows.dimensionLine, d.terminators, none, d.text⟩, d.placement.data, read3.2)

/-- The point `(x, y)` lies on the line segment. -/
def RS_Line.hasPoint (l : RS_Line) (x y : ℚ) : Prop :=
  ∃ t : ℚ, 0 ≤ t ∧ t ≤ 1 ∧ x = l.startpoint.x + t * (l.endpoint.x - l.startpoint.x) ∧
    y = l.startpoint.y + t * (l.endpoint.y - l.startpoint.y)

/-- The point `(x, y)` lies on one of the edges, so for the four edges of the
rectangle around the text: on the rectangle. -/
def onEdges (edges : List RS_Line) (x y : ℚ) : Prop :=
  ∃ e ∈ edges, e.hasPoint x y

/-- The number of the edges that have an intersection with the dimension
line. -/
def edgesHit (dimensionLine : RS_Line) (edges : List RS_Line) : Nat :=
  (edges.filter (fun e => (getIntersection dimensionLine e).isSome)).length

/-- A surrounding for the examples: a math library that is exact on the
angles of the axes and on the angle of the triangle with the sides 3, 4 and 5,
and whose square root is exact on the squares of rational numbers. -/
def exampleLibm : Libm where
  cos := fun a =>
    if a = 0 then 1 else if a = M_PI then -1
    else if a = M_PI_2 ∨ a = -M_PI_2 ∨ a = 3 * M_PI_2 then 0 else 3 / 5
  sin := fun a =>
    if a = 0 ∨ a = M_PI then 0 else if a = M_PI_2 then 1
    else if a = -M_PI_2 ∨ a = 3 * M_PI_2 then -1
    else if 0 < a then 4 / 5 else -(4 / 5)
  atan2 := fun y x =>
    if y = 0 then (if x < 0 then M_PI else 0) else if 0 < y then M_PI_2 else -M_PI_2
  sqrt := Rat.sqrt

/-- A store for the examples: the flag of the text orientation is stored as 1,
horizontal text, and nothing else is. -/
def horizontalStore : VariableDict := [("$DIMTIH", RS_Variable.VariableInt 1 70)]

/-- The store `horizontalStore` after `readStyle` has read the style from
it. -/
def horizontalStoreRead : VariableDict :=
  [("$DIMTSZ", RS_Variable.VariableDouble 0 40),
    ("$DIMASZ", RS_Variable.VariableDouble (5 / 2) 40),
    ("$DIMGAP", RS_Variable.VariableDouble (5 / 8) 40),
    ("$DIMTXT", RS_Variable.VariableDouble (5 / 2) 40),
    ("$DIMSCALE", RS_Variable.VariableDouble 1 40),
    ("$DIMTIH", RS_Variable.VariableInt 1 70)]

/-- The data of a dimension for the examples: the data of the default
constructor with the middle of the text placed at a point. -/
def placedData (x y : ℚ) : RS_DimensionData :=
  { RS_DimensionData.default with middleOfText := RS_Vector.mk2 x y }

/-- A surrounding for the examples: a text entity that reports the width and
the height 3/4 for every text, the measured label `1`, and an angle that is
readable as it is. -/
def exampleExternals : Externals where
  getMeasuredLabel := ['1']
  makeAngleReadable := fun angle _ => (angle, false)
  getUsedTextWidth := fun _ => 3 / 4
  getUsedTextHeight := fun _ => 3 / 4

/-- A store for the examples: horizontal text, and the gap between the text
and the dimension line stored as 0. -/
def gaplessStore : VariableDict :=
  [("$DIMGAP", RS_Variable.VariableDouble 0 40), ("$DIMTIH", RS_Variable.VariableInt 1 70)]

/-- The store `gaplessStore` after `readStyle` has read the style from it. -/
def gaplessStoreRead : VariableDict :=
  [("$DIMTSZ", RS_Variable.VariableDouble 0 40),
    ("$DIMASZ", RS_Variable.VariableDouble (5 / 2) 40),
    ("$DIMTXT", RS_Variable.VariableDouble (5 / 2) 40),
    ("$DIMSCALE", RS_Variable.VariableDouble 1 40),
    ("$DIMGAP", RS_Variable.VariableDouble 0 40),
    ("$DIMTIH", RS_Variable.VariableInt 1 70)]

/-- A surrounding for the examples: a text entity that reports the width 0
and the height 2 for every text, the measured label `1`, and an angle that is
readable as it is. -/
def thinExternals : Externals where
  getMeasuredLabel := ['1']
  makeAngleReadable := fun angle _ => (angle, false)
  getUsedTextWidth := fun _ => 0
  getUsedTextHeight := fun _ => 2

/-- The first two solutions among the solutions that the edges give, in the
order of the edges: the solution of the first edge that has one, and the
solution of the next edge after it that has one. -/
def firstTwoHits (hits : List (Option RS_Vector)) : Option RS_Vector × Option RS_Vector :=
  (hits.reduceOption[0]?, hits.reduceOption[1]?)

/-- The entity is a solid shaped as an arrow. -/
def RS_Entity.isArrow : RS_Entity → Bool
  | RS_Entity.arrow _ _ _ => true
  | _ => false

/-- The entity is a line, as a tick is. -/
def RS_Entity.isLine : RS_Entity → Bool
  | RS_Entity.line _ => true
  | _ => false

/-- The tick at a point: the line from the point minus the tick vector to the
point plus the tick vector. -/
def tickAt (tickVector p : RS_Vector) : RS_Entity :=
  RS_Entity.line ⟨p.sub tickVector, p.add tickVector⟩

/-- The end point of the dimension line as a whole: the end point of the
second line when the dimension line was split, and of the dimension line
otherwise. -/
def DimensionLineParts.endpoint (parts : DimensionLineParts) : RS_Vector :=
  match parts.dimensionLine2 with
  | some l2 => l2.endpoint
  | none => parts.dimensionLine.endpoint

/-- A store for the examples: the flag of the text orientation is stored as 0,
aligned text, and nothing else is. -/
def alignedStore : VariableDict := [("$DIMTIH", RS_Variable.VariableInt 0 70)]

/-- The store `alignedStore` after `readStyle` has read the style from it. -/
def alignedStoreRead : VariableDict :=
  [("$DIMTSZ", RS_Variable.VariableDouble 0 40),
    ("$DIMASZ", RS_Variable.VariableDouble (5 / 2) 40),
    ("$DIMGAP", RS_Variable.VariableDouble (5 / 8) 40),
    ("$DIMTXT", RS_Variable.VariableDouble (5 / 2) 40),
    ("$DIMSCALE", RS_Variable.VariableDouble 1 40),
    ("$DIMTIH", RS_Variable.VariableInt 0 70)]

/-- The empty store after `readStyle` has read the style from it. -/
def emptyStoreRead : VariableDict :=
  [("$DIMTSZ", RS_Variable.VariableDouble 0 40),
    ("$DIMASZ", RS_Variable.VariableDouble (5 / 2) 40),
    ("$DIMGAP", RS_Variable.VariableDouble (5 / 8) 40),
    ("$DIMTXT", RS_Variable.VariableDouble (5 / 2) 40),
    ("$DIMSCALE", RS_Variable.VariableDouble 1 40)]

/-- The store `emptyStoreRead` after the first call of `getAlignText` has
written the flag 0 to it. -/
def emptyStoreLeft : VariableDict :=
  ("$DIMTIH", RS_Variable.VariableInt 0 70) :: emptyStoreRead

/-- The draft of the dimension from (0, 0) to (0, 100) over a variable store,
with both arrows, a data record that has no position of the text, and
`forceAutoText` not set. -/
def uprightDraft (g : VariableDict) : DimensionLineDraft :=
  draftDimensionLine mmEnv exampleLibm exampleExternals RS_DimensionData.default g
    (RS_Vector.mk2 0 0) (RS_Vector.mk2 0 100) true true false

/-- A surrounding for the examples: the values of the C library at the
arguments of the examples, each the double nearest to the true value, as the
library gives it: the cosine and the sine at 0, at `M_PI_2`, at `-M_PI_2` and
at `M_PI`, the angle of a point of an axis, and the square root of a square.
The cosine of `M_PI_2` is the double 6.123233995736766e-17 and the sine of
`M_PI` is the double 1.2246467991473532e-16: `M_PI_2` and `M_PI` are doubles
near a quarter turn and a half turn, not the turns themselves. At other
arguments, which the examples do not reach, the functions are set to 0. -/
def cLibm : Libm where
  cos := fun a =>
    if a = 0 then 1 else if a = M_PI then -1
    else if a = M_PI_2 ∨ a = -M_PI_2 then 4967757600021511 / 2 ^ 106 else 0
  sin := fun a =>
    if a = M_PI then 4967757600021511 / 2 ^ 105 else if a = M_PI_2 then 1
    else if a = -M_PI_2 then -1 else 0
  atan2 := fun y x =>
    if y = 0 then (if x < 0 then M_PI else 0)
    else if x = 0 then (if 0 < y then M_PI_2 else -M_PI_2) else 0
  sqrt := Rat.sqrt

/-! ## Theorems: the arithmetic of a `double` -/

theorem roundHalfEven_intCast (n : ℤ) : roundHalfEven (n : ℚ) = n := by
  simp [roundHalfEven]

theorem abs_roundHalfEven_sub (x : ℚ) : |(roundHalfEven x : ℚ) - x| ≤ 1 / 2 := by
  have h1 := Int.floor_le x
  have h2 := Int.lt_floor_add_one x
  unfold roundHalfEven
  split_ifs with ha hb hc
  · rw [abs_le]; constructor <;> linarith
  · rw [abs_le]; push_cast; constructor <;> linarith
  · rw [abs_le]; constructor <;> linarith
  · rw [abs_le]; push_cast; constructor <;> linarith

theorem roundHalfEven_of_abs_lt (x : ℚ) (n : ℤ) (h : |x - n| < 1 / 2) :
    roundHalfEven x = n := by
  rw [abs_lt] at h
  have h1 := Int.floor_le x
  have h2 := Int.lt_floor_add_one x
  unfold roundHalfEven
  split_ifs with ha hb hc
  · have a : (⌊x⌋ : ℚ) < ((n + 1 : ℤ) : ℚ) := by push_cast; linarith
    have b : (n : ℚ) < ((⌊x⌋ + 1 : ℤ) : ℚ) := by push_cast; linarith
    have a2 := Int.cast_lt.1 a
    have b2 := Int.cast_lt.1 b
    omega
  · have a : (⌊x⌋ : ℚ) < (n : ℚ) := by linarith
    have b : (n : ℚ) < ((⌊x⌋ + 2 : ℤ) : ℚ) := by push_cast; linarith
    have a2 := Int.cast_lt.1 a
    have b2 := Int.cast_lt.1 b
    omega
  · exfalso
    have e : x - ⌊x⌋ = 1 / 2 := le_antisymm (not_lt.1 hb) (not_lt.1 ha)
    have a : (⌊x⌋ : ℚ) < (n : ℚ) := by linarith
    have b : (n : ℚ) < ((⌊x⌋ + 1 : ℤ) : ℚ) := by push_cast; linarith
    have a2 := Int.cast_lt.1 a
    have b2 := Int.cast_lt.1 b
    omega
  · exfalso
    have e : x - ⌊x⌋ = 1 / 2 := le_antisymm (not_lt.1 hb) (not_lt.1 ha)
    have a : (⌊x⌋ : ℚ) < (n : ℚ) := by linarith
    have b : (n : ℚ) < ((⌊x⌋ + 1 : ℤ) : ℚ) := by push_cast; linarith
    have a2 := Int.cast_lt.1 a
    have b2 := Int.cast_lt.1 b
    omega

theorem roundHalfEven_half (n : ℤ) :
    roundHalfEven (n + 1 / 2) = if n % 2 = 0 then n else n + 1 := by
  have hf : ⌊(n : ℚ) + 1 / 2⌋ = n := by
    rw [Int.floor_eq_iff]
    constructor <;> linarith
  unfold roundHalfEven
  rw [hf]
  have e : (n : ℚ) + 1 / 2 - n = 1 / 2 := by ring
  rw [e]
  simp

theorem two_zpow_pos (e : ℤ) : (0 : ℚ) < 2 ^ e := zpow_pos (by norm_num) e

theorem ulpExponent_ge (q : ℚ) : -1074 ≤ ulpExponent q := le_max_right _ _

theorem ulpExponent_of_mem (q : ℚ) (n : ℤ) (h1 : (2 : ℚ) ^ n ≤ |q|) (h2 : |q| < 2 ^ (n + 1))
    (hn : -1022 ≤ n) : ulpExponent q = n - 52 := by
  have hq : 0 < |q| := lt_of_lt_of_le (two_zpow_pos n) h1
  have hlog : Int.log 2 |q| = n := by
    have a : n ≤ Int.log 2 |q| := (Int.zpow_le_iff_le_log (by norm_num) hq).1 (by exact_mod_cast h1)
    have b : Int.log 2 |q| < n + 1 := (Int.lt_zpow_iff_log_lt (by norm_num) hq).1 (by exact_mod_cast h2)
    omega
  unfold ulpExponent
  rw [hlog]
  exact max_eq_left (by omega)

theorem ulpExponent_of_small (q : ℚ) (hq : q ≠ 0) (h : |q| < 2 ^ (-1022 : ℤ)) :
    ulpExponent q = -1074 := by
  unfold ulpExponent
  apply max_eq_right
  have hq : 0 < |q| := abs_pos.2 hq
  have b : Int.log 2 |q| < -1022 :=
    (Int.lt_zpow_iff_log_lt (by norm_num) hq).1 (by exact_mod_cast h)
  omega

@[simp]
theorem roundDouble_zero : roundDouble 0 = 0 := by
  simp [roundDouble, roundHalfEven]

/-- A number that `52 + 1` binary places hold, the last one not below the
place `2 ^ (-1074)`, is a `double`. -/
theorem roundDouble_dyadic (m e : ℤ) (hm : |m| < 2 ^ 53) (he : -1074 ≤ e) :
    roundDouble ((m : ℚ) * 2 ^ e) = m * 2 ^ e := by
  by_cases hm0 : m = 0
  · simp [hm0, roundDouble_zero]
  have hq : 0 < |(m : ℚ) * 2 ^ e| :=
    abs_pos.2 (mul_ne_zero (by exact_mod_cast hm0) (ne_of_gt (two_zpow_pos e)))
  have hE : ulpExponent ((m : ℚ) * 2 ^ e) ≤ e := by
    unfold ulpExponent
    apply max_le _ he
    have hlt : |(m : ℚ) * 2 ^ e| < (2 : ℚ) ^ (53 + e) := by
      rw [abs_mul, abs_of_pos (two_zpow_pos e), zpow_add₀ (by norm_num : (2 : ℚ) ≠ 0)]
      apply mul_lt_mul_of_pos_right _ (two_zpow_pos e)
      exact_mod_cast hm
    have b : Int.log 2 |(m : ℚ) * 2 ^ e| < 53 + e :=
      (Int.lt_zpow_iff_log_lt (by norm_num) hq).1 (by exact_mod_cast hlt)
    omega
  obtain ⟨k, hk⟩ : ∃ k : ℕ, e - ulpExponent ((m : ℚ) * 2 ^ e) = k :=
    ⟨(e - ulpExponent ((m : ℚ) * 2 ^ e)).toNat, (Int.toNat_of_nonneg (by omega)).symm⟩
  have hdiv : (m : ℚ) * 2 ^ e / 2 ^ ulpExponent ((m : ℚ) * 2 ^ e) = ((m * 2 ^ k : ℤ) : ℚ) := by
    rw [mul_div_assoc, ← zpow_sub₀ (by norm_num : (2 : ℚ) ≠ 0), hk, zpow_natCast]
    push_cast
    rfl
  unfold roundDouble
  rw [hdiv, roundHalfEven_intCast, ← hdiv]
  field_simp

/-- The double nearest to a number between `2 ^ n` and `2 ^ (n + 1)`. -/
theorem roundDouble_of_mem (q : ℚ) (n k : ℤ) (h1 : (2 : ℚ) ^ n ≤ |q|) (h2 : |q| < 2 ^ (n + 1))
    (hn : -1022 ≤ n) (hk : roundHalfEven (q / 2 ^ (n - 52)) = k) :
    roundDouble q = k * 2 ^ (n - 52) := by
  unfold roundDouble
  rw [ulpExponent_of_mem q n h1 h2 hn, hk]

theorem roundHalfEven_cases (x : ℚ) :
    |x - roundHalfEven x| < 1 / 2 ∨ x = ⌊x⌋ + 1 / 2 := by
  have h1 := Int.floor_le x
  have h2 := Int.lt_floor_add_one x
  unfold roundHalfEven
  split_ifs with ha hb hc
  · left; rw [abs_lt]; constructor <;> linarith
  · left; rw [abs_lt]; push_cast; constructor <;> linarith
  · right; linarith [not_lt.1 ha, not_lt.1 hb]
  · right; linarith [not_lt.1 ha, not_lt.1 hb]

theorem roundHalfEven_neg (x : ℚ) : roundHalfEven (-x) = -roundHalfEven x := by
  rcases roundHalfEven_cases x with h | h
  · apply roundHalfEven_of_abs_lt
    push_cast
    rw [show -x - -(roundHalfEven x : ℚ) = -(x - roundHalfEven x) by ring, abs_neg]
    exact h
  · have e1 : -x = ((-(⌊x⌋ + 1) : ℤ) : ℚ) + 1 / 2 := by
      push_cast
      linarith
    have e2 : roundHalfEven x = roundHalfEven ((⌊x⌋ : ℚ) + 1 / 2) := by rw [← h]
    rw [e2, e1, roundHalfEven_half, roundHalfEven_half]
    split_ifs <;> omega

theorem ulpExponent_neg (q : ℚ) : ulpExponent (-q) = ulpExponent q := by
  unfold ulpExponent
  rw [abs_neg]

@[simp]
theorem roundDouble_neg (q : ℚ) : roundDouble (-q) = -roundDouble q := by
  unfold roundDouble
  rw [ulpExponent_neg, neg_div, roundHalfEven_neg]
  push_cast
  ring

/-- The double nearest to a positive number between `2 ^ n` and
`2 ^ (n + 1)` that does not lie in the middle of two doubles. -/
theorem roundDouble_of_near (q : ℚ) (n k : ℤ) (h1 : (2 : ℚ) ^ n ≤ q) (h2 : q < 2 ^ (n + 1))
    (hn : -1022 ≤ n) (hlo : (k : ℚ) - 1 / 2 < q / 2 ^ (n - 52))
    (hhi : q / 2 ^ (n - 52) < (k : ℚ) + 1 / 2) :
    roundDouble q = k * 2 ^ (n - 52) := by
  have hq : 0 ≤ q := le_trans (le_of_lt (two_zpow_pos n)) h1
  apply roundDouble_of_mem q n k (by rwa [abs_of_nonneg hq]) (by rwa [abs_of_nonneg hq]) hn
  apply roundHalfEven_of_abs_lt
  rw [abs_lt]
  constructor <;> linarith

/-- The double nearest to a positive number between `2 ^ n` and
`2 ^ (n + 1)` that lies in the middle of two doubles: the one of the two with
the even last place. -/
theorem roundDouble_of_tie (q : ℚ) (n k : ℤ) (h1 : (2 : ℚ) ^ n ≤ q) (h2 : q < 2 ^ (n + 1))
    (hn : -1022 ≤ n) (hk : q / 2 ^ (n - 52) = (k : ℚ) + 1 / 2) :
    roundDouble q = (if k % 2 = 0 then k else k + 1 : ℤ) * 2 ^ (n - 52) := by
  have hq : 0 ≤ q := le_trans (le_of_lt (two_zpow_pos n)) h1
  apply roundDouble_of_mem q n _ (by rwa [abs_of_nonneg hq]) (by rwa [abs_of_nonneg hq]) hn
  rw [hk, roundHalfEven_half]

theorem abs_div_ulp_lt (q : ℚ) : |q / 2 ^ ulpExponent q| < 2 ^ (53 : ℤ) := by
  have hp := two_zpow_pos (ulpExponent q)
  have h1 : |q| < (2 : ℚ) ^ (Int.log 2 |q| + 1) := by
    exact_mod_cast Int.lt_zpow_succ_log_self (by norm_num : 1 < 2) |q|
  have h2 : (2 : ℚ) ^ (Int.log 2 |q| + 1) ≤ 2 ^ (ulpExponent q + 53) := by
    apply zpow_le_zpow_right₀ (by norm_num)
    have : Int.log 2 |q| - 52 ≤ ulpExponent q := le_max_left _ _
    omega
  rw [abs_div, abs_of_pos hp, div_lt_iff₀ hp, ← zpow_add₀ (by norm_num : (2 : ℚ) ≠ 0), add_comm]
  exact lt_of_lt_of_le h1 h2

/-- A double is rounded to itself. -/
@[simp]
theorem roundDouble_roundDouble (q : ℚ) : roundDouble (roundDouble q) = roundDouble q := by
  have hx := abs_div_ulp_lt q
  have hr := abs_roundHalfEven_sub (q / 2 ^ ulpExponent q)
  have hk : |roundHalfEven (q / 2 ^ ulpExponent q)| ≤ 2 ^ 53 := by
    have h1 : |(roundHalfEven (q / 2 ^ ulpExponent q) : ℚ)| < 2 ^ (53 : ℤ) + 1 / 2 := by
      calc |(roundHalfEven (q / 2 ^ ulpExponent q) : ℚ)|
          = |((roundHalfEven (q / 2 ^ ulpExponent q) : ℚ) - q / 2 ^ ulpExponent q)
              + q / 2 ^ ulpExponent q| := by ring_nf
        _ ≤ |(roundHalfEven (q / 2 ^ ulpExponent q) : ℚ) - q / 2 ^ ulpExponent q|
              + |q / 2 ^ ulpExponent q| := abs_add _ _
        _ < 2 ^ (53 : ℤ) + 1 / 2 := by linarith
    have h2 : ((|roundHalfEven (q / 2 ^ ulpExponent q)| : ℤ) : ℚ) < ((2 ^ 53 + 1 : ℤ) : ℚ) := by
      push_cast
      have : (2 : ℚ) ^ (53 : ℤ) = 2 ^ 53 := by norm_num
      linarith
    have h3 := Int.cast_lt.1 h2
    omega
  have hE := ulpExponent_ge q
  rcases lt_or_eq_of_le hk with hlt | heq
  · exact roundDouble_dyadic _ _ hlt hE
  · have hcases : roundHalfEven (q / 2 ^ ulpExponent q) = 2 ^ 53 ∨
        roundHalfEven (q / 2 ^ ulpExponent q) = -(2 ^ 53) := by
      rcases abs_cases (roundHalfEven (q / 2 ^ ulpExponent q)) with ⟨h, _⟩ | ⟨h, _⟩ <;> omega
    have e2 : ((2 ^ 53 : ℤ) : ℚ) = 2 ^ (53 : ℤ) := by norm_num
    rcases hcases with h | h
    · have e : roundDouble q = ((1 : ℤ) : ℚ) * 2 ^ (53 + ulpExponent q) := by
        unfold roundDouble
        rw [h, e2, zpow_add₀ (by norm_num : (2 : ℚ) ≠ 0)]
        push_cast
        ring
      rw [e]
      exact roundDouble_dyadic 1 _ (by norm_num) (by omega)
    · have e : roundDouble q = ((-1 : ℤ) : ℚ) * 2 ^ (53 + ulpExponent q) := by
        unfold roundDouble
        rw [h, zpow_add₀ (by norm_num : (2 : ℚ) ≠ 0)]
        push_cast
        ring
      rw [e]
      exact roundDouble_dyadic (-1) _ (by norm_num) (by omega)

theorem roundDouble_intCast (n : ℤ) (h : |n| < 2 ^ 53) : roundDouble (n : ℚ) = n := by
  have := roundDouble_dyadic n 0 h (by norm_num)
  simpa using this

@[simp]
theorem roundDouble_one : roundDouble 1 = 1 := by
  simpa using roundDouble_intCast 1 (by norm_num)

/-- A number `m / 2 ^ k` with less than 53 binary places in `m` is a
double. -/
theorem roundDouble_div_pow (m : ℤ) (k : ℕ) (hm : |m| < 2 ^ 53) (hk : k ≤ 1074) :
    roundDouble ((m : ℚ) / 2 ^ k) = m / 2 ^ k := by
  have := roundDouble_dyadic m (-(k : ℤ)) hm (by omega)
  rw [zpow_neg, zpow_natCast, ← div_eq_mul_inv] at this
  exact this

@[simp]
theorem roundDouble_ofNat (n : ℕ) [n.AtLeastTwo] (h : n < 9007199254740992) :
    roundDouble (no_index (OfNat.ofNat n : ℚ)) = OfNat.ofNat n := by
  have := roundDouble_intCast (n : ℤ) (by rw [abs_of_nonneg (by positivity)]; exact_mod_cast h)
  simpa using this

theorem ofNat_eq_two_pow (d : ℕ) [d.AtLeastTwo] (hd : 18446744073709551616 % d = 0) :
    ∃ k : ℕ, k ≤ 64 ∧ (OfNat.ofNat d : ℚ) = 2 ^ k := by
  have hdvd : d ∣ 2 ^ 64 := Nat.dvd_of_mod_eq_zero (by norm_num; exact hd)
  obtain ⟨k, hk, hdk⟩ := (Nat.dvd_prime_pow Nat.prime_two).1 hdvd
  refine ⟨k, hk, ?_⟩
  rw [← Nat.cast_ofNat (R := ℚ)]
  simp only [OfNat.ofNat]
  rw [hdk]
  push_cast
  rfl

@[simp]
theorem roundDouble_ofNat_div (n d : ℕ) [n.AtLeastTwo] [d.AtLeastTwo]
    (h : n < 9007199254740992) (hd : 18446744073709551616 % d = 0) :
    roundDouble (no_index ((OfNat.ofNat n : ℚ) / OfNat.ofNat d)) =
      OfNat.ofNat n / OfNat.ofNat d := by
  obtain ⟨k, hk, e1⟩ := ofNat_eq_two_pow d hd
  have e2 : (OfNat.ofNat n : ℚ) = ((n : ℤ) : ℚ) := by
    rw [← Nat.cast_ofNat (R := ℚ)]
    simp [OfNat.ofNat]
  rw [e1, e2]
  exact roundDouble_div_pow (n : ℤ) k
    (by rw [abs_of_nonneg (by positivity)]; exact_mod_cast h) (by omega)

@[simp]
theorem roundDouble_one_div (d : ℕ) [d.AtLeastTwo] (hd : 18446744073709551616 % d = 0) :
    roundDouble (no_index ((1 : ℚ) / OfNat.ofNat d)) = 1 / OfNat.ofNat d := by
  obtain ⟨k, hk, e1⟩ := ofNat_eq_two_pow d hd
  rw [e1]
  have := roundDouble_div_pow 1 k (by norm_num) (by omega)
  simpa using this

@[simp]
theorem roundDouble_inv (d : ℕ) [d.AtLeastTwo] (hd : 18446744073709551616 % d = 0) :
    roundDouble (no_index ((OfNat.ofNat d : ℚ)⁻¹)) = (OfNat.ofNat d)⁻¹ := by
  have := roundDouble_one_div d hd
  simpa using this

/-! ## Theorems: the label -/

theorem replaceToken_of_free (m : QString) :
    ∀ p : QString, ¬ token <:+: p → replaceToken m p = p := by
  intro p
  induction p using replaceToken.induct m with
  | case1 rest _ =>
    intro h
    exact absurd (List.IsPrefix.isInfix ⟨rest, rfl⟩) h
  | case2 c rest hne ih =>
    intro h
    rw [replaceToken.eq_2 _ _ _ hne, ih]
    intro h2
    exact h (h2.trans (List.IsSuffix.isInfix (List.suffix_cons c rest)))
  | case3 => intro _; rfl

theorem replaceToken_piece_token (m rest : QString) :
    ∀ p : QString, ¬ token <:+: p →
      replaceToken m (p ++ '<' :: '>' :: rest) = p ++ (m ++ replaceToken m rest) := by
  intro p
  induction p with
  | nil => intro _; simp [replaceToken]
  | cons c p ih =>
    intro h
    have hp : ¬ token <:+: p := fun h2 =>
      h (h2.trans (List.IsSuffix.isInfix (List.suffix_cons c p)))
    have hne : ∀ r : List Char, c = '<' → p ++ '<' :: '>' :: rest = '>' :: r → False := by
      intro r hc hr
      cases p with
      | nil => simp at hr
      | cons d p2 =>
        simp only [List.cons_append, List.cons.injEq] at hr
        apply h
        rw [hc, hr.1]
        exact List.IsPrefix.isInfix ⟨p2, rfl⟩
    rw [List.cons_append, replaceToken.eq_2 _ _ _ hne, ih hp, List.cons_append]

theorem replaceToken_intercalate (m : QString) :
    ∀ pieces : List QString, (∀ p ∈ pieces, ¬ token <:+: p) →
      replaceToken m (List.intercalate token pieces) = List.intercalate m pieces := by
  intro pieces
  induction pieces with
  | nil => intro _; simp [List.intercalate, replaceToken]
  | cons p ps ih =>
    intro h
    cases ps with
    | nil =>
      simpa [List.intercalate] using replaceToken_of_free m p (h p (by simp))
    | cons q qs =>
      have hrec := ih (fun r hr => h r (List.mem_cons_of_mem p hr))
      have hp := h p (by simp)
      have e1 : List.intercalate token (p :: q :: qs)
          = p ++ '<' :: '>' :: List.intercalate token (q :: qs) := by
        simp [List.intercalate, token]
      have e2 : List.intercalate m (p :: q :: qs)
          = p ++ (m ++ List.intercalate m (q :: qs)) := by
        simp [List.intercalate]
      rw [e1, e2, replaceToken_piece_token m _ p hp, hrec]

theorem exists_pieces (t : QString) :
    ∃ pieces : List QString, pieces ≠ [] ∧ (∀ p ∈ pieces, ¬ token <:+: p) ∧
      t = List.intercalate token pieces := by
  induction t using replaceToken.induct [] with
  | case1 rest ih =>
    obtain ⟨pieces, hne, hfree, heq⟩ := ih
    refine ⟨[] :: pieces, by simp, ?_, ?_⟩
    · intro p hp
      rcases List.mem_cons.1 hp with rfl | hp
      · simp [token]
      · exact hfree p hp
    · cases pieces with
      | nil => exact absurd rfl hne
      | cons q qs => rw [heq]; simp [List.intercalate, token]
  | case2 c rest hne ih =>
    obtain ⟨pieces, hne2, hfree, heq⟩ := ih
    cases pieces with
    | nil => exact absurd rfl hne2
    | cons q qs =>
      refine ⟨(c :: q) :: qs, by simp, ?_, ?_⟩
      · intro p hp
        rcases List.mem_cons.1 hp with rfl | hp
        · intro hinf
          rcases List.infix_cons_iff.1 hinf with hpre | hin
          · obtain ⟨s, hs⟩ := hpre
            simp only [token, List.cons_append, List.nil_append, List.cons.injEq] at hs
            obtain ⟨hc, hq⟩ := hs
            cases qs with
            | nil =>
              apply hne s hc.symm
              rw [heq, ← hq]; simp [List.intercalate]
            | cons q2 qs2 =>
              apply hne (s ++ '<' :: '>' :: List.intercalate token (q2 :: qs2)) hc.symm
              rw [heq, ← hq]; simp [List.intercalate, token]
          · exact hfree q (by simp) hin
        · exact hfree p (List.mem_cons_of_mem q hp)
      · rw [heq]
        cases qs with
        | nil => simp [List.intercalate]
        | cons q2 qs2 => simp [List.intercalate]
  | case3 => exact ⟨[[]], by simp, by simp [token], by simp [List.intercalate]⟩

/-- C1: with `resolve` set, `getLabel` answers the empty string for the
template of exactly one space and the measured label for the empty template;
for every other template it answers the template with every occurrence of
`<>` replaced by the measured label: the template falls into pieces free of
`<>` with one `<>` between two neighbours, and the answer is these pieces with
the measured label between two neighbours, the inserted text being left as it
is. -/
theorem getLabel_resolve (data : RS_DimensionData) (m : QString) :
    (data.text = [' '] → getLabel data m true = []) ∧
    (data.text = [] → getLabel data m true = m) ∧
    (data.text ≠ [' '] → data.text ≠ [] →
      (∃ pieces : List QString, (∀ p ∈ pieces, ¬ token <:+: p) ∧
        data.text = List.intercalate token pieces) ∧
      ∀ pieces : List QString, (∀ p ∈ pieces, ¬ token <:+: p) →
        data.text = List.intercalate token pieces →
        getLabel data m true = List.intercalate m pieces) := by
  refine ⟨fun h => by simp [getLabel, h], fun h => by simp [getLabel, h], ?_⟩
  intro h1 h2
  refine ⟨?_, ?_⟩
  · obtain ⟨pieces, _, hfree, heq⟩ := exists_pieces data.text
    exact ⟨pieces, hfree, heq⟩
  · intro pieces hfree heq
    have : getLabel data m true = replaceToken m data.text := by
      simp [getLabel, h1, h2]
    rw [this, heq, replaceToken_intercalate m pieces hfree]

/-- The example of C1: the template `Len=<>mm` and the measured label `12.5`
give `Len=12.5mm`. -/
theorem getLabel_resolve_witness :
    getLabel { RS_DimensionData.default with text := "Len=<>mm".toList } "12.5".toList true
      = "Len=12.5mm".toList :=
  ((getLabel_resolve { RS_DimensionData.default with text := "Len=<>mm".toList }
      "12.5".toList).2.2 (by decide) (by decide)).2
    ["Len=".toList, "mm".toList] (by decide) (by decide)

/-! ## Theorems: graphic variables -/

theorem find_addGraphicVariable (g : VariableDict) (key : String) (x : ℚ) (code : Int) :
    (addGraphicVariable g key x code).find key = some (RS_Variable.VariableDouble x code) := by
  simp [addGraphicVariable, VariableDict.find, List.lookup]

theorem getGraphicVariableDouble_add (g : VariableDict) (key : String) (x dflt : ℚ)
    (code : Int) :
    getGraphicVariableDouble (addGraphicVariable g key x code) key dflt = x := by
  simp [getGraphicVariableDouble, find_addGraphicVariable]

theorem getGraphicVariable_unset (env : Env) (key : String) (d : ℚ) (code : Int)
    (g : VariableDict)
    (h : getGraphicVariableDouble g key env.RS_MINDOUBLE ≤ env.RS_MINDOUBLE) :
    getGraphicVariable env key d code g =
      (env.convert d RS2Unit.Millimeter env.graphicUnit,
        addGraphicVariable g key (env.convert d RS2Unit.Millimeter env.graphicUnit) code) := by
  simp [getGraphicVariable, h, getGraphicVariableDouble_add]

theorem getGraphicVariable_set (env : Env) (key : String) (d : ℚ) (code : Int)
    (g : VariableDict)
    (h : env.RS_MINDOUBLE < getGraphicVariableDouble g key env.RS_MINDOUBLE) :
    getGraphicVariable env key d code g =
      (getGraphicVariableDouble g key env.RS_MINDOUBLE, g) := by
  simp [getGraphicVariable, not_le.2 h]

theorem getGraphicVariable_empty (env : Env) (key : String) (d : ℚ) (code : Int)
    (hu : env.graphicUnit = RS2Unit.Millimeter)
    (hc : ∀ x : ℚ, env.convert x RS2Unit.Millimeter RS2Unit.Millimeter = x) :
    (getGraphicVariable env key d code []).1 = d := by
  rw [getGraphicVariable_unset env key d code [] (by
    simp [getGraphicVariableDouble, VariableDict.find]), hu, hc]

/-- C2: `getGraphicVariable` on a store that holds under the key a number
greater than `RS_MINDOUBLE` answers that number and leaves the store as it is;
on a store that holds no number under the key, or one that is at most
`RS_MINDOUBLE`, it writes the default converted from millimetres to the unit of
the graphic under the key with the given code and answers that converted
default. On the empty store of a graphic in millimetres the getters answer
1, 2.5, 2.5, 0, 1.25, 0.625 and 0.625. -/
theorem getGraphicVariable_spec (env : Env) (key : String) (d : ℚ) (code : Int)
    (g : VariableDict) :
    (∀ (v : ℚ) (c : Int), g.find key = some (RS_Variable.VariableDouble v c) →
      env.RS_MINDOUBLE < v → getGraphicVariable env key d code g = (v, g)) ∧
    (((∀ (v : ℚ) (c : Int), g.find key ≠ some (RS_Variable.VariableDouble v c)) ∨
        ∃ (v : ℚ) (c : Int), g.find key = some (RS_Variable.VariableDouble v c) ∧
          v ≤ env.RS_MINDOUBLE) →
      getGraphicVariable env key d code g =
        (env.convert d RS2Unit.Millimeter env.graphicUnit,
          addGraphicVariable g key (env.convert d RS2Unit.Millimeter env.graphicUnit) code) ∧
      (getGraphicVariable env key d code g).2.find key =
        some (RS_Variable.VariableDouble
          (env.convert d RS2Unit.Millimeter env.graphicUnit) code)) ∧
    (env.graphicUnit = RS2Unit.Millimeter →
      (∀ x : ℚ, env.convert x RS2Unit.Millimeter RS2Unit.Millimeter = x) →
      (getGeneralScale env []).1 = 1 ∧ (getTextHeight env []).1 = 5 / 2 ∧
      (getArrowSize env []).1 = 5 / 2 ∧ (getTickSize env []).1 = 0 ∧
      (getExtensionLineExtension env []).1 = 5 / 4 ∧
      (getExtensionLineOffset env []).1 = 5 / 8 ∧
      (getDimensionLineGap env []).1 = 5 / 8) := by
  refine ⟨?_, ?_, ?_⟩
  · intro v c hf hv
    have e : getGraphicVariableDouble g key env.RS_MINDOUBLE = v := by
      simp [getGraphicVariableDouble, hf]
    rw [getGraphicVariable_set env key d code g (by rw [e]; exact hv), e]
  · intro h
    have hle : getGraphicVariableDouble g key env.RS_MINDOUBLE ≤ env.RS_MINDOUBLE := by
      rcases h with h | ⟨v, c, hf, hv⟩
      · unfold getGraphicVariableDouble
        split
        · next v c hf => exact absurd hf (h v c)
        · exact le_refl _
      · simpa [getGraphicVariableDouble, hf] using hv
    rw [getGraphicVariable_unset env key d code g hle]
    exact ⟨rfl, find_addGraphicVariable _ _ _ _⟩
  · intro hu hc
    exact ⟨getGraphicVariable_empty env _ _ _ hu hc, getGraphicVariable_empty env _ _ _ hu hc,
      getGraphicVariable_empty env _ _ _ hu hc, getGraphicVariable_empty env _ _ _ hu hc,
      getGraphicVariable_empty env _ _ _ hu hc, getGraphicVariable_empty env _ _ _ hu hc,
      getGraphicVariable_empty env _ _ _ hu hc⟩

/-- An instance of C2: on the empty store of a graphic in millimetres the
arrow size is 2.5, and a stored arrow size of 3 is answered without a write. -/
theorem getGraphicVariable_spec_witness :
    (getArrowSize mmEnv []).1 = 5 / 2 ∧
    getGraphicVariable mmEnv "$DIMASZ" (5 / 2) 40
        [("$DIMASZ", RS_Variable.VariableDouble 3 40)]
      = (3, [("$DIMASZ", RS_Variable.VariableDouble 3 40)]) :=
  ⟨((getGraphicVariable_spec mmEnv "$DIMASZ" (5 / 2) 40 []).2.2 rfl (fun _ => rfl)).2.2.1,
    (getGraphicVariable_spec mmEnv "$DIMASZ" (5 / 2) 40
      [("$DIMASZ", RS_Variable.VariableDouble 3 40)]).1 3 40
      (by simp [VariableDict.find, List.lookup]) (by norm_num [mmEnv])⟩

/-- C3, as the code has it: two calls of `getGraphicVariable` one after the
other answer the same value, and when that value is greater than
`RS_MINDOUBLE` the second call leaves the store as the first call left it, so
that the two calls together write at most once. -/
theorem getGraphicVariable_twice (env : Env) (key : String) (d : ℚ) (code : Int)
    (g : VariableDict) :
    (getGraphicVariable env key d code (getGraphicVariable env key d code g).2).1
      = (getGraphicVariable env key d code g).1 ∧
    (env.RS_MINDOUBLE < (getGraphicVariable env key d code g).1 →
      (getGraphicVariable env key d code (getGraphicVariable env key d code g).2).2
        = (getGraphicVariable env key d code g).2 ∧
      (getGraphicVariable env key d code
        (getGraphicVariable env key d code g).2).2.length ≤ g.length + 1) := by
  by_cases h : getGraphicVariableDouble g key env.RS_MINDOUBLE ≤ env.RS_MINDOUBLE
  · rw [getGraphicVariable_unset env key d code g h]
    by_cases h2 : env.convert d RS2Unit.Millimeter env.graphicUnit ≤ env.RS_MINDOUBLE
    · refine ⟨?_, fun h3 => absurd h2 (not_le.2 h3)⟩
      rw [getGraphicVariable_unset env key d code _ (by
        rw [getGraphicVariableDouble_add]; exact h2)]
    · have h3 := getGraphicVariable_set env key d code
        (addGraphicVariable g key (env.convert d RS2Unit.Millimeter env.graphicUnit) code)
        (by rw [getGraphicVariableDouble_add]; exact not_le.1 h2)
      rw [getGraphicVariableDouble_add] at h3
      rw [h3]
      exact ⟨rfl, fun _ => ⟨rfl, by simp [addGraphicVariable]⟩⟩
  · have h1 := getGraphicVariable_set env key d code g (not_le.1 h)
    rw [h1]
    simp only
    rw [h1]
    exact ⟨rfl, fun _ => ⟨rfl, by simp⟩⟩

/-- An instance of C3: the arrow size on the empty store, asked for twice. -/
theorem getGraphicVariable_twice_witness :
    (getGraphicVariable mmEnv "$DIMASZ" (5 / 2) 40
      (getGraphicVariable mmEnv "$DIMASZ" (5 / 2) 40 []).2).2
      = (getGraphicVariable mmEnv "$DIMASZ" (5 / 2) 40 []).2 :=
  ((getGraphicVariable_twice mmEnv "$DIMASZ" (5 / 2) 40 []).2
    (by norm_num [getGraphicVariable, getGraphicVariableDouble, VariableDict.find,
      addGraphicVariable, mmEnv])).1

/-- C3 fails as stated: with the default `-2.0E+10`, which is not greater than
`RS_MINDOUBLE`, the second call writes again and the store, empty before,
holds two writes after the two calls. -/
theorem getGraphicVariable_twice_counterexample :
    (getGraphicVariable mmEnv "$DIMTSZ" (-20000000000) 40
      (getGraphicVariable mmEnv "$DIMTSZ" (-20000000000) 40 []).2).2
      = [("$DIMTSZ", RS_Variable.VariableDouble (-20000000000) 40),
         ("$DIMTSZ", RS_Variable.VariableDouble (-20000000000) 40)] ∧
    ¬ ((getGraphicVariable mmEnv "$DIMTSZ" (-20000000000) 40
      (getGraphicVariable mmEnv "$DIMTSZ" (-20000000000) 40 []).2).2.length
        ≤ ([] : VariableDict).length + 1) := by
  have e : (getGraphicVariable mmEnv "$DIMTSZ" (-20000000000) 40
      (getGraphicVariable mmEnv "$DIMTSZ" (-20000000000) 40 []).2).2
      = [("$DIMTSZ", RS_Variable.VariableDouble (-20000000000) 40),
         ("$DIMTSZ", RS_Variable.VariableDouble (-20000000000) 40)] := by
    norm_num [getGraphicVariable, getGraphicVariableDouble, VariableDict.find,
      addGraphicVariable, mmEnv, List.lookup]
  rw [e]
  exact ⟨rfl, by decide⟩

/-! ## Theorems: the flag of the text orientation -/

theorem getAlignText_of_le_one (g : VariableDict) (v c : Int)
    (hf : g.find "$DIMTIH" = some (RS_Variable.VariableInt v c)) (hv : v ≤ 1) :
    getAlignText g = (decide (v ≠ 0), g) := by
  have e : getGraphicVariableInt g "$DIMTIH" 2 = v := by
    simp [getGraphicVariableInt, hf]
  unfold getAlignText
  simp only [e, gt_iff_lt, not_lt.2 hv, if_false]
  by_cases h0 : v = 0 <;> simp [h0]

theorem getAlignText_of_one_lt (g : VariableDict) (v c : Int)
    (hf : g.find "$DIMTIH" = some (RS_Variable.VariableInt v c)) (hv : 1 < v) :
    getAlignText g = (true, addGraphicVariableInt g "$DIMTIH" 0 70) := by
  have e : getGraphicVariableInt g "$DIMTIH" 2 = v := by
    simp [getGraphicVariableInt, hf]
  have h0 : v ≠ 0 := by omega
  unfold getAlignText
  simp [e, hv, h0]

/-- C4, as the code has it: on a store that holds the flag `$DIMTIH` with a
value of at most 1, `getAlignText` reads the flag as it is stored, without a
correction: it answers `false` for the stored 0 and `true` for every other
such value, the stored 1 and the negative values, and leaves the store as it
is. -/
theorem getAlignText_stored (g : VariableDict) (v c : Int)
    (hf : g.find "$DIMTIH" = some (RS_Variable.VariableInt v c)) (hv : v ≤ 1) :
    ((getAlignText g).1 = false ↔ v = 0) ∧ ((getAlignText g).1 = true ↔ v ≠ 0) ∧
      (getAlignText g).2 = g := by
  rw [getAlignText_of_le_one g v c hf hv]
  simp

/-- An instance of C4: the stored flag 0 is read as `false`. -/
theorem getAlignText_stored_witness :
    (getAlignText [("$DIMTIH", RS_Variable.VariableInt 0 70)]).1 = false :=
  (getAlignText_stored [("$DIMTIH", RS_Variable.VariableInt 0 70)] 0 70
    (by simp [VariableDict.find, List.lookup]) (by decide)).1.2 rfl

/-- C4 fails as stated: `getAlignText` answers `true` on the store without the
flag, on a store with the flag 2 and on a store with the flag -1. -/
theorem getAlignText_counterexample :
    (getAlignText []).1 = true ∧
    (getAlignText [("$DIMTIH", RS_Variable.VariableInt 2 70)]).1 = true ∧
    (getAlignText [("$DIMTIH", RS_Variable.VariableInt (-1) 70)]).1 = true := by
  refine ⟨?_, ?_, ?_⟩ <;>
    simp [getAlignText, getGraphicVariableInt, VariableDict.find, List.lookup]

/-- C5, as the code has it: when the flag `$DIMTIH` is stored with a value
greater than 1, the store holds 0 for it after one call of `getAlignText`;
when it is stored with a value of at most 1, that is 0, 1 or a negative value,
the call leaves the store as it is. -/
theorem getAlignText_store (g : VariableDict) (v c : Int)
    (hf : g.find "$DIMTIH" = some (RS_Variable.VariableInt v c)) :
    (1 < v → (getAlignText g).2.find "$DIMTIH" = some (RS_Variable.VariableInt 0 70) ∧
      getGraphicVariableInt (getAlignText g).2 "$DIMTIH" 2 = 0) ∧
    (v ≤ 1 → (getAlignText g).2 = g) := by
  constructor
  · intro hv
    rw [getAlignText_of_one_lt g v c hf hv]
    simp [getGraphicVariableInt, addGraphicVariableInt, VariableDict.find, List.lookup]
  · intro hv
    rw [getAlignText_of_le_one g v c hf hv]

/-- An instance of C5: the stored flag 7 is replaced by 0. -/
theorem getAlignText_store_witness :
    getGraphicVariableInt (getAlignText [("$DIMTIH", RS_Variable.VariableInt 7 70)]).2
      "$DIMTIH" 2 = 0 :=
  ((getAlignText_store [("$DIMTIH", RS_Variable.VariableInt 7 70)] 7 70
    (by simp [VariableDict.find, List.lookup])).1 (by decide)).2

/-- C5 fails as stated: the stored flag -1 is outside of 0 and 1, and after one
call of `getAlignText` the store still holds -1 for it, not 0. -/
theorem getAlignText_store_counterexample :
    (getAlignText [("$DIMTIH", RS_Variable.VariableInt (-1) 70)]).2
      = [("$DIMTIH", RS_Variable.VariableInt (-1) 70)] ∧
    getGraphicVariableInt (getAlignText [("$DIMTIH", RS_Variable.VariableInt (-1) 70)]).2
      "$DIMTIH" 2 = -1 := by
  constructor <;>
    simp [getAlignText, getGraphicVariableInt, VariableDict.find, List.lookup]

/-! ## Theorems: moving, rotating, scaling and mirroring -/

theorem M_PI_pos : 0 < M_PI := by norm_num [M_PI]

theorem correctAngle_eq_fract (a : ℚ) : correctAngle a = 2 * M_PI * Int.fract (a / (2 * M_PI)) := by
  have h : (2 * M_PI) ≠ 0 := by have := M_PI_pos; positivity
  unfold correctAngle Int.fract
  field_simp

theorem correctAngle_nonneg (a : ℚ) : 0 ≤ correctAngle a := by
  rw [correctAngle_eq_fract]
  have := M_PI_pos
  have := Int.fract_nonneg (a / (2 * M_PI))
  positivity

theorem correctAngle_lt (a : ℚ) : correctAngle a < 2 * M_PI := by
  rw [correctAngle_eq_fract]
  have h := M_PI_pos
  have h2 := Int.fract_lt_one (a / (2 * M_PI))
  nlinarith

theorem correctAngle_of_mem (a : ℚ) (h0 : 0 ≤ a) (h1 : a < 2 * M_PI) : correctAngle a = a := by
  have h := M_PI_pos
  have hf : ⌊a / (2 * M_PI)⌋ = 0 := by
    rw [Int.floor_eq_iff]
    constructor
    · simp only [Int.cast_zero]; positivity
    · simp only [Int.cast_zero, zero_add]
      rw [div_lt_one (by positivity)]
      exact h1
  simp [correctAngle, hf]

theorem rotate_rotate_frame (lm : Libm) (data : RS_DimensionData) (center : RS_Vector)
    (angle : ℚ) :
    rotate lm (rotate lm data center angle) center (-angle) =
      { mapPoints (fun p => (p.rotate center (RS_Vector.ofAngle lm angle)).rotate center
          (RS_Vector.ofAngle lm (-angle))) data with
        angle := correctAngle (fadd (correctAngle (fadd data.angle angle)) (-angle)) } :=
  rfl

/-- C10: each of `move`, the two `rotate`, `scale` and `mirror` maps the
definition point and the middle of the text by one and the same map of the
plane; `rotate` also adds its angle to the stored angle and normalises the
sum; nothing else changes: `move`, `scale` and `mirror` leave the angle, and
no transform changes the text, the style, the alignments or the line
spacing. -/
theorem transforms_frame (lm : Libm) (data : RS_DimensionData)
    (offset center factor angleVector axisPoint1 axisPoint2 : RS_Vector) (angle : ℚ) :
    move data offset = mapPoints (fun p => p.move offset) data ∧
    rotate lm data center angle =
      { mapPoints (fun p => p.rotate center (RS_Vector.ofAngle lm angle)) data with
        angle := correctAngle (fadd data.angle angle) } ∧
    rotateVector lm data center angleVector =
      { mapPoints (fun p => p.rotate center angleVector) data with
        angle := correctAngle (fadd data.angle (angleVector.angle lm)) } ∧
    scale data center factor = mapPoints (fun p => p.scale center factor) data ∧
    mirror data axisPoint1 axisPoint2 =
      mapPoints (fun p => p.mirror axisPoint1 axisPoint2) data ∧
    (∀ f : RS_Vector → RS_Vector,
      (mapPoints f data).angle = data.angle ∧ (mapPoints f data).text = data.text ∧
      (mapPoints f data).style = data.style ∧ (mapPoints f data).valign = data.valign ∧
      (mapPoints f data).halign = data.halign ∧
      (mapPoints f data).lineSpacingStyle = data.lineSpacingStyle ∧
      (mapPoints f data).lineSpacingFactor = data.lineSpacingFactor) :=
  ⟨rfl, rfl, rfl, rfl, rfl, fun _ => ⟨rfl, rfl, rfl, rfl, rfl, rfl, rfl⟩⟩

/-! ## Theorems: the split of the dimension line -/

theorem scanEdges_hit (dl : RS_Line) (l : List RS_Line) (i : Nat) (e : RS_Line) (v : RS_Vector)
    (he : l[i]? = some e) (hv : getIntersection dl e = some v) :
    scanEdges dl l i = some (some v, i + 1) := by
  rw [scanEdges]
  simp [he, hv]

theorem scanEdges_miss (dl : RS_Line) (l : List RS_Line) (i : Nat) (e : RS_Line)
    (he : l[i]? = some e) (hv : getIntersection dl e = none) (hi : i + 1 < 4) :
    scanEdges dl l i = scanEdges dl l (i + 1) := by
  rw [scanEdges]
  simp [he, hv, hi]

theorem scanEdges_miss_last (dl : RS_Line) (l : List RS_Line) (i : Nat) (e : RS_Line)
    (he : l[i]? = some e) (hv : getIntersection dl e = none) (hi : ¬ i + 1 < 4) :
    scanEdges dl l i = some (none, i + 1) := by
  rw [scanEdges]
  simp [he, hv, hi]

/-- The two solutions of the search are the first two solutions that the four
edges give, in the order of the edges. -/
theorem findIntersections_four (dl e0 e1 e2 e3 : RS_Line) :
    findIntersections dl [e0, e1, e2, e3] =
      some (([getIntersection dl e0, getIntersection dl e1, getIntersection dl e2,
          getIntersection dl e3].reduceOption)[0]?,
        ([getIntersection dl e0, getIntersection dl e1, getIntersection dl e2,
          getIntersection dl e3].reduceOption)[1]?) := by
  have g0 : [e0, e1, e2, e3][0]? = some e0 := rfl
  have g1 : [e0, e1, e2, e3][1]? = some e1 := rfl
  have g2 : [e0, e1, e2, e3][2]? = some e2 := rfl
  have g3 : [e0, e1, e2, e3][3]? = some e3 := rfl
  rcases h0 : getIntersection dl e0 with _ | v0 <;>
  rcases h1 : getIntersection dl e1 with _ | v1 <;>
  rcases h2 : getIntersection dl e2 with _ | v2 <;>
  rcases h3 : getIntersection dl e3 with _ | v3 <;>
  simp [findIntersections, scanEdges_hit, scanEdges_miss, scanEdges_miss_last, g0, g1, g2, g3,
    h0, h1, h2, h3, List.reduceOption]

theorem labelEdges_eq (textPos : RS_Vector) (w h : ℚ) :
    labelEdges textPos w h =
      [⟨RS_Vector.mk2 (fsub textPos.x w) (fsub textPos.y h),
          RS_Vector.mk2 (fadd textPos.x w) (fsub textPos.y h)⟩,
        ⟨RS_Vector.mk2 (fadd textPos.x w) (fsub textPos.y h),
          RS_Vector.mk2 (fadd textPos.x w) (fadd textPos.y h)⟩,
        ⟨RS_Vector.mk2 (fadd textPos.x w) (fadd textPos.y h),
          RS_Vector.mk2 (fsub textPos.x w) (fadd textPos.y h)⟩,
        ⟨RS_Vector.mk2 (fsub textPos.x w) (fadd textPos.y h),
          RS_Vector.mk2 (fsub textPos.x w) (fsub textPos.y h)⟩] := by
  simp [labelEdges, RS_Vector.sub, RS_Vector.add, RS_Vector.mk2]

theorem second_hit_of_few (dl e0 e1 e2 e3 : RS_Line)
    (hfew : edgesHit dl [e0, e1, e2, e3] < 2) :
    ([getIntersection dl e0, getIntersection dl e1, getIntersection dl e2,
      getIntersection dl e3].reduceOption)[1]? = none := by
  rcases h0 : getIntersection dl e0 with _ | v0 <;>
  rcases h1 : getIntersection dl e1 with _ | v1 <;>
  rcases h2 : getIntersection dl e2 with _ | v2 <;>
  rcases h3 : getIntersection dl e3 with _ | v3 <;>
  simp [edgesHit, List.filter, h0, h1, h2, h3, List.reduceOption] at hfew ⊢

theorem splitDimensionLine_of_few (lm : Libm) (p1 : RS_Vector) (dl : RS_Line)
    (textPos : RS_Vector) (w h : ℚ) (hfew : edgesHit dl (labelEdges textPos w h) < 2) :
    splitDimensionLine lm p1 dl textPos w h = some (dl, none) := by
  rw [labelEdges_eq] at hfew
  unfold splitDimensionLine
  rw [labelEdges_eq, findIntersections_four, second_hit_of_few dl _ _ _ _ hfew]
  split
  · next heq => simp at heq
  · next v1 v2 heq => simp at heq
  · rfl

/-! ## Theorems: the search for the two intersections -/

theorem splitDimensionLine_of_two (lm : Libm) (p1 : RS_Vector) (dl : RS_Line)
    (textPos : RS_Vector) (w h : ℚ) (v1 v2 : RS_Vector)
    (hv : firstTwoHits ((labelEdges textPos w h).map (getIntersection dl)) = (some v1, some v2)) :
    splitDimensionLine lm p1 dl textPos w h =
      if p1.distanceTo lm v1 < p1.distanceTo lm v2 then
        some ({ dl with endpoint := v1 }, some { dl with startpoint := v2 })
      else
        some ({ dl with endpoint := v2 }, some { dl with startpoint := v1 }) := by
  rw [labelEdges_eq] at hv
  simp only [firstTwoHits, List.map, Prod.mk.injEq] at hv
  unfold splitDimensionLine
  rw [labelEdges_eq, findIntersections_four, hv.1, hv.2]

theorem firstTwoHits_of_two (dl e0 e1 e2 e3 : RS_Line)
    (htwo : 2 ≤ edgesHit dl [e0, e1, e2, e3]) :
    ∃ v1 v2, firstTwoHits ([e0, e1, e2, e3].map (getIntersection dl)) = (some v1, some v2) := by
  rcases h0 : getIntersection dl e0 with _ | v0 <;>
  rcases h1 : getIntersection dl e1 with _ | v1 <;>
  rcases h2 : getIntersection dl e2 with _ | v2 <;>
  rcases h3 : getIntersection dl e3 with _ | v3 <;>
  simp [edgesHit, List.filter, h0, h1, h2, h3, List.reduceOption, firstTwoHits] at htwo ⊢

theorem splitDimensionLine_isSome (lm : Libm) (p1 : RS_Vector) (dl : RS_Line)
    (textPos : RS_Vector) (w h : ℚ) :
    ∃ line1 line2, splitDimensionLine lm p1 dl textPos w h = some (line1, line2) ∧
      (line2.isSome ↔ 2 ≤ edgesHit dl (labelEdges textPos w h)) := by
  by_cases hfew : edgesHit dl (labelEdges textPos w h) < 2
  · exact ⟨dl, none, splitDimensionLine_of_few lm p1 dl textPos w h hfew, by simp; omega⟩
  · have h2 : 2 ≤ edgesHit dl (labelEdges textPos w h) := by omega
    have h2' := h2
    rw [labelEdges_eq] at h2'
    obtain ⟨v1, v2, hv⟩ := firstTwoHits_of_two dl _ _ _ _ h2'
    rw [← labelEdges_eq] at hv
    rw [splitDimensionLine_of_two lm p1 dl textPos w h v1 v2 hv]
    by_cases hlt : p1.distanceTo lm v1 < p1.distanceTo lm v2
    · exact ⟨_, _, by rw [if_pos hlt], by simpa using h2⟩
    · exact ⟨_, _, by rw [if_neg hlt], by simpa using h2⟩

theorem scanEdges_ne_none (dl e0 e1 e2 e3 : RS_Line) :
    ∀ i : Nat, i < 4 → scanEdges dl [e0, e1, e2, e3] i ≠ none := by
  have g3 : scanEdges dl [e0, e1, e2, e3] 3 ≠ none := by
    rw [scanEdges]; simp
  have g2 : scanEdges dl [e0, e1, e2, e3] 2 ≠ none := by
    rw [scanEdges]; simp only [List.getElem?_cons_succ, List.getElem?_cons_zero]
    split
    · exact g3
    · simp
  have g1 : scanEdges dl [e0, e1, e2, e3] 1 ≠ none := by
    rw [scanEdges]; simp only [List.getElem?_cons_succ, List.getElem?_cons_zero]
    split
    · exact g2
    · simp
  have g0 : scanEdges dl [e0, e1, e2, e3] 0 ≠ none := by
    rw [scanEdges]; simp only [List.getElem?_cons_zero]
    split
    · exact g1
    · simp
  intro i hi
  interval_cases i
  · exact g0
  · exact g1
  · exact g2
  · exact g3

/-- C19: the two loops over the four edges of the rectangle, taken in the
order bottom, right, top, left, give the first two solutions among those of
the four edges: `sol1` is the solution of the first edge that has one, `sol2`
that of the next edge after it that has one. No edge is read outside of the
indices 0 to 3, and the dimension line is split if and only if at least two of
the four edges have a solution. -/
theorem findIntersections_first_two (lm : Libm) (p1 : RS_Vector) (dl e0 e1 e2 e3 : RS_Line)
    (textPos : RS_Vector) (w h : ℚ) :
    findIntersections dl [e0, e1, e2, e3] =
      some (firstTwoHits ([e0, e1, e2, e3].map (getIntersection dl))) ∧
    (∀ i : Nat, i < 4 → scanEdges dl [e0, e1, e2, e3] i ≠ none) ∧
    (labelEdges textPos w h).length = 4 ∧
    ∃ line1 line2, splitDimensionLine lm p1 dl textPos w h = some (line1, line2) ∧
      (line2.isSome ↔ 2 ≤ edgesHit dl (labelEdges textPos w h)) := by
  refine ⟨?_, scanEdges_ne_none dl e0 e1 e2 e3, ?_, splitDimensionLine_isSome lm p1 dl textPos w h⟩
  · rw [findIntersections_four]
    rfl
  · simp [labelEdges]

/-! ## Theorems: a dimension line that is not split -/

theorem getIntersection_some (e1 e2 : RS_Line) (v : RS_Vector)
    (h : getIntersection e1 e2 = some v) :
    ∃ t u : ℚ, 0 < t ∧ t < 1 ∧ 0 < u ∧ u < 1 ∧
      v.x = e1.startpoint.x + t * (e1.endpoint.x - e1.startpoint.x) ∧
      v.y = e1.startpoint.y + t * (e1.endpoint.y - e1.startpoint.y) ∧
      v.x = e2.startpoint.x + u * (e2.endpoint.x - e2.startpoint.x) ∧
      v.y = e2.startpoint.y + u * (e2.endpoint.y - e2.startpoint.y) := by
  unfold getIntersection at h
  simp only [] at h
  split_ifs at h with hden hin
  simp only [Option.some.injEq] at h
  refine ⟨_, _, hin.1, hin.2.1, hin.2.2.1, hin.2.2.2, ?_, ?_, ?_, ?_⟩
  · rw [← h]; rfl
  · rw [← h]; rfl
  · rw [← h]
    simp only [RS_Vector.mk2]
    field_simp
    ring
  · rw [← h]
    simp only [RS_Vector.mk2]
    field_simp
    ring

theorem getIntersection_on (e1 e2 : RS_Line) (v : RS_Vector)
    (h : getIntersection e1 e2 = some v) : e1.hasPoint v.x v.y ∧ e2.hasPoint v.x v.y := by
  obtain ⟨t, u, t0, t1, u0, u1, h1, h2, h3, h4⟩ := getIntersection_some e1 e2 v h
  exact ⟨⟨t, le_of_lt t0, le_of_lt t1, h1, h2⟩, ⟨u, le_of_lt u0, le_of_lt u1, h3, h4⟩⟩

/-- Two hits on two different edges of a rectangle whose edges are not
reduced to points are two different points. -/
theorem edgesHit_lt_two_of_unique (dl : RS_Line) (x1 x2 y1 y2 : ℚ) (hx : x1 ≠ x2) (hy : y1 ≠ y2)
    (huniq : ∀ x y x' y' : ℚ, dl.hasPoint x y →
      onEdges [⟨RS_Vector.mk2 x1 y1, RS_Vector.mk2 x2 y1⟩, ⟨RS_Vector.mk2 x2 y1, RS_Vector.mk2 x2 y2⟩,
        ⟨RS_Vector.mk2 x2 y2, RS_Vector.mk2 x1 y2⟩, ⟨RS_Vector.mk2 x1 y2, RS_Vector.mk2 x1 y1⟩] x y →
      dl.hasPoint x' y' →
      onEdges [⟨RS_Vector.mk2 x1 y1, RS_Vector.mk2 x2 y1⟩, ⟨RS_Vector.mk2 x2 y1, RS_Vector.mk2 x2 y2⟩,
        ⟨RS_Vector.mk2 x2 y2, RS_Vector.mk2 x1 y2⟩, ⟨RS_Vector.mk2 x1 y2, RS_Vector.mk2 x1 y1⟩] x' y' →
      x = x' ∧ y = y') :
    edgesHit dl [⟨RS_Vector.mk2 x1 y1, RS_Vector.mk2 x2 y1⟩, ⟨RS_Vector.mk2 x2 y1, RS_Vector.mk2 x2 y2⟩,
      ⟨RS_Vector.mk2 x2 y2, RS_Vector.mk2 x1 y2⟩, ⟨RS_Vector.mk2 x1 y2, RS_Vector.mk2 x1 y1⟩] < 2 := by
  have hx' : x2 - x1 ≠ 0 := sub_ne_zero.2 (Ne.symm hx)
  have hy' : y2 - y1 ≠ 0 := sub_ne_zero.2 (Ne.symm hy)
  -- the coordinates of a hit on each of the four edges
  have hb : ∀ v, getIntersection dl ⟨RS_Vector.mk2 x1 y1, RS_Vector.mk2 x2 y1⟩ = some v →
      ∃ u : ℚ, 0 < u ∧ u < 1 ∧ v.x = x1 + u * (x2 - x1) ∧ v.y = y1 := by
    intro v h
    obtain ⟨t, u, _, _, u0, u1, _, _, h3, h4⟩ := getIntersection_some _ _ v h
    simp only [RS_Vector.mk2, sub_self, mul_zero, add_zero] at h3 h4
    exact ⟨u, u0, u1, h3, h4⟩
  have hr : ∀ v, getIntersection dl ⟨RS_Vector.mk2 x2 y1, RS_Vector.mk2 x2 y2⟩ = some v →
      ∃ u : ℚ, 0 < u ∧ u < 1 ∧ v.x = x2 ∧ v.y = y1 + u * (y2 - y1) := by
    intro v h
    obtain ⟨t, u, _, _, u0, u1, _, _, h3, h4⟩ := getIntersection_some _ _ v h
    simp only [RS_Vector.mk2, sub_self, mul_zero, add_zero] at h3 h4
    exact ⟨u, u0, u1, h3, h4⟩
  have ht : ∀ v, getIntersection dl ⟨RS_Vector.mk2 x2 y2, RS_Vector.mk2 x1 y2⟩ = some v →
      ∃ u : ℚ, 0 < u ∧ u < 1 ∧ v.x = x2 + u * (x1 - x2) ∧ v.y = y2 := by
    intro v h
    obtain ⟨t, u, _, _, u0, u1, _, _, h3, h4⟩ := getIntersection_some _ _ v h
    simp only [RS_Vector.mk2, sub_self, mul_zero, add_zero] at h3 h4
    exact ⟨u, u0, u1, h3, h4⟩
  have hl : ∀ v, getIntersection dl ⟨RS_Vector.mk2 x1 y2, RS_Vector.mk2 x1 y1⟩ = some v →
      ∃ u : ℚ, 0 < u ∧ u < 1 ∧ v.x = x1 ∧ v.y = y2 + u * (y1 - y2) := by
    intro v h
    obtain ⟨t, u, _, _, u0, u1, _, _, h3, h4⟩ := getIntersection_some _ _ v h
    simp only [RS_Vector.mk2, sub_self, mul_zero, add_zero] at h3 h4
    exact ⟨u, u0, u1, h3, h4⟩
  -- two hits are one point
  have hsame : ∀ (e e' : RS_Line) (v v' : RS_Vector),
      e ∈ [(⟨RS_Vector.mk2 x1 y1, RS_Vector.mk2 x2 y1⟩ : RS_Line),
        ⟨RS_Vector.mk2 x2 y1, RS_Vector.mk2 x2 y2⟩,
        ⟨RS_Vector.mk2 x2 y2, RS_Vector.mk2 x1 y2⟩, ⟨RS_Vector.mk2 x1 y2, RS_Vector.mk2 x1 y1⟩] →
      e' ∈ [(⟨RS_Vector.mk2 x1 y1, RS_Vector.mk2 x2 y1⟩ : RS_Line),
        ⟨RS_Vector.mk2 x2 y1, RS_Vector.mk2 x2 y2⟩,
        ⟨RS_Vector.mk2 x2 y2, RS_Vector.mk2 x1 y2⟩, ⟨RS_Vector.mk2 x1 y2, RS_Vector.mk2 x1 y1⟩] →
      getIntersection dl e = some v → getIntersection dl e' = some v' →
      v.x = v'.x ∧ v.y = v'.y := by
    intro e e' v v' he he' h h'
    obtain ⟨a1, a2⟩ := getIntersection_on dl e v h
    obtain ⟨b1, b2⟩ := getIntersection_on dl e' v' h'
    exact huniq _ _ _ _ a1 ⟨e, he, a2⟩ b1 ⟨e', he', b2⟩
  have m0 : ∀ (a b c d : RS_Line), a ∈ [a, b, c, d] := fun a b c d => by simp
  have m1 : ∀ (a b c d : RS_Line), b ∈ [a, b, c, d] := fun a b c d => by simp
  have m2 : ∀ (a b c d : RS_Line), c ∈ [a, b, c, d] := fun a b c d => by simp
  have m3 : ∀ (a b c d : RS_Line), d ∈ [a, b, c, d] := fun a b c d => by simp
  -- no two edges are both hit
  have c01 : ∀ v v', getIntersection dl ⟨RS_Vector.mk2 x1 y1, RS_Vector.mk2 x2 y1⟩ = some v →
      getIntersection dl ⟨RS_Vector.mk2 x2 y1, RS_Vector.mk2 x2 y2⟩ = some v' → False := by
    intro v v' h h'
    obtain ⟨e1, _⟩ := hsame _ _ v v' (m0 _ _ _ _) (m1 _ _ _ _) h h'
    obtain ⟨u, u0, u1, a, _⟩ := hb v h
    obtain ⟨u', _, _, a', _⟩ := hr v' h'
    have : (u - 1) * (x2 - x1) = 0 := by linarith
    rcases mul_eq_zero.1 this with h0 | h0
    · linarith
    · exact hx' h0
  have c02 : ∀ v v', getIntersection dl ⟨RS_Vector.mk2 x1 y1, RS_Vector.mk2 x2 y1⟩ = some v →
      getIntersection dl ⟨RS_Vector.mk2 x2 y2, RS_Vector.mk2 x1 y2⟩ = some v' → False := by
    intro v v' h h'
    obtain ⟨_, e2⟩ := hsame _ _ v v' (m0 _ _ _ _) (m2 _ _ _ _) h h'
    obtain ⟨u, _, _, _, a⟩ := hb v h
    obtain ⟨u', _, _, _, a'⟩ := ht v' h'
    exact hy (by linarith)
  have c03 : ∀ v v', getIntersection dl ⟨RS_Vector.mk2 x1 y1, RS_Vector.mk2 x2 y1⟩ = some v →
      getIntersection dl ⟨RS_Vector.mk2 x1 y2, RS_Vector.mk2 x1 y1⟩ = some v' → False := by
    intro v v' h h'
    obtain ⟨e1, _⟩ := hsame _ _ v v' (m0 _ _ _ _) (m3 _ _ _ _) h h'
    obtain ⟨u, u0, u1, a, _⟩ := hb v h
    obtain ⟨u', _, _, a', _⟩ := hl v' h'
    have : u * (x2 - x1) = 0 := by linarith
    rcases mul_eq_zero.1 this with h0 | h0
    · linarith
    · exact hx' h0
  have c12 : ∀ v v', getIntersection dl ⟨RS_Vector.mk2 x2 y1, RS_Vector.mk2 x2 y2⟩ = some v →
      getIntersection dl ⟨RS_Vector.mk2 x2 y2, RS_Vector.mk2 x1 y2⟩ = some v' → False := by
    intro v v' h h'
    obtain ⟨_, e2⟩ := hsame _ _ v v' (m1 _ _ _ _) (m2 _ _ _ _) h h'
    obtain ⟨u, u0, u1, _, a⟩ := hr v h
    obtain ⟨u', _, _, _, a'⟩ := ht v' h'
    have : (u - 1) * (y2 - y1) = 0 := by linarith
    rcases mul_eq_zero.1 this with h0 | h0
    · linarith
    · exact hy' h0
  have c13 : ∀ v v', getIntersection dl ⟨RS_Vector.mk2 x2 y1, RS_Vector.mk2 x2 y2⟩ = some v →
      getIntersection dl ⟨RS_Vector.mk2 x1 y2, RS_Vector.mk2 x1 y1⟩ = some v' → False := by
    intro v v' h h'
    obtain ⟨e1, _⟩ := hsame _ _ v v' (m1 _ _ _ _) (m3 _ _ _ _) h h'
    obtain ⟨u, _, _, a, _⟩ := hr v h
    obtain ⟨u', _, _, a', _⟩ := hl v' h'
    exact hx (by linarith)
  have c23 : ∀ v v', getIntersection dl ⟨RS_Vector.mk2 x2 y2, RS_Vector.mk2 x1 y2⟩ = some v →
      getIntersection dl ⟨RS_Vector.mk2 x1 y2, RS_Vector.mk2 x1 y1⟩ = some v' → False := by
    intro v v' h h'
    obtain ⟨e1, _⟩ := hsame _ _ v v' (m2 _ _ _ _) (m3 _ _ _ _) h h'
    obtain ⟨u, u0, u1, a, _⟩ := ht v h
    obtain ⟨u', _, _, a', _⟩ := hl v' h'
    have : (1 - u) * (x2 - x1) = 0 := by linarith
    rcases mul_eq_zero.1 this with h0 | h0
    · linarith
    · exact hx' h0
  rcases h0 : getIntersection dl ⟨RS_Vector.mk2 x1 y1, RS_Vector.mk2 x2 y1⟩ with _ | v0 <;>
  rcases h1 : getIntersection dl ⟨RS_Vector.mk2 x2 y1, RS_Vector.mk2 x2 y2⟩ with _ | v1 <;>
  rcases h2 : getIntersection dl ⟨RS_Vector.mk2 x2 y2, RS_Vector.mk2 x1 y2⟩ with _ | v2 <;>
  rcases h3 : getIntersection dl ⟨RS_Vector.mk2 x1 y2, RS_Vector.mk2 x1 y1⟩ with _ | v3 <;>
  first
  | (simp [edgesHit, List.filter, h0, h1, h2, h3]; done)
  | exact absurd (c01 _ _ h0 h1) id
  | exact absurd (c02 _ _ h0 h2) id
  | exact absurd (c03 _ _ h0 h3) id
  | exact absurd (c12 _ _ h1 h2) id
  | exact absurd (c13 _ _ h1 h3) id
  | exact absurd (c23 _ _ h2 h3) id

/-- C7, as the code has it: whenever fewer than two of the four edges of the
rectangle around the text report an intersection with the dimension line,
`updateCreateDimensionLine` adds no second dimension line, and the dimension
line keeps the start point and the end point that it had before the split;
the arrows or ticks, the text, the data and the variable store are those of
before the split as well. When no edge of the rectangle is reduced to a point,
this is so whenever the dimension line and the rectangle have at most one
point in common, as for a line that touches the rectangle in one corner
only. -/
theorem buildDimensionLine_unsplit (env : Env) (lm : Libm) (ext : Externals)
    (data : RS_DimensionData) (g : VariableDict) (p1 p2 : RS_Vector)
    (arrow1 arrow2 forceAutoText : Bool) :
    (edgesHit
        (draftDimensionLine env lm ext data g p1 p2 arrow1 arrow2
          forceAutoText).arrows.dimensionLine
        (labelRectangle ext
          (draftDimensionLine env lm ext data g p1 p2 arrow1 arrow2 forceAutoText)) < 2 →
      buildDimensionLine env lm ext data g p1 p2 arrow1 arrow2 forceAutoText =
        some (⟨(draftDimensionLine env lm ext data g p1 p2 arrow1 arrow2
              forceAutoText).arrows.dimensionLine,
            (draftDimensionLine env lm ext data g p1 p2 arrow1 arrow2 forceAutoText).terminators,
            none,
            (draftDimensionLine env lm ext data g p1 p2 arrow1 arrow2 forceAutoText).text⟩,
          (draftDimensionLine env lm ext data g p1 p2 arrow1 arrow2
            forceAutoText).placement.data,
          (getAlignText (draftDimensionLine env lm ext data g p1 p2 arrow1 arrow2
            forceAutoText).placement.graphicVariables).2)) ∧
    ((∀ e ∈ labelRectangle ext
          (draftDimensionLine env lm ext data g p1 p2 arrow1 arrow2 forceAutoText),
        e.startpoint ≠ e.endpoint) →
      (∀ x y x' y' : ℚ,
        (draftDimensionLine env lm ext data g p1 p2 arrow1 arrow2
          forceAutoText).arrows.dimensionLine.hasPoint x y →
        onEdges (labelRectangle ext
          (draftDimensionLine env lm ext data g p1 p2 arrow1 arrow2 forceAutoText)) x y →
        (draftDimensionLine env lm ext data g p1 p2 arrow1 arrow2
          forceAutoText).arrows.dimensionLine.hasPoint x' y' →
        onEdges (labelRectangle ext
          (draftDimensionLine env lm ext data g p1 p2 arrow1 arrow2 forceAutoText)) x' y' →
        x = x' ∧ y = y') →
      edgesHit
        (draftDimensionLine env lm ext data g p1 p2 arrow1 arrow2
          forceAutoText).arrows.dimensionLine
        (labelRectangle ext
          (draftDimensionLine env lm ext data g p1 p2 arrow1 arrow2 forceAutoText)) < 2) := by
  constructor
  · intro hfew
    unfold buildDimensionLine
    simp only []
    split
    · rw [splitDimensionLine_of_few lm p1 _ _ _ _ hfew]
    · rfl
  · intro hedges huniq
    unfold labelRectangle at hedges huniq ⊢
    rw [labelEdges_eq] at hedges huniq ⊢
    apply edgesHit_lt_two_of_unique _ _ _ _ _ _ _ huniq
    · intro hx
      apply hedges _ (List.mem_cons_self _ _)
      simp only [RS_Vector.mk2, hx]
    · intro hy
      apply hedges _ (List.mem_cons_of_mem _ (List.mem_cons_self _ _))
      simp only [RS_Vector.mk2, hy]

/-! ### The examples of the split -/

theorem exampleLibm_sqrt_sq (q : ℚ) (h : 0 ≤ q) : exampleLibm.sqrt (q * q) = q := by
  show Rat.sqrt (q * q) = q
  rw [Rat.sqrt_eq, abs_of_nonneg h]

theorem exampleLibm_distanceTo_origin (x y r : ℚ) (hr : 0 ≤ r)
    (h : fadd (fmul (fsub 0 x) (fsub 0 x)) (fmul (fsub 0 y) (fsub 0 y)) = r * r) :
    RS_Vector.distanceTo exampleLibm (RS_Vector.mk2 0 0) (RS_Vector.mk2 x y) = r := by
  simp only [RS_Vector.distanceTo, RS_Vector.mk2, h]
  exact exampleLibm_sqrt_sq r hr

theorem readStyle_horizontalStore :
    readStyle mmEnv horizontalStore = (⟨1, 5 / 2, 5 / 8, 5 / 2, 0⟩, horizontalStoreRead) := by
  simp [readStyle, getGeneralScale, getTextHeight, getDimensionLineGap, getArrowSize,
    getTickSize, getGraphicVariable, getGraphicVariableDouble, VariableDict.find,
    addGraphicVariable, mmEnv, List.lookup, horizontalStore, horizontalStoreRead, fmul]

theorem getAlignText_horizontalStoreRead :
    getAlignText horizontalStoreRead = (true, horizontalStoreRead) := by
  simp [getAlignText, getGraphicVariableInt, VariableDict.find, List.lookup,
    horizontalStoreRead]

theorem textPlacement_placed (x y dimgap dimtxt : ℚ) (dl : RS_Line) :
    textPlacement exampleLibm exampleExternals (placedData x y) horizontalStoreRead dl dimgap
      dimtxt false = ⟨0, false, RS_Vector.mk2 x y, placedData x y, horizontalStoreRead⟩ := by
  simp [textPlacement, getAlignText_horizontalStoreRead, placedData, RS_Vector.mk2]

theorem draft_placed (x y : ℚ) (p1 p2 : RS_Vector) (arrow1 arrow2 : Bool) :
    (draftDimensionLine mmEnv exampleLibm exampleExternals (placedData x y) horizontalStore
      p1 p2 arrow1 arrow2 false).placement
        = ⟨0, false, RS_Vector.mk2 x y, placedData x y, horizontalStoreRead⟩ ∧
    (draftDimensionLine mmEnv exampleLibm exampleExternals (placedData x y) horizontalStore
      p1 p2 arrow1 arrow2 false).arrows
        = arrowAnglesAndLine exampleLibm p1 p2 (5 / 2)
          (decide (p1.distanceTo exampleLibm p2 < fmul (5 / 2) (5 / 2))) ∧
    (draftDimensionLine mmEnv exampleLibm exampleExternals (placedData x y) horizontalStore
      p1 p2 arrow1 arrow2 false).style = ⟨1, 5 / 2, 5 / 8, 5 / 2, 0⟩ ∧
    labelRectangle exampleExternals
      (draftDimensionLine mmEnv exampleLibm exampleExternals (placedData x y) horizontalStore
        p1 p2 arrow1 arrow2 false) = labelEdges (RS_Vector.mk2 x y) 1 1 := by
  refine ⟨?_, ?_, ?_, ?_⟩
  · simp only [draftDimensionLine, readStyle_horizontalStore, textPlacement_placed]
  · simp only [draftDimensionLine, readStyle_horizontalStore]
  · simp only [draftDimensionLine, readStyle_horizontalStore]
  · simp only [labelRectangle, draftDimensionLine, readStyle_horizontalStore,
      textPlacement_placed]
    norm_num [exampleExternals, fadd, fdiv]

theorem arrowAnglesAndLine_outside_example :
    (arrowAnglesAndLine exampleLibm (RS_Vector.mk2 0 0) (RS_Vector.mk2 1 0) (5 / 2)
      (decide (RS_Vector.distanceTo exampleLibm (RS_Vector.mk2 0 0) (RS_Vector.mk2 1 0)
        < fmul (5 / 2) (5 / 2)))).dimensionLine = ⟨RS_Vector.mk2 (-5) 0, RS_Vector.mk2 6 0⟩ := by
  have hd := exampleLibm_distanceTo_origin 1 0 1 (by norm_num) (by norm_num [fadd, fmul, fsub])
  have hpi : correctAngle M_PI = M_PI :=
    correctAngle_of_mem _ (le_of_lt M_PI_pos) (by linarith [M_PI_pos])
  have hpi0 : M_PI ≠ 0 := ne_of_gt M_PI_pos
  have hlt : ((1 : ℚ) < fmul (5 / 2) (5 / 2)) := by norm_num [fmul]
  rw [hd]
  simp [arrowAnglesAndLine, hlt, RS_Line.getAngle1, RS_Line.getAngle2, RS_Vector.angleTo,
    RS_Vector.angle, RS_Vector.sub, RS_Vector.add, RS_Vector.mk2, RS_Vector.polar,
    exampleLibm, hpi, hpi0, fadd, fsub, fmul]
  norm_num

theorem arrowAnglesAndLine_inside_example :
    (arrowAnglesAndLine exampleLibm (RS_Vector.mk2 0 0) (RS_Vector.mk2 8 6) (5 / 2)
      (decide (RS_Vector.distanceTo exampleLibm (RS_Vector.mk2 0 0) (RS_Vector.mk2 8 6)
        < fmul (5 / 2) (5 / 2)))).dimensionLine = ⟨RS_Vector.mk2 0 0, RS_Vector.mk2 8 6⟩ := by
  have hd := exampleLibm_distanceTo_origin 8 6 10 (by norm_num) (by norm_num [fadd, fmul, fsub])
  have hlt : ¬ ((10 : ℚ) < fmul (5 / 2) (5 / 2)) := by norm_num [fmul]
  rw [hd]
  simp [arrowAnglesAndLine, hlt]

/-- C6 fails on the code. The dimension from (0, 0) to (1, 0) has its arrows
outside, so that its line runs from (-5, 0) to (6, 0), and its text is placed
at (-3, 0), on the part of the line before `p1`. The rectangle around the text
meets the line in the two points (-4, 0) and (-2, 0) and in no other point.
The code ends the dimension line at (-2, 0), the point nearer to `p1`, and
starts the second line at (-4, 0): the two lines both cover the stretch from
(-4, 0) to (-2, 0) under the text, with its middle (-3, 0). -/
theorem buildDimensionLine_outside_overlap :
    (draftDimensionLine mmEnv exampleLibm exampleExternals (placedData (-3) 0)
      horizontalStore (RS_Vector.mk2 0 0) (RS_Vector.mk2 1 0) true true
      false).arrows.dimensionLine = ⟨RS_Vector.mk2 (-5) 0, RS_Vector.mk2 6 0⟩ ∧
    (∀ x y : ℚ, RS_Line.hasPoint ⟨RS_Vector.mk2 (-5) 0, RS_Vector.mk2 6 0⟩ x y →
      onEdges (labelRectangle exampleExternals
        (draftDimensionLine mmEnv exampleLibm exampleExternals (placedData (-3) 0)
          horizontalStore (RS_Vector.mk2 0 0) (RS_Vector.mk2 1 0) true true false)) x y →
      (x = -4 ∧ y = 0) ∨ (x = -2 ∧ y = 0)) ∧
    (buildDimensionLine mmEnv exampleLibm exampleExternals (placedData (-3) 0)
      horizontalStore (RS_Vector.mk2 0 0) (RS_Vector.mk2 1 0) true true false).map
        (fun r => (r.1.dimensionLine, r.1.dimensionLine2))
      = some (⟨RS_Vector.mk2 (-5) 0, RS_Vector.mk2 (-2) 0⟩,
          some ⟨RS_Vector.mk2 (-4) 0, RS_Vector.mk2 6 0⟩) ∧
    RS_Line.hasPoint ⟨RS_Vector.mk2 (-5) 0, RS_Vector.mk2 (-2) 0⟩ (-3) 0 ∧
    RS_Line.hasPoint ⟨RS_Vector.mk2 (-4) 0, RS_Vector.mk2 6 0⟩ (-3) 0 := by
  obtain ⟨hpl, har, hst, hrect⟩ := draft_placed (-3) 0 (RS_Vector.mk2 0 0)
    (RS_Vector.mk2 1 0) true true
  have hedges : labelEdges (RS_Vector.mk2 (-3) 0) 1 1 =
      [⟨RS_Vector.mk2 (-4) (-1), RS_Vector.mk2 (-2) (-1)⟩,
        ⟨RS_Vector.mk2 (-2) (-1), RS_Vector.mk2 (-2) 1⟩,
        ⟨RS_Vector.mk2 (-2) 1, RS_Vector.mk2 (-4) 1⟩,
        ⟨RS_Vector.mk2 (-4) 1, RS_Vector.mk2 (-4) (-1)⟩] := by
    norm_num [labelEdges_eq, RS_Vector.mk2, fadd, fsub]
  refine ⟨?_, ?_, ?_, ?_, ?_⟩
  · rw [har]; exact arrowAnglesAndLine_outside_example
  · rw [hrect, hedges]
    rintro x y ⟨t, ht0, ht1, hx, hy⟩ ⟨e, he, u, hu0, hu1, hx2, hy2⟩
    simp only [RS_Vector.mk2] at hx hy
    simp only [List.mem_cons, List.mem_singleton, List.not_mem_nil, or_false] at he
    rcases he with rfl | rfl | rfl | rfl <;> simp only [RS_Vector.mk2] at hx2 hy2
    · exfalso; linarith
    · right; constructor <;> linarith
    · exfalso; linarith
    · left; constructor <;> linarith
  · have i0 : getIntersection ⟨RS_Vector.mk2 (-5) 0, RS_Vector.mk2 6 0⟩
        ⟨RS_Vector.mk2 (-4) (-1), RS_Vector.mk2 (-2) (-1)⟩ = none := by
      norm_num [getIntersection, RS_Vector.mk2]
    have i1 : getIntersection ⟨RS_Vector.mk2 (-5) 0, RS_Vector.mk2 6 0⟩
        ⟨RS_Vector.mk2 (-2) (-1), RS_Vector.mk2 (-2) 1⟩ = some (RS_Vector.mk2 (-2) 0) := by
      norm_num [getIntersection, RS_Vector.mk2]
    have i2 : getIntersection ⟨RS_Vector.mk2 (-5) 0, RS_Vector.mk2 6 0⟩
        ⟨RS_Vector.mk2 (-2) 1, RS_Vector.mk2 (-4) 1⟩ = none := by
      norm_num [getIntersection, RS_Vector.mk2]
    have i3 : getIntersection ⟨RS_Vector.mk2 (-5) 0, RS_Vector.mk2 6 0⟩
        ⟨RS_Vector.mk2 (-4) 1, RS_Vector.mk2 (-4) (-1)⟩ = some (RS_Vector.mk2 (-4) 0) := by
      norm_num [getIntersection, RS_Vector.mk2]
    have d1 := exampleLibm_distanceTo_origin (-2) 0 2 (by norm_num)
      (by norm_num [fadd, fmul, fsub])
    have d2 := exampleLibm_distanceTo_origin (-4) 0 4 (by norm_num)
      (by norm_num [fadd, fmul, fsub])
    have hsplit : splitDimensionLine exampleLibm (RS_Vector.mk2 0 0)
        ⟨RS_Vector.mk2 (-5) 0, RS_Vector.mk2 6 0⟩ (RS_Vector.mk2 (-3) 0) 1 1
        = some (⟨RS_Vector.mk2 (-5) 0, RS_Vector.mk2 (-2) 0⟩,
            some ⟨RS_Vector.mk2 (-4) 0, RS_Vector.mk2 6 0⟩) := by
      unfold splitDimensionLine
      rw [hedges, findIntersections_four, i0, i1, i2, i3]
      simp [List.reduceOption, d1, d2]
      norm_num
    have hw : ∀ t : RS_MTextData,
        fadd (fdiv (exampleExternals.getUsedTextWidth t) 2) (5 / 8) = 1 := by
      intro t; norm_num [exampleExternals, fadd, fdiv]
    have hh : ∀ t : RS_MTextData,
        fadd (fdiv (exampleExternals.getUsedTextHeight t) 2) (5 / 8) = 1 := by
      intro t; norm_num [exampleExternals, fadd, fdiv]
    unfold buildDimensionLine
    simp only [hpl, hst, har, getAlignText_horizontalStoreRead, if_true, hw, hh,
      arrowAnglesAndLine_outside_example, hsplit]
    rfl
  · exact ⟨2 / 3, by norm_num, by norm_num, by norm_num [RS_Vector.mk2], by norm_num [RS_Vector.mk2]⟩
  · exact ⟨1 / 10, by norm_num, by norm_num, by norm_num [RS_Vector.mk2], by norm_num [RS_Vector.mk2]⟩

/-- An instance of C7: the dimension line from (0, 0) to (8, 6) and the
rectangle around the text placed at (5, 2) have the single point (4, 3) in
common, a corner of the rectangle, and the line is not split. -/
theorem buildDimensionLine_unsplit_witness :
    (buildDimensionLine mmEnv exampleLibm exampleExternals (placedData 5 2) horizontalStore
      (RS_Vector.mk2 0 0) (RS_Vector.mk2 8 6) false false false).map
        (fun r => (r.1.dimensionLine, r.1.dimensionLine2))
      = some (⟨RS_Vector.mk2 0 0, RS_Vector.mk2 8 6⟩, none) := by
  obtain ⟨_, har, _, hrect⟩ := draft_placed 5 2 (RS_Vector.mk2 0 0) (RS_Vector.mk2 8 6)
    false false
  have hedges : labelEdges (RS_Vector.mk2 5 2) 1 1 =
      [⟨RS_Vector.mk2 4 1, RS_Vector.mk2 6 1⟩, ⟨RS_Vector.mk2 6 1, RS_Vector.mk2 6 3⟩,
        ⟨RS_Vector.mk2 6 3, RS_Vector.mk2 4 3⟩, ⟨RS_Vector.mk2 4 3, RS_Vector.mk2 4 1⟩] := by
    norm_num [labelEdges_eq, RS_Vector.mk2, fadd, fsub]
  have honly : ∀ x y : ℚ, RS_Line.hasPoint ⟨RS_Vector.mk2 0 0, RS_Vector.mk2 8 6⟩ x y →
      onEdges [⟨RS_Vector.mk2 4 1, RS_Vector.mk2 6 1⟩, ⟨RS_Vector.mk2 6 1, RS_Vector.mk2 6 3⟩,
        ⟨RS_Vector.mk2 6 3, RS_Vector.mk2 4 3⟩, ⟨RS_Vector.mk2 4 3, RS_Vector.mk2 4 1⟩] x y →
      x = 4 ∧ y = 3 := by
    rintro x y ⟨t, ht0, ht1, hx, hy⟩ ⟨e, he, u, hu0, hu1, hx2, hy2⟩
    simp only [RS_Vector.mk2] at hx hy
    simp only [List.mem_cons, List.mem_singleton, List.not_mem_nil, or_false] at he
    rcases he with rfl | rfl | rfl | rfl <;> simp only [RS_Vector.mk2] at hx2 hy2
    · exfalso; linarith
    · exfalso; linarith
    · constructor <;> linarith
    · constructor <;> linarith
  have h := buildDimensionLine_unsplit mmEnv exampleLibm exampleExternals (placedData 5 2)
    horizontalStore (RS_Vector.mk2 0 0) (RS_Vector.mk2 8 6) false false false
  have hfew := h.2
    (by
      rw [hrect, hedges]
      intro e he
      simp only [List.mem_cons, List.mem_singleton, List.not_mem_nil, or_false] at he
      rcases he with rfl | rfl | rfl | rfl <;> simp [RS_Vector.mk2])
    (by
      rw [har, arrowAnglesAndLine_inside_example, hrect, hedges]
      intro x y x' y' a b a' b'
      obtain ⟨e1, e2⟩ := honly x y a b
      obtain ⟨e3, e4⟩ := honly x' y' a' b'
      exact ⟨e1.trans e3.symm, e2.trans e4.symm⟩)
  rw [h.1 hfew]
  simp only [Option.map_some', har, arrowAnglesAndLine_inside_example]

theorem readStyle_gaplessStore :
    readStyle mmEnv gaplessStore = (⟨1, 5 / 2, 0, 5 / 2, 0⟩, gaplessStoreRead) := by
  simp [readStyle, getGeneralScale, getTextHeight, getDimensionLineGap, getArrowSize,
    getTickSize, getGraphicVariable, getGraphicVariableDouble, VariableDict.find,
    addGraphicVariable, mmEnv, List.lookup, gaplessStore, gaplessStoreRead, fmul]
  norm_num

theorem getAlignText_gaplessStoreRead :
    getAlignText gaplessStoreRead = (true, gaplessStoreRead) := by
  simp [getAlignText, getGraphicVariableInt, VariableDict.find, List.lookup,
    gaplessStoreRead]

/-- C7 fails as stated. With the gap 0 and a text of the width 0 and the
height 2 placed at (5, 0), the rectangle around the text is reduced to the
stretch from (5, -1) to (5, 1), and the dimension line from (0, 0) to (10, 0)
has the single point (5, 0) in common with it. The right edge and the left
edge both report this point, and the code splits the line: the dimension line
ends at (5, 0) instead of (10, 0), and a second line from (5, 0) to (10, 0) is
added. -/
theorem buildDimensionLine_unsplit_counterexample :
    (draftDimensionLine mmEnv exampleLibm thinExternals (placedData 5 0)
      gaplessStore (RS_Vector.mk2 0 0) (RS_Vector.mk2 10 0) false false
      false).arrows.dimensionLine = ⟨RS_Vector.mk2 0 0, RS_Vector.mk2 10 0⟩ ∧
    labelRectangle thinExternals
      (draftDimensionLine mmEnv exampleLibm thinExternals (placedData 5 0)
        gaplessStore (RS_Vector.mk2 0 0) (RS_Vector.mk2 10 0) false false false) =
      [⟨RS_Vector.mk2 5 (-1), RS_Vector.mk2 5 (-1)⟩, ⟨RS_Vector.mk2 5 (-1), RS_Vector.mk2 5 1⟩,
        ⟨RS_Vector.mk2 5 1, RS_Vector.mk2 5 1⟩, ⟨RS_Vector.mk2 5 1, RS_Vector.mk2 5 (-1)⟩] ∧
    (∀ x y : ℚ, RS_Line.hasPoint ⟨RS_Vector.mk2 0 0, RS_Vector.mk2 10 0⟩ x y →
      onEdges (labelRectangle thinExternals
        (draftDimensionLine mmEnv exampleLibm thinExternals (placedData 5 0)
          gaplessStore (RS_Vector.mk2 0 0) (RS_Vector.mk2 10 0) false false false)) x y →
      x = 5 ∧ y = 0) ∧
    (getAlignText (draftDimensionLine mmEnv exampleLibm thinExternals (placedData 5 0)
      gaplessStore (RS_Vector.mk2 0 0) (RS_Vector.mk2 10 0) false false
      false).placement.graphicVariables).1 = true ∧
    (buildDimensionLine mmEnv exampleLibm thinExternals (placedData 5 0) gaplessStore
      (RS_Vector.mk2 0 0) (RS_Vector.mk2 10 0) false false false).map
        (fun r => (r.1.dimensionLine, r.1.dimensionLine2))
      = some (⟨RS_Vector.mk2 0 0, RS_Vector.mk2 5 0⟩,
          some ⟨RS_Vector.mk2 5 0, RS_Vector.mk2 10 0⟩) := by
  have hd := exampleLibm_distanceTo_origin 10 0 10 (by norm_num) (by norm_num [fadd, fmul, fsub])
  have hpl : (draftDimensionLine mmEnv exampleLibm thinExternals (placedData 5 0)
      gaplessStore (RS_Vector.mk2 0 0) (RS_Vector.mk2 10 0) false false false).placement =
      ⟨0, false, RS_Vector.mk2 5 0, placedData 5 0, gaplessStoreRead⟩ := by
    simp [draftDimensionLine, readStyle_gaplessStore, textPlacement,
      getAlignText_gaplessStoreRead, placedData, RS_Vector.mk2]
  have har : (draftDimensionLine mmEnv exampleLibm thinExternals (placedData 5 0)
      gaplessStore (RS_Vector.mk2 0 0) (RS_Vector.mk2 10 0) false false false).arrows.dimensionLine
      = ⟨RS_Vector.mk2 0 0, RS_Vector.mk2 10 0⟩ := by
    have hlt : ¬ ((10 : ℚ) < fmul (5 / 2) (5 / 2)) := by norm_num [fmul]
    simp only [draftDimensionLine, readStyle_gaplessStore, hd]
    simp [arrowAnglesAndLine, hlt]
  have hst : (draftDimensionLine mmEnv exampleLibm thinExternals (placedData 5 0)
      gaplessStore (RS_Vector.mk2 0 0) (RS_Vector.mk2 10 0) false false false).style =
      ⟨1, 5 / 2, 0, 5 / 2, 0⟩ := by
    simp only [draftDimensionLine, readStyle_gaplessStore]
  have hw : ∀ t : RS_MTextData, fadd (fdiv (thinExternals.getUsedTextWidth t) 2) 0 = 0 := by
    intro t; norm_num [thinExternals, fadd, fdiv]
  have hh : ∀ t : RS_MTextData, fadd (fdiv (thinExternals.getUsedTextHeight t) 2) 0 = 1 := by
    intro t; norm_num [thinExternals, fadd, fdiv]
  have hedges : labelEdges (RS_Vector.mk2 5 0) 0 1 =
      [⟨RS_Vector.mk2 5 (-1), RS_Vector.mk2 5 (-1)⟩, ⟨RS_Vector.mk2 5 (-1), RS_Vector.mk2 5 1⟩,
        ⟨RS_Vector.mk2 5 1, RS_Vector.mk2 5 1⟩, ⟨RS_Vector.mk2 5 1, RS_Vector.mk2 5 (-1)⟩] := by
    norm_num [labelEdges_eq, RS_Vector.mk2, fadd, fsub]
  have hrect : labelRectangle thinExternals
      (draftDimensionLine mmEnv exampleLibm thinExternals (placedData 5 0)
        gaplessStore (RS_Vector.mk2 0 0) (RS_Vector.mk2 10 0) false false false) =
      [⟨RS_Vector.mk2 5 (-1), RS_Vector.mk2 5 (-1)⟩, ⟨RS_Vector.mk2 5 (-1), RS_Vector.mk2 5 1⟩,
        ⟨RS_Vector.mk2 5 1, RS_Vector.mk2 5 1⟩, ⟨RS_Vector.mk2 5 1, RS_Vector.mk2 5 (-1)⟩] := by
    unfold labelRectangle
    rw [hpl, hst]
    simp only [hw, hh, hedges]
  refine ⟨har, hrect, ?_, ?_, ?_⟩
  · rw [hrect]
    rintro x y ⟨t, ht0, ht1, hx, hy⟩ ⟨e, he, u, hu0, hu1, hx2, hy2⟩
    simp only [RS_Vector.mk2] at hx hy
    simp only [List.mem_cons, List.mem_singleton, List.not_mem_nil, or_false] at he
    rcases he with rfl | rfl | rfl | rfl <;> simp only [RS_Vector.mk2] at hx2 hy2 <;>
      constructor <;> linarith
  · rw [hpl, getAlignText_gaplessStoreRead]
  · have i0 : getIntersection ⟨RS_Vector.mk2 0 0, RS_Vector.mk2 10 0⟩
        ⟨RS_Vector.mk2 5 (-1), RS_Vector.mk2 5 (-1)⟩ = none := by
      norm_num [getIntersection, RS_Vector.mk2]
    have i1 : getIntersection ⟨RS_Vector.mk2 0 0, RS_Vector.mk2 10 0⟩
        ⟨RS_Vector.mk2 5 (-1), RS_Vector.mk2 5 1⟩ = some (RS_Vector.mk2 5 0) := by
      norm_num [getIntersection, RS_Vector.mk2]
    have i2 : getIntersection ⟨RS_Vector.mk2 0 0, RS_Vector.mk2 10 0⟩
        ⟨RS_Vector.mk2 5 1, RS_Vector.mk2 5 1⟩ = none := by
      norm_num [getIntersection, RS_Vector.mk2]
    have i3 : getIntersection ⟨RS_Vector.mk2 0 0, RS_Vector.mk2 10 0⟩
        ⟨RS_Vector.mk2 5 1, RS_Vector.mk2 5 (-1)⟩ = some (RS_Vector.mk2 5 0) := by
      norm_num [getIntersection, RS_Vector.mk2]
    have d1 := exampleLibm_distanceTo_origin 5 0 5 (by norm_num)
      (by norm_num [fadd, fmul, fsub])
    have hsplit : splitDimensionLine exampleLibm (RS_Vector.mk2 0 0)
        ⟨RS_Vector.mk2 0 0, RS_Vector.mk2 10 0⟩ (RS_Vector.mk2 5 0) 0 1
        = some (⟨RS_Vector.mk2 0 0, RS_Vector.mk2 5 0⟩,
            some ⟨RS_Vector.mk2 5 0, RS_Vector.mk2 10 0⟩) := by
      unfold splitDimensionLine
      rw [hedges, findIntersections_four, i0, i1, i2, i3]
      simp [List.reduceOption, d1]
    unfold buildDimensionLine
    simp only [hpl, hst, har, getAlignText_gaplessStoreRead, if_true, hw, hh, hsplit]
    rfl

/-! ## Theorems: the parts of the dimension line -/

theorem find_getGraphicVariable_ne (env : Env) (key k : String) (d : ℚ) (code : Int)
    (g : VariableDict) (hk : k ≠ key) :
    (getGraphicVariable env key d code g).2.find k = g.find k := by
  unfold getGraphicVariable
  simp only []
  split
  · have hb : (k == key) = false := by simpa using hk
    simp [addGraphicVariable, VariableDict.find, List.lookup, hb]
  · rfl

theorem find_readStyle (env : Env) (g : VariableDict) :
    (readStyle env g).2.find "$DIMTIH" = g.find "$DIMTIH" := by
  simp only [readStyle, getGeneralScale, getTextHeight, getDimensionLineGap, getArrowSize,
    getTickSize]
  rw [find_getGraphicVariable_ne _ _ _ _ _ _ (by decide),
    find_getGraphicVariable_ne _ _ _ _ _ _ (by decide),
    find_getGraphicVariable_ne _ _ _ _ _ _ (by decide),
    find_getGraphicVariable_ne _ _ _ _ _ _ (by decide),
    find_getGraphicVariable_ne _ _ _ _ _ _ (by decide)]

theorem getAlignText_of_none (g : VariableDict) (hf : g.find "$DIMTIH" = none) :
    getAlignText g = (true, addGraphicVariableInt g "$DIMTIH" 0 70) := by
  have e : getGraphicVariableInt g "$DIMTIH" 2 = 2 := by
    simp [getGraphicVariableInt, hf]
  unfold getAlignText
  simp [e]

theorem splitDimensionLine_ends (lm : Libm) (p1 : RS_Vector) (dl : RS_Line)
    (textPos : RS_Vector) (w h : ℚ) (line1 : RS_Line) (line2 : Option RS_Line)
    (hs : splitDimensionLine lm p1 dl textPos w h = some (line1, line2)) :
    line1.startpoint = dl.startpoint ∧ ∀ l2, line2 = some l2 → l2.endpoint = dl.endpoint := by
  by_cases hfew : edgesHit dl (labelEdges textPos w h) < 2
  · rw [splitDimensionLine_of_few lm p1 dl textPos w h hfew] at hs
    simp only [Option.some.injEq, Prod.mk.injEq] at hs
    obtain ⟨h1, h2⟩ := hs
    subst h1 h2
    exact ⟨rfl, fun l2 hl => by simp at hl⟩
  · have h2 : 2 ≤ edgesHit dl (labelEdges textPos w h) := by omega
    rw [labelEdges_eq] at h2
    obtain ⟨v1, v2, hv⟩ := firstTwoHits_of_two dl _ _ _ _ h2
    rw [← labelEdges_eq] at hv
    rw [splitDimensionLine_of_two lm p1 dl textPos w h v1 v2 hv] at hs
    split at hs <;>
    · simp only [Option.some.injEq, Prod.mk.injEq] at hs
      obtain ⟨h1, h2⟩ := hs
      subst h1 h2
      exact ⟨rfl, fun l2 hl => by
        simp only [Option.some.injEq] at hl
        subst hl
        rfl⟩

theorem getIntersection_degenerate (p : RS_Vector) (e : RS_Line) :
    getIntersection ⟨p, p⟩ e = none := by
  simp [getIntersection]

theorem edgesHit_degenerate (p : RS_Vector) (edges : List RS_Line) :
    edgesHit ⟨p, p⟩ edges = 0 := by
  simp [edgesHit, getIntersection_degenerate]

/-- Every run of `updateCreateDimensionLine` comes to its end, and what it
builds is what it has built before the split, but for the split of the
dimension line: the split leaves the start point of the dimension line and
the end point of the dimension line as a whole, and there is no split for
aligned text or when fewer than two edges of the rectangle around the text
report an intersection. -/
theorem buildDimensionLine_total (env : Env) (lm : Libm) (ext : Externals)
    (data : RS_DimensionData) (g : VariableDict) (p1 p2 : RS_Vector)
    (arrow1 arrow2 forceAutoText : Bool) :
    ∃ parts : DimensionLineParts,
      buildDimensionLine env lm ext data g p1 p2 arrow1 arrow2 forceAutoText =
        some (parts,
          (draftDimensionLine env lm ext data g p1 p2 arrow1 arrow2
            forceAutoText).placement.data,
          (getAlignText (draftDimensionLine env lm ext data g p1 p2 arrow1 arrow2
            forceAutoText).placement.graphicVariables).2) ∧
      parts.terminators =
        (draftDimensionLine env lm ext data g p1 p2 arrow1 arrow2 forceAutoText).terminators ∧
      parts.text =
        (draftDimensionLine env lm ext data g p1 p2 arrow1 arrow2 forceAutoText).text ∧
      parts.dimensionLine.startpoint =
        (draftDimensionLine env lm ext data g p1 p2 arrow1 arrow2
          forceAutoText).arrows.dimensionLine.startpoint ∧
      parts.endpoint =
        (draftDimensionLine env lm ext data g p1 p2 arrow1 arrow2
          forceAutoText).arrows.dimensionLine.endpoint ∧
      (((getAlignText (draftDimensionLine env lm ext data g p1 p2 arrow1 arrow2
          forceAutoText).placement.graphicVariables).1 = false ∨
        edgesHit
          (draftDimensionLine env lm ext data g p1 p2 arrow1 arrow2
            forceAutoText).arrows.dimensionLine
          (labelRectangle ext
            (draftDimensionLine env lm ext data g p1 p2 arrow1 arrow2 forceAutoText)) < 2) →
        parts.dimensionLine =
          (draftDimensionLine env lm ext data g p1 p2 arrow1 arrow2
            forceAutoText).arrows.dimensionLine ∧
        parts.dimensionLine2 = none) := by
  unfold buildDimensionLine
  simp only []
  split
  · next hread =>
    obtain ⟨line1, line2, hsplit, hiff⟩ := splitDimensionLine_isSome lm p1
      (draftDimensionLine env lm ext data g p1 p2 arrow1 arrow2
        forceAutoText).arrows.dimensionLine
      (draftDimensionLine env lm ext data g p1 p2 arrow1 arrow2
        forceAutoText).placement.textPos
      (fadd (fdiv (ext.getUsedTextWidth (draftDimensionLine env lm ext data g p1 p2 arrow1
        arrow2 forceAutoText).text) 2) (draftDimensionLine env lm ext data g p1 p2 arrow1 arrow2
        forceAutoText).style.dimgap)
      (fadd (fdiv (ext.getUsedTextHeight (draftDimensionLine env lm ext data g p1 p2 arrow1
        arrow2 forceAutoText).text) 2) (draftDimensionLine env lm ext data g p1 p2 arrow1 arrow2
        forceAutoText).style.dimgap)
    rw [hsplit]
    have hends := splitDimensionLine_ends lm p1 _ _ _ _ line1 line2 hsplit
    refine ⟨_, rfl, rfl, rfl, hends.1, ?_, fun hcase => ?_⟩
    · cases line2 with
      | none =>
        -- the line was not split: it is the line of before the split
        have hfew : ¬ 2 ≤ edgesHit _ _ := fun h2 => absurd (hiff.2 h2) (by simp)
        have hs2 := splitDimensionLine_of_few lm p1 _ _ _ _ (not_le.1 hfew)
        rw [hsplit] at hs2
        simp only [Option.some.injEq, Prod.mk.injEq, and_true] at hs2
        simp only [DimensionLineParts.endpoint, hs2]
      | some l2 =>
        simp only [DimensionLineParts.endpoint]
        exact hends.2 l2 rfl
    · rcases hcase with hfalse | hfew
      · rw [hfalse] at hread
        exact absurd hread (by simp)
      · unfold labelRectangle at hfew
        have hs3 := splitDimensionLine_of_few lm p1 _ _ _ _ hfew
        rw [hsplit] at hs3
        simp only [Option.some.injEq, Prod.mk.injEq] at hs3
        exact ⟨hs3.1, hs3.2⟩
  · next hread =>
    exact ⟨_, rfl, rfl, rfl, rfl, rfl, fun _ => ⟨rfl, rfl⟩⟩

theorem draft_arrows_outside (env : Env) (lm : Libm) (ext : Externals)
    (data : RS_DimensionData) (g : VariableDict) (p1 p2 : RS_Vector)
    (arrow1 arrow2 forceAutoText : Bool)
    (h : (draftDimensionLine env lm ext data g p1 p2 arrow1 arrow2
      forceAutoText).outsideArrows = true) :
    (draftDimensionLine env lm ext data g p1 p2 arrow1 arrow2 forceAutoText).arrows =
      { arrowAngle1 := RS_Line.getAngle1 lm ⟨p1, p2⟩
        arrowAngle2 := RS_Line.getAngle2 lm ⟨p1, p2⟩
        dimensionLine :=
          ⟨p1.add (RS_Vector.polar lm (fmul (readStyle env g).1.arrowSize 2)
              (RS_Line.getAngle2 lm ⟨p1, p2⟩)),
            p2.sub (RS_Vector.polar lm (fmul (readStyle env g).1.arrowSize 2)
              (RS_Line.getAngle2 lm ⟨p1, p2⟩))⟩ } := by
  simp only [draftDimensionLine] at h ⊢
  simp [arrowAnglesAndLine, h]

theorem draft_arrows_inside (env : Env) (lm : Libm) (ext : Externals)
    (data : RS_DimensionData) (g : VariableDict) (p1 p2 : RS_Vector)
    (arrow1 arrow2 forceAutoText : Bool)
    (h : (draftDimensionLine env lm ext data g p1 p2 arrow1 arrow2
      forceAutoText).outsideArrows = false) :
    (draftDimensionLine env lm ext data g p1 p2 arrow1 arrow2 forceAutoText).arrows =
      { arrowAngle1 := RS_Line.getAngle2 lm ⟨p1, p2⟩
        arrowAngle2 := RS_Line.getAngle1 lm ⟨p1, p2⟩
        dimensionLine := ⟨p1, p2⟩ } := by
  simp only [draftDimensionLine] at h ⊢
  simp [arrowAnglesAndLine, h]

theorem draft_outsideArrows_iff (env : Env) (lm : Libm) (ext : Externals)
    (data : RS_DimensionData) (g : VariableDict) (p1 p2 : RS_Vector)
    (arrow1 arrow2 forceAutoText : Bool) :
    (draftDimensionLine env lm ext data g p1 p2 arrow1 arrow2 forceAutoText).outsideArrows
        = true ↔
      p1.distanceTo lm p2 < fmul (readStyle env g).1.arrowSize (5 / 2) := by
  simp [draftDimensionLine]

/-- What a run builds when the test of line 192 holds: the arrows are
outside. -/
theorem build_outside (env : Env) (lm : Libm) (ext : Externals)
    (data : RS_DimensionData) (g : VariableDict) (p1 p2 : RS_Vector)
    (arrow1 arrow2 forceAutoText : Bool)
    (h : p1.distanceTo lm p2 < fmul (readStyle env g).1.arrowSize (5 / 2)) :
    ∃ parts : DimensionLineParts,
      buildDimensionLine env lm ext data g p1 p2 arrow1 arrow2 forceAutoText =
        some (parts,
          (draftDimensionLine env lm ext data g p1 p2 arrow1 arrow2
            forceAutoText).placement.data,
          (getAlignText (draftDimensionLine env lm ext data g p1 p2 arrow1 arrow2
            forceAutoText).placement.graphicVariables).2) ∧
      parts.dimensionLine.startpoint =
        p1.add (RS_Vector.polar lm (fmul (readStyle env g).1.arrowSize 2)
          (RS_Line.getAngle2 lm ⟨p1, p2⟩)) ∧
      parts.endpoint =
        p2.sub (RS_Vector.polar lm (fmul (readStyle env g).1.arrowSize 2)
          (RS_Line.getAngle2 lm ⟨p1, p2⟩)) ∧
      parts.terminators =
        terminators lm p1 p2 arrow1 arrow2 (RS_Line.getAngle1 lm ⟨p1, p2⟩)
          (RS_Line.getAngle2 lm ⟨p1, p2⟩) (readStyle env g).1.arrowSize
          (readStyle env g).1.dimtsz ∧
      (draftDimensionLine env lm ext data g p1 p2 arrow1 arrow2
          forceAutoText).arrows.dimensionLine =
        ⟨p1.add (RS_Vector.polar lm (fmul (readStyle env g).1.arrowSize 2)
            (RS_Line.getAngle2 lm ⟨p1, p2⟩)),
          p2.sub (RS_Vector.polar lm (fmul (readStyle env g).1.arrowSize 2)
            (RS_Line.getAngle2 lm ⟨p1, p2⟩))⟩ ∧
      (((getAlignText (draftDimensionLine env lm ext data g p1 p2 arrow1 arrow2
          forceAutoText).placement.graphicVariables).1 = false ∨
        edgesHit
          (draftDimensionLine env lm ext data g p1 p2 arrow1 arrow2
            forceAutoText).arrows.dimensionLine
          (labelRectangle ext
            (draftDimensionLine env lm ext data g p1 p2 arrow1 arrow2 forceAutoText)) < 2) →
        parts.dimensionLine =
          (draftDimensionLine env lm ext data g p1 p2 arrow1 arrow2
            forceAutoText).arrows.dimensionLine ∧
        parts.dimensionLine2 = none) := by
  obtain ⟨parts, hb, hterm, _, hstart, hend, hno⟩ :=
    buildDimensionLine_total env lm ext data g p1 p2 arrow1 arrow2 forceAutoText
  have hterms : (draftDimensionLine env lm ext data g p1 p2 arrow1 arrow2
      forceAutoText).terminators =
      terminators lm p1 p2 arrow1 arrow2
        (draftDimensionLine env lm ext data g p1 p2 arrow1 arrow2 forceAutoText).arrows.arrowAngle1
        (draftDimensionLine env lm ext data g p1 p2 arrow1 arrow2 forceAutoText).arrows.arrowAngle2
        (readStyle env g).1.arrowSize (readStyle env g).1.dimtsz := rfl
  have ha := draft_arrows_outside env lm ext data g p1 p2 arrow1 arrow2 forceAutoText
    ((draft_outsideArrows_iff env lm ext data g p1 p2 arrow1 arrow2 forceAutoText).2 h)
  rw [ha] at hstart hend
  rw [ha] at hterms
  exact ⟨parts, hb, hstart, hend, hterm.trans hterms, ha ▸ rfl, hno⟩

/-- What a run builds when the test of line 192 fails: the arrows are
inside. -/
theorem build_inside (env : Env) (lm : Libm) (ext : Externals)
    (data : RS_DimensionData) (g : VariableDict) (p1 p2 : RS_Vector)
    (arrow1 arrow2 forceAutoText : Bool)
    (h : ¬ p1.distanceTo lm p2 < fmul (readStyle env g).1.arrowSize (5 / 2)) :
    ∃ parts : DimensionLineParts,
      buildDimensionLine env lm ext data g p1 p2 arrow1 arrow2 forceAutoText =
        some (parts,
          (draftDimensionLine env lm ext data g p1 p2 arrow1 arrow2
            forceAutoText).placement.data,
          (getAlignText (draftDimensionLine env lm ext data g p1 p2 arrow1 arrow2
            forceAutoText).placement.graphicVariables).2) ∧
      parts.dimensionLine.startpoint = p1 ∧
      parts.endpoint = p2 ∧
      parts.terminators =
        terminators lm p1 p2 arrow1 arrow2 (RS_Line.getAngle2 lm ⟨p1, p2⟩)
          (RS_Line.getAngle1 lm ⟨p1, p2⟩) (readStyle env g).1.arrowSize
          (readStyle env g).1.dimtsz ∧
      (draftDimensionLine env lm ext data g p1 p2 arrow1 arrow2
          forceAutoText).arrows.dimensionLine = ⟨p1, p2⟩ ∧
      (draftDimensionLine env lm ext data g p1 p2 arrow1 arrow2 forceAutoText).outsideArrows
        = false ∧
      (((getAlignText (draftDimensionLine env lm ext data g p1 p2 arrow1 arrow2
          forceAutoText).placement.graphicVariables).1 = false ∨
        edgesHit
          (draftDimensionLine env lm ext data g p1 p2 arrow1 arrow2
            forceAutoText).arrows.dimensionLine
          (labelRectangle ext
            (draftDimensionLine env lm ext data g p1 p2 arrow1 arrow2 forceAutoText)) < 2) →
        parts.dimensionLine =
          (draftDimensionLine env lm ext data g p1 p2 arrow1 arrow2
            forceAutoText).arrows.dimensionLine ∧
        parts.dimensionLine2 = none) := by
  obtain ⟨parts, hb, hterm, _, hstart, hend, hno⟩ :=
    buildDimensionLine_total env lm ext data g p1 p2 arrow1 arrow2 forceAutoText
  have hterms : (draftDimensionLine env lm ext data g p1 p2 arrow1 arrow2
      forceAutoText).terminators =
      terminators lm p1 p2 arrow1 arrow2
        (draftDimensionLine env lm ext data g p1 p2 arrow1 arrow2 forceAutoText).arrows.arrowAngle1
        (draftDimensionLine env lm ext data g p1 p2 arrow1 arrow2 forceAutoText).arrows.arrowAngle2
        (readStyle env g).1.arrowSize (readStyle env g).1.dimtsz := rfl
  have hf : (draftDimensionLine env lm ext data g p1 p2 arrow1 arrow2
      forceAutoText).outsideArrows = false := by
    cases hc : (draftDimensionLine env lm ext data g p1 p2 arrow1 arrow2
      forceAutoText).outsideArrows
    · rfl
    · exact absurd ((draft_outsideArrows_iff env lm ext data g p1 p2 arrow1 arrow2
        forceAutoText).1 hc) h
  have ha := draft_arrows_inside env lm ext data g p1 p2 arrow1 arrow2 forceAutoText hf
  rw [ha] at hstart hend
  rw [ha] at hterms
  exact ⟨parts, hb, hstart, hend, hterm.trans hterms, ha ▸ rfl, hf, hno⟩

theorem terminators_arrows (lm : Libm) (p1 p2 : RS_Vector) (arrow1 arrow2 : Bool)
    (arrowAngle1 arrowAngle2 arrowSize dimtsz : ℚ) (h : dimtsz < roundDouble (1 / 100)) :
    terminators lm p1 p2 arrow1 arrow2 arrowAngle1 arrowAngle2 arrowSize dimtsz =
      (if arrow1 then [RS_Entity.arrow p1 arrowAngle1 arrowSize] else []) ++
        (if arrow2 then [RS_Entity.arrow p2 arrowAngle2 arrowSize] else []) := by
  rw [terminators, if_pos h]

theorem terminators_ticks (lm : Libm) (p1 p2 : RS_Vector) (arrow1 arrow2 : Bool)
    (arrowAngle1 arrowAngle2 arrowSize dimtsz : ℚ) (h : roundDouble (1 / 100) ≤ dimtsz) :
    terminators lm p1 p2 arrow1 arrow2 arrowAngle1 arrowAngle2 arrowSize dimtsz =
      (if arrow1 then
          [tickAt (RS_Vector.polar lm dimtsz (fadd arrowAngle1 (fmul M_PI (1 / 4)))) p1]
        else []) ++
        (if arrow2 then
          [tickAt (RS_Vector.polar lm dimtsz (fadd arrowAngle1 (fmul M_PI (1 / 4)))) p2]
        else []) := by
  rw [terminators, if_neg (not_lt.2 h)]
  rfl

theorem terminators_length (lm : Libm) (p1 p2 : RS_Vector) (arrow1 arrow2 : Bool)
    (arrowAngle1 arrowAngle2 arrowSize dimtsz : ℚ) :
    (terminators lm p1 p2 arrow1 arrow2 arrowAngle1 arrowAngle2 arrowSize dimtsz).length =
      (if arrow1 then 1 else 0) + (if arrow2 then 1 else 0) := by
  unfold terminators
  cases arrow1 <;> cases arrow2 <;> split <;> simp

theorem terminators_kinds (lm : Libm) (p1 p2 : RS_Vector) (arrow1 arrow2 : Bool)
    (arrowAngle1 arrowAngle2 arrowSize dimtsz : ℚ) :
    ∀ e ∈ terminators lm p1 p2 arrow1 arrow2 arrowAngle1 arrowAngle2 arrowSize dimtsz,
      (e.isLine = true ↔ roundDouble (1 / 100) ≤ dimtsz) ∧
        (e.isArrow = true ↔ dimtsz < roundDouble (1 / 100)) := by
  intro e he
  by_cases h : dimtsz < roundDouble (1 / 100)
  · rw [terminators_arrows lm p1 p2 arrow1 arrow2 arrowAngle1 arrowAngle2 arrowSize dimtsz h]
      at he
    have h3 : ¬ roundDouble (1 / 100) ≤ dimtsz := not_le.2 h
    cases arrow1 <;> cases arrow2 <;> simp at he <;>
      (try rcases he with rfl | rfl) <;>
      exact ⟨⟨fun hc => by simp [RS_Entity.isLine] at hc, fun hc => absurd hc h3⟩,
        ⟨fun _ => h, fun _ => rfl⟩⟩
  · have h2 : roundDouble (1 / 100) ≤ dimtsz := not_lt.1 h
    rw [terminators_ticks lm p1 p2 arrow1 arrow2 arrowAngle1 arrowAngle2 arrowSize dimtsz h2]
      at he
    cases arrow1 <;> cases arrow2 <;> simp at he <;>
      (try rcases he with rfl | rfl) <;>
      exact ⟨⟨fun _ => h2, fun _ => rfl⟩,
        ⟨fun hc => by simp [RS_Entity.isArrow, tickAt] at hc, fun hc => absurd hc h⟩⟩

/-! ## Theorems: the arrows and the ticks -/

theorem roundDouble_hundredth : roundDouble (1 / 100) = 5764607523034235 / 2 ^ 59 := by
  have h := roundDouble_of_near (1 / 100) (-7) 5764607523034235 (by norm_num) (by norm_num)
    (by norm_num) (by norm_num) (by norm_num)
  rw [h]
  norm_num

theorem roundDouble_below_hundredth :
    roundDouble (99 / 10000) = 5706961447803893 / 2 ^ 59 := by
  have h := roundDouble_of_near (99 / 10000) (-7) 5706961447803893 (by norm_num) (by norm_num)
    (by norm_num) (by norm_num) (by norm_num)
  rw [h]
  norm_num

theorem fmul_tenth_example : fmul (3602879701896397 / 2 ^ 55) (5 / 2) = 1 / 4 := by
  have h := roundDouble_of_near (3602879701896397 / 2 ^ 55 * (5 / 2)) (-2) 4503599627370496
    (by norm_num) (by norm_num) (by norm_num) (by norm_num) (by norm_num)
  rw [fmul, h]
  norm_num

theorem fmul_tick_example :
    fmul (5404319552844595 / 2 ^ 55) (4803839602528529 / 2 ^ 56) = roundDouble (1 / 100) := by
  have h := roundDouble_of_near (5404319552844595 / 2 ^ 55 * (4803839602528529 / 2 ^ 56)) (-7)
    5764607523034235 (by norm_num) (by norm_num) (by norm_num) (by norm_num) (by norm_num)
  rw [fmul, h, roundDouble_hundredth]
  norm_num

/-- C13: every run of `updateCreateDimensionLine` comes to its end, and it
has its arrows outside if and only if the test `distance < arrowSize * 2.5` of
line 192 holds, in which `distance` is the distance from `p1` to `p2`,
`arrowSize` is the product of `getArrowSize` and `getGeneralScale` that line
186 computes, and the products are products of doubles, each rounded to the
nearest double. With the arrows outside the dimension line that the run
builds is extended, it starts at `p1 + dir` and ends at `p2 - dir`, and the
angles of the terminators are those of the other case exchanged. Otherwise,
so also when the distance is equal to the product, the dimension line starts
at `p1` and ends at `p2`. The rounding counts: for the arrow size 0.1, the
double `3602879701896397 / 2 ^ 55`, the product with 2.5 is the double 0.25,
so that a distance of 0.25 leaves the arrows inside. -/
theorem outsideArrows_iff (env : Env) (lm : Libm) (ext : Externals)
    (data : RS_DimensionData) (g : VariableDict) (p1 p2 : RS_Vector)
    (arrow1 arrow2 forceAutoText : Bool) :
    ∃ (parts : DimensionLineParts) (data1 : RS_DimensionData) (g1 : VariableDict),
      buildDimensionLine env lm ext data g p1 p2 arrow1 arrow2 forceAutoText =
        some (parts, data1, g1) ∧
      (readStyle env g).1.arrowSize =
        fmul (getArrowSize env (getDimensionLineGap env (getTextHeight env
          (getGeneralScale env g).2).2).2).1 (getGeneralScale env g).1 ∧
      ((draftDimensionLine env lm ext data g p1 p2 arrow1 arrow2 forceAutoText).outsideArrows
          = true ↔
        p1.distanceTo lm p2 < fmul (readStyle env g).1.arrowSize (5 / 2)) ∧
      (p1.distanceTo lm p2 < fmul (readStyle env g).1.arrowSize (5 / 2) →
        parts.dimensionLine.startpoint =
          p1.add (RS_Vector.polar lm (fmul (readStyle env g).1.arrowSize 2)
            (RS_Line.getAngle2 lm ⟨p1, p2⟩)) ∧
        parts.endpoint =
          p2.sub (RS_Vector.polar lm (fmul (readStyle env g).1.arrowSize 2)
            (RS_Line.getAngle2 lm ⟨p1, p2⟩)) ∧
        parts.terminators =
          terminators lm p1 p2 arrow1 arrow2 (RS_Line.getAngle1 lm ⟨p1, p2⟩)
            (RS_Line.getAngle2 lm ⟨p1, p2⟩) (readStyle env g).1.arrowSize
            (readStyle env g).1.dimtsz) ∧
      (¬ p1.distanceTo lm p2 < fmul (readStyle env g).1.arrowSize (5 / 2) →
        parts.dimensionLine.startpoint = p1 ∧
        parts.endpoint = p2 ∧
        parts.terminators =
          terminators lm p1 p2 arrow1 arrow2 (RS_Line.getAngle2 lm ⟨p1, p2⟩)
            (RS_Line.getAngle1 lm ⟨p1, p2⟩) (readStyle env g).1.arrowSize
            (readStyle env g).1.dimtsz) ∧
      (p1.distanceTo lm p2 = fmul (readStyle env g).1.arrowSize (5 / 2) →
        (draftDimensionLine env lm ext data g p1 p2 arrow1 arrow2 forceAutoText).outsideArrows
          = false ∧
        parts.dimensionLine.startpoint = p1 ∧ parts.endpoint = p2) ∧
      fmul (3602879701896397 / 2 ^ 55) (5 / 2) = 1 / 4 := by
  have hiff := draft_outsideArrows_iff env lm ext data g p1 p2 arrow1 arrow2 forceAutoText
  by_cases h : p1.distanceTo lm p2 < fmul (readStyle env g).1.arrowSize (5 / 2)
  · obtain ⟨parts, hb, hs, he, ht, _⟩ :=
      build_outside env lm ext data g p1 p2 arrow1 arrow2 forceAutoText h
    exact ⟨parts, _, _, hb, rfl, hiff, fun _ => ⟨hs, he, ht⟩, fun hn => absurd h hn,
      fun he2 => absurd h (by rw [he2]; exact lt_irrefl _), fmul_tenth_example⟩
  · obtain ⟨parts, hb, hs, he, ht, _, hf, _⟩ :=
      build_inside env lm ext data g p1 p2 arrow1 arrow2 forceAutoText h
    exact ⟨parts, _, _, hb, rfl, hiff, fun hy => absurd hy h, fun _ => ⟨hs, he, ht⟩,
      fun _ => ⟨hf, hs, he⟩, fmul_tenth_example⟩

/-- C14: every run of `updateCreateDimensionLine` comes to its end, and the
terminators it builds are ticks, which are lines, if and only if the tick size
is at least 0.01, and arrows otherwise. The tick size is the one the run
uses, the product of `getTickSize` and `getGeneralScale` of line 213, a
product of doubles and so rounded to the nearest double, and 0.01 is the
constant of the code, the double nearest to 1/100, which is
`5764607523034235 / 2 ^ 59`. A tick size equal to that double gives ticks,
the double nearest to 0.0099 gives arrows. In either case the terminators
are one at `p1` if `arrow1` is set, followed by one at `p2` if `arrow2` is
set. The rounding counts: the tick size 0.15 at the scale 0.06666666666666667
gives the product 0.01 and so ticks. -/
theorem terminators_spec (env : Env) (lm : Libm) (ext : Externals)
    (data : RS_DimensionData) (g : VariableDict) (p1 p2 : RS_Vector)
    (arrow1 arrow2 forceAutoText : Bool) :
    ∃ (parts : DimensionLineParts) (data1 : RS_DimensionData) (g1 : VariableDict)
      (arrowAngle1 arrowAngle2 : ℚ),
      buildDimensionLine env lm ext data g p1 p2 arrow1 arrow2 forceAutoText =
        some (parts, data1, g1) ∧
      (readStyle env g).1.dimtsz =
        fmul (getTickSize env (getArrowSize env (getDimensionLineGap env (getTextHeight env
          (getGeneralScale env g).2).2).2).2).1 (getGeneralScale env g).1 ∧
      (∀ e ∈ parts.terminators,
        (e.isLine = true ↔ roundDouble (1 / 100) ≤ (readStyle env g).1.dimtsz) ∧
        (e.isArrow = true ↔ (readStyle env g).1.dimtsz < roundDouble (1 / 100))) ∧
      ((readStyle env g).1.dimtsz = roundDouble (1 / 100) →
        ∀ e ∈ parts.terminators, e.isLine = true) ∧
      ((readStyle env g).1.dimtsz = roundDouble (99 / 10000) →
        ∀ e ∈ parts.terminators, e.isArrow = true) ∧
      parts.terminators.length = (if arrow1 then 1 else 0) + (if arrow2 then 1 else 0) ∧
      ((readStyle env g).1.dimtsz < roundDouble (1 / 100) →
        parts.terminators =
          (if arrow1 then [RS_Entity.arrow p1 arrowAngle1 (readStyle env g).1.arrowSize]
            else []) ++
          (if arrow2 then [RS_Entity.arrow p2 arrowAngle2 (readStyle env g).1.arrowSize]
            else [])) ∧
      (roundDouble (1 / 100) ≤ (readStyle env g).1.dimtsz →
        parts.terminators =
          (if arrow1 then
              [tickAt (RS_Vector.polar lm (readStyle env g).1.dimtsz
                (fadd arrowAngle1 (fmul M_PI (1 / 4)))) p1]
            else []) ++
          (if arrow2 then
              [tickAt (RS_Vector.polar lm (readStyle env g).1.dimtsz
                (fadd arrowAngle1 (fmul M_PI (1 / 4)))) p2]
            else [])) ∧
      roundDouble (1 / 100) = 5764607523034235 / 2 ^ 59 ∧
      roundDouble (99 / 10000) = 5706961447803893 / 2 ^ 59 ∧
      fmul (5404319552844595 / 2 ^ 55) (4803839602528529 / 2 ^ 56) = roundDouble (1 / 100) := by
  obtain ⟨parts, hb, hterm, _⟩ :=
    buildDimensionLine_total env lm ext data g p1 p2 arrow1 arrow2 forceAutoText
  have hterms : parts.terminators =
      terminators lm p1 p2 arrow1 arrow2
        (draftDimensionLine env lm ext data g p1 p2 arrow1 arrow2 forceAutoText).arrows.arrowAngle1
        (draftDimensionLine env lm ext data g p1 p2 arrow1 arrow2 forceAutoText).arrows.arrowAngle2
        (readStyle env g).1.arrowSize (readStyle env g).1.dimtsz := hterm
  refine ⟨parts, _, _,
    (draftDimensionLine env lm ext data g p1 p2 arrow1 arrow2 forceAutoText).arrows.arrowAngle1,
    (draftDimensionLine env lm ext data g p1 p2 arrow1 arrow2 forceAutoText).arrows.arrowAngle2,
    hb, rfl, ?_, ?_, ?_, ?_, ?_, ?_, roundDouble_hundredth,
    roundDouble_below_hundredth, fmul_tick_example⟩
  · rw [hterms]
    exact terminators_kinds _ _ _ _ _ _ _ _ _
  · intro h e he
    rw [hterms] at he
    exact ((terminators_kinds _ _ _ _ _ _ _ _ _ e he).1).2 (le_of_eq h.symm)
  · intro h e he
    rw [hterms] at he
    refine ((terminators_kinds _ _ _ _ _ _ _ _ _ e he).2).2 ?_
    rw [h, roundDouble_hundredth, roundDouble_below_hundredth]
    norm_num
  · rw [hterms]
    exact terminators_length _ _ _ _ _ _ _ _ _
  · intro h
    rw [hterms]
    exact terminators_arrows _ _ _ _ _ _ _ _ _ h
  · intro h
    rw [hterms]
    exact terminators_ticks _ _ _ _ _ _ _ _ _ h

/-- C16, as the code has it: every run of `updateCreateDimensionLine` comes to
its end, and the angles that feed its terminators are these. The angle at `p1`
is the direction from `p1` to `p2` and the angle at `p2` is the direction from
`p2` to `p1`. With the arrows inside, an arrow at `p1` is built with the angle
at `p2` and an arrow at `p2` with the angle at `p1`; with the arrows outside,
an arrow at `p1` is built with the angle at `p1` and an arrow at `p2` with the
angle at `p2`. Ticks do not follow this: both ticks are built with one angle,
the angle that an arrow at `p1` would have, plus `M_PI * 0.25`. -/
theorem terminator_angles (env : Env) (lm : Libm) (ext : Externals)
    (data : RS_DimensionData) (g : VariableDict) (p1 p2 : RS_Vector)
    (arrow1 arrow2 forceAutoText : Bool) :
    ∃ (parts : DimensionLineParts) (data1 : RS_DimensionData) (g1 : VariableDict),
      buildDimensionLine env lm ext data g p1 p2 arrow1 arrow2 forceAutoText =
        some (parts, data1, g1) ∧
      RS_Line.getAngle1 lm ⟨p1, p2⟩ = p1.angleTo lm p2 ∧
      RS_Line.getAngle2 lm ⟨p1, p2⟩ = p2.angleTo lm p1 ∧
      (¬ p1.distanceTo lm p2 < fmul (readStyle env g).1.arrowSize (5 / 2) →
        (readStyle env g).1.dimtsz < roundDouble (1 / 100) →
        parts.terminators =
          (if arrow1 then
              [RS_Entity.arrow p1 (p2.angleTo lm p1) (readStyle env g).1.arrowSize]
            else []) ++
          (if arrow2 then
              [RS_Entity.arrow p2 (p1.angleTo lm p2) (readStyle env g).1.arrowSize]
            else [])) ∧
      (p1.distanceTo lm p2 < fmul (readStyle env g).1.arrowSize (5 / 2) →
        (readStyle env g).1.dimtsz < roundDouble (1 / 100) →
        parts.terminators =
          (if arrow1 then
              [RS_Entity.arrow p1 (p1.angleTo lm p2) (readStyle env g).1.arrowSize]
            else []) ++
          (if arrow2 then
              [RS_Entity.arrow p2 (p2.angleTo lm p1) (readStyle env g).1.arrowSize]
            else [])) ∧
      (¬ p1.distanceTo lm p2 < fmul (readStyle env g).1.arrowSize (5 / 2) →
        roundDouble (1 / 100) ≤ (readStyle env g).1.dimtsz →
        parts.terminators =
          (if arrow1 then
              [tickAt (RS_Vector.polar lm (readStyle env g).1.dimtsz
                (fadd (p2.angleTo lm p1) (fmul M_PI (1 / 4)))) p1]
            else []) ++
          (if arrow2 then
              [tickAt (RS_Vector.polar lm (readStyle env g).1.dimtsz
                (fadd (p2.angleTo lm p1) (fmul M_PI (1 / 4)))) p2]
            else [])) ∧
      (p1.distanceTo lm p2 < fmul (readStyle env g).1.arrowSize (5 / 2) →
        roundDouble (1 / 100) ≤ (readStyle env g).1.dimtsz →
        parts.terminators =
          (if arrow1 then
              [tickAt (RS_Vector.polar lm (readStyle env g).1.dimtsz
                (fadd (p1.angleTo lm p2) (fmul M_PI (1 / 4)))) p1]
            else []) ++
          (if arrow2 then
              [tickAt (RS_Vector.polar lm (readStyle env g).1.dimtsz
                (fadd (p1.angleTo lm p2) (fmul M_PI (1 / 4)))) p2]
            else [])) := by
  by_cases h : p1.distanceTo lm p2 < fmul (readStyle env g).1.arrowSize (5 / 2)
  · obtain ⟨parts, hb, _, _, ht, _⟩ :=
      build_outside env lm ext data g p1 p2 arrow1 arrow2 forceAutoText h
    refine ⟨parts, _, _, hb, rfl, rfl, fun hn => absurd h hn, fun _ hs => ?_,
      fun hn => absurd h hn, fun _ hs => ?_⟩
    · rw [ht, terminators_arrows _ _ _ _ _ _ _ _ _ hs]
      rfl
    · rw [ht, terminators_ticks _ _ _ _ _ _ _ _ _ hs]
      rfl
  · obtain ⟨parts, hb, _, _, ht, _⟩ :=
      build_inside env lm ext data g p1 p2 arrow1 arrow2 forceAutoText h
    refine ⟨parts, _, _, hb, rfl, rfl, fun _ hs => ?_, fun hy => absurd hy h,
      fun _ hs => ?_, fun hy => absurd hy h⟩
    · rw [ht, terminators_arrows _ _ _ _ _ _ _ _ _ hs]
      rfl
    · rw [ht, terminators_ticks _ _ _ _ _ _ _ _ _ hs]
      rfl

/-! ## Theorems: the position of the text -/

theorem textPlacement_kept (lm : Libm) (ext : Externals) (data : RS_DimensionData)
    (g : VariableDict) (dl : RS_Line) (dimgap dimtxt : ℚ) (forceAutoText : Bool)
    (hv : data.middleOfText.valid = true) (hf : forceAutoText = false) :
    (textPlacement lm ext data g dl dimgap dimtxt forceAutoText).textPos = data.middleOfText ∧
    (textPlacement lm ext data g dl dimgap dimtxt forceAutoText).data = data ∧
    (textPlacement lm ext data g dl dimgap dimtxt forceAutoText).graphicVariables =
      (getAlignText g).2 := by
  simp [textPlacement, hv, hf]

theorem textPlacement_auto (lm : Libm) (ext : Externals) (data : RS_DimensionData)
    (g : VariableDict) (dl : RS_Line) (dimgap dimtxt : ℚ) (forceAutoText : Bool)
    (h : data.middleOfText.valid = false ∨ forceAutoText = true) :
    (textPlacement lm ext data g dl dimgap dimtxt forceAutoText).textPos =
      (if (getAlignText (getAlignText g).2).1 = true then dl.getMiddlePoint
        else dl.getMiddlePoint.move
          (if (if (getAlignText g).1 = true then ((0 : ℚ), false)
              else ext.makeAngleReadable (dl.getAngle1 lm) true).2 = true
            then RS_Vector.polar lm (fadd dimgap (fdiv dimtxt 2)) (fsub (dl.getAngle1 lm) M_PI_2)
            else
              RS_Vector.polar lm (fadd dimgap (fdiv dimtxt 2))
                (fadd (dl.getAngle1 lm) M_PI_2))) ∧
    (textPlacement lm ext data g dl dimgap dimtxt forceAutoText).data =
      { data with
        middleOfText := (textPlacement lm ext data g dl dimgap dimtxt forceAutoText).textPos } ∧
    (textPlacement lm ext data g dl dimgap dimtxt forceAutoText).graphicVariables =
      (getAlignText (getAlignText g).2).2 := by
  have hc : (data.middleOfText.valid && !forceAutoText) = false := by
    rcases h with h | h <;> simp [h]
  unfold textPlacement
  simp only [hc]
  refine ⟨?_, rfl, rfl⟩
  cases (getAlignText (getAlignText g).2).1 <;> simp

theorem textPlacement_valid (lm : Libm) (ext : Externals) (data : RS_DimensionData)
    (g : VariableDict) (dl : RS_Line) (dimgap dimtxt : ℚ) (forceAutoText : Bool)
    (h : data.middleOfText.valid = false ∨ forceAutoText = true) :
    (textPlacement lm ext data g dl dimgap dimtxt forceAutoText).textPos.valid = true := by
  rw [(textPlacement_auto lm ext data g dl dimgap dimtxt forceAutoText h).1]
  split <;> simp [RS_Line.getMiddlePoint, RS_Vector.mk2, RS_Vector.move]

theorem textPlacement_angle (lm : Libm) (ext : Externals) (data : RS_DimensionData)
    (g : VariableDict) (dl : RS_Line) (dimgap dimtxt : ℚ) (forceAutoText : Bool) :
    (textPlacement lm ext data g dl dimgap dimtxt forceAutoText).textAngle =
      (if (getAlignText g).1 = true then ((0 : ℚ), false)
        else ext.makeAngleReadable (dl.getAngle1 lm) true).1 := by
  unfold textPlacement
  simp only []
  split <;> rfl

theorem labelText_angle (lm : Libm) (ext : Externals) (data : RS_DimensionData)
    (textPos : RS_Vector) (dimtxt dimgap distance textAngle : ℚ) :
    (labelText lm ext data textPos dimtxt dimgap distance textAngle).angle = textAngle := by
  unfold labelText
  simp only []
  split <;> rfl

theorem draft_dimensionLine (env : Env) (lm : Libm) (ext : Externals)
    (data : RS_DimensionData) (g : VariableDict) (p1 p2 : RS_Vector)
    (arrow1 arrow2 forceAutoText : Bool) :
    (draftDimensionLine env lm ext data g p1 p2 arrow1 arrow2 forceAutoText).arrows.dimensionLine =
      (if p1.distanceTo lm p2 < fmul (readStyle env g).1.arrowSize (5 / 2) then
        (⟨p1.add (RS_Vector.polar lm (fmul (readStyle env g).1.arrowSize 2)
            (RS_Line.getAngle2 lm ⟨p1, p2⟩)),
          p2.sub (RS_Vector.polar lm (fmul (readStyle env g).1.arrowSize 2)
            (RS_Line.getAngle2 lm ⟨p1, p2⟩))⟩ : RS_Line)
      else ⟨p1, p2⟩) := by
  by_cases h : p1.distanceTo lm p2 < fmul (readStyle env g).1.arrowSize (5 / 2)
  · obtain ⟨_, _, _, _, _, hl, _⟩ :=
      build_outside env lm ext data g p1 p2 arrow1 arrow2 forceAutoText h
    rw [hl, if_pos h]
  · obtain ⟨_, _, _, _, _, hl, _⟩ :=
      build_inside env lm ext data g p1 p2 arrow1 arrow2 forceAutoText h
    rw [hl, if_neg h]

theorem draft_text (env : Env) (lm : Libm) (ext : Externals)
    (data : RS_DimensionData) (g : VariableDict) (p1 p2 : RS_Vector)
    (arrow1 arrow2 forceAutoText : Bool) :
    (draftDimensionLine env lm ext data g p1 p2 arrow1 arrow2 forceAutoText).text =
      labelText lm ext
        (draftDimensionLine env lm ext data g p1 p2 arrow1 arrow2 forceAutoText).placement.data
        (draftDimensionLine env lm ext data g p1 p2 arrow1 arrow2 forceAutoText).placement.textPos
        (readStyle env g).1.dimtxt (readStyle env g).1.dimgap (p1.distanceTo lm p2)
        (draftDimensionLine env lm ext data g p1 p2 arrow1 arrow2
          forceAutoText).placement.textAngle := rfl

theorem draft_placement (env : Env) (lm : Libm) (ext : Externals)
    (data : RS_DimensionData) (g : VariableDict) (p1 p2 : RS_Vector)
    (arrow1 arrow2 forceAutoText : Bool) :
    (draftDimensionLine env lm ext data g p1 p2 arrow1 arrow2 forceAutoText).placement =
      textPlacement lm ext data (readStyle env g).2
        (draftDimensionLine env lm ext data g p1 p2 arrow1 arrow2
          forceAutoText).arrows.dimensionLine
        (readStyle env g).1.dimgap (readStyle env g).1.dimtxt forceAutoText := rfl

/-- The run with a valid middle of the text and `forceAutoText` not set. -/
theorem build_kept (env : Env) (lm : Libm) (ext : Externals)
    (data : RS_DimensionData) (g : VariableDict) (p1 p2 : RS_Vector)
    (arrow1 arrow2 forceAutoText : Bool)
    (hv : data.middleOfText.valid = true) (hf : forceAutoText = false) :
    ∃ (parts : DimensionLineParts) (g1 : VariableDict),
      buildDimensionLine env lm ext data g p1 p2 arrow1 arrow2 forceAutoText =
        some (parts, data, g1) ∧
      parts.text =
        labelText lm ext data data.middleOfText (readStyle env g).1.dimtxt
          (readStyle env g).1.dimgap (p1.distanceTo lm p2)
          (draftDimensionLine env lm ext data g p1 p2 arrow1 arrow2
            forceAutoText).placement.textAngle ∧
      (draftDimensionLine env lm ext data g p1 p2 arrow1 arrow2
        forceAutoText).placement.textPos = data.middleOfText := by
  obtain ⟨parts, hb, _, htext, _⟩ :=
    buildDimensionLine_total env lm ext data g p1 p2 arrow1 arrow2 forceAutoText
  have h := textPlacement_kept lm ext data (readStyle env g).2
    (draftDimensionLine env lm ext data g p1 p2 arrow1 arrow2
      forceAutoText).arrows.dimensionLine
    (readStyle env g).1.dimgap (readStyle env g).1.dimtxt forceAutoText hv hf
  rw [← draft_placement] at h
  rw [draft_text, h.1, h.2.1] at htext
  rw [h.2.1] at hb
  exact ⟨parts, _, hb, htext, h.1⟩

/-- The run that finds the position of the text itself. -/
theorem build_auto (env : Env) (lm : Libm) (ext : Externals)
    (data : RS_DimensionData) (g : VariableDict) (p1 p2 : RS_Vector)
    (arrow1 arrow2 forceAutoText : Bool)
    (h : data.middleOfText.valid = false ∨ forceAutoText = true) (dl : RS_Line)
    (hdl : dl = (if p1.distanceTo lm p2 < fmul (readStyle env g).1.arrowSize (5 / 2) then
        (⟨p1.add (RS_Vector.polar lm (fmul (readStyle env g).1.arrowSize 2)
            (RS_Line.getAngle2 lm ⟨p1, p2⟩)),
          p2.sub (RS_Vector.polar lm (fmul (readStyle env g).1.arrowSize 2)
            (RS_Line.getAngle2 lm ⟨p1, p2⟩))⟩ : RS_Line)
      else ⟨p1, p2⟩))
    (computed : RS_Vector)
    (hc : computed =
      (if (getAlignText (getAlignText (readStyle env g).2).2).1 = true then dl.getMiddlePoint
        else dl.getMiddlePoint.move
          (if (if (getAlignText (readStyle env g).2).1 = true then ((0 : ℚ), false)
              else ext.makeAngleReadable (dl.getAngle1 lm) true).2 = true
            then
              RS_Vector.polar lm
                (fadd (readStyle env g).1.dimgap (fdiv (readStyle env g).1.dimtxt 2))
                (fsub (dl.getAngle1 lm) M_PI_2)
            else
              RS_Vector.polar lm
                (fadd (readStyle env g).1.dimgap (fdiv (readStyle env g).1.dimtxt 2))
                (fadd (dl.getAngle1 lm) M_PI_2)))) :
    ∃ (parts : DimensionLineParts) (g1 : VariableDict),
      buildDimensionLine env lm ext data g p1 p2 arrow1 arrow2 forceAutoText =
        some (parts, { data with middleOfText := computed }, g1) ∧
      computed.valid = true ∧
      (draftDimensionLine env lm ext data g p1 p2 arrow1 arrow2
        forceAutoText).placement.textPos = computed ∧
      parts.text =
        labelText lm ext { data with middleOfText := computed } computed
          (readStyle env g).1.dimtxt (readStyle env g).1.dimgap (p1.distanceTo lm p2)
          (if (getAlignText (readStyle env g).2).1 = true then ((0 : ℚ), false)
            else ext.makeAngleReadable (dl.getAngle1 lm) true).1 := by
  obtain ⟨parts, hb, _, htext, _⟩ :=
    buildDimensionLine_total env lm ext data g p1 p2 arrow1 arrow2 forceAutoText
  have hl := draft_dimensionLine env lm ext data g p1 p2 arrow1 arrow2 forceAutoText
  rw [← hdl] at hl
  have ha := textPlacement_auto lm ext data (readStyle env g).2 dl
    (readStyle env g).1.dimgap (readStyle env g).1.dimtxt forceAutoText h
  have hval := textPlacement_valid lm ext data (readStyle env g).2 dl
    (readStyle env g).1.dimgap (readStyle env g).1.dimtxt forceAutoText h
  have hang := textPlacement_angle lm ext data (readStyle env g).2 dl
    (readStyle env g).1.dimgap (readStyle env g).1.dimtxt forceAutoText
  have hp := draft_placement env lm ext data g p1 p2 arrow1 arrow2 forceAutoText
  rw [hl] at hp
  rw [← hp] at ha hval hang
  rw [← hc] at ha
  rw [ha.1] at hval
  rw [draft_text, ha.2.1, ha.1, hang] at htext
  rw [ha.2.1, ha.1] at hb
  exact ⟨parts, _, hb, hval, ha.1, htext⟩

/-- C12: when the middle of the text is valid and `forceAutoText` is not set,
`updateCreateDimensionLine` takes that very point as the position of the text,
makes the text at it and leaves the data as they are. Otherwise it computes
the position, stores it in the data as a valid point, and makes the text at
it: the position is the middle point of the dimension line as the run has set
it, the line from `p1` to `p2` or, with the arrows outside, the line from
`p1 + dir` to `p2 - dir`, and unless the second read of the flag of the text
orientation asks for horizontal text it is moved by
`setPolar(dimgap + dimtxt / 2, dimAngle1 - M_PI_2)` when the angle of the text
was corrected and by `setPolar(dimgap + dimtxt / 2, dimAngle1 + M_PI_2)` when
it was not. So every run leaves a valid middle of the text, and a second run
with the same points and `forceAutoText` not set, from whatever variable
store, takes the position that the first run left, makes its text at it and
leaves the data as they are. -/
theorem labelAnchor_sticky (env : Env) (lm : Libm) (ext : Externals)
    (data : RS_DimensionData) (g : VariableDict) (p1 p2 : RS_Vector)
    (arrow1 arrow2 forceAutoText : Bool) :
    let dimensionLine : RS_Line :=
      if p1.distanceTo lm p2 < fmul (readStyle env g).1.arrowSize (5 / 2) then
        ⟨p1.add (RS_Vector.polar lm (fmul (readStyle env g).1.arrowSize 2)
            (RS_Line.getAngle2 lm ⟨p1, p2⟩)),
          p2.sub (RS_Vector.polar lm (fmul (readStyle env g).1.arrowSize 2)
            (RS_Line.getAngle2 lm ⟨p1, p2⟩))⟩
      else ⟨p1, p2⟩
    let readable : ℚ × Bool :=
      if (getAlignText (readStyle env g).2).1 = true then ((0 : ℚ), false)
      else ext.makeAngleReadable (dimensionLine.getAngle1 lm) true
    let computed : RS_Vector :=
      if (getAlignText (getAlignText (readStyle env g).2).2).1 = true then
        dimensionLine.getMiddlePoint
      else dimensionLine.getMiddlePoint.move
        (if readable.2 = true then
          RS_Vector.polar lm
            (fadd (readStyle env g).1.dimgap (fdiv (readStyle env g).1.dimtxt 2))
            (fsub (dimensionLine.getAngle1 lm) M_PI_2)
        else
          RS_Vector.polar lm
            (fadd (readStyle env g).1.dimgap (fdiv (readStyle env g).1.dimtxt 2))
            (fadd (dimensionLine.getAngle1 lm) M_PI_2))
    (data.middleOfText.valid = true → forceAutoText = false →
      ∃ (parts : DimensionLineParts) (g1 : VariableDict),
        buildDimensionLine env lm ext data g p1 p2 arrow1 arrow2 forceAutoText =
          some (parts, data, g1) ∧
        (draftDimensionLine env lm ext data g p1 p2 arrow1 arrow2
          forceAutoText).placement.textPos = data.middleOfText ∧
        parts.text =
          labelText lm ext data data.middleOfText (readStyle env g).1.dimtxt
            (readStyle env g).1.dimgap (p1.distanceTo lm p2) readable.1) ∧
    ((data.middleOfText.valid = false ∨ forceAutoText = true) →
      ∃ (parts : DimensionLineParts) (g1 : VariableDict),
        buildDimensionLine env lm ext data g p1 p2 arrow1 arrow2 forceAutoText =
          some (parts, { data with middleOfText := computed }, g1) ∧
        computed.valid = true ∧
        (draftDimensionLine env lm ext data g p1 p2 arrow1 arrow2
          forceAutoText).placement.textPos = computed ∧
        parts.text =
          labelText lm ext { data with middleOfText := computed } computed
            (readStyle env g).1.dimtxt (readStyle env g).1.dimgap (p1.distanceTo lm p2)
            readable.1) ∧
    ∃ (parts : DimensionLineParts) (data1 : RS_DimensionData) (g1 : VariableDict),
      buildDimensionLine env lm ext data g p1 p2 arrow1 arrow2 forceAutoText =
        some (parts, data1, g1) ∧
      data1.middleOfText.valid = true ∧
      data1.middleOfText =
        (if data.middleOfText.valid = true ∧ forceAutoText = false then data.middleOfText
          else computed) ∧
      ∀ g2 : VariableDict,
        ∃ (parts2 : DimensionLineParts) (g3 : VariableDict),
          buildDimensionLine env lm ext data1 g2 p1 p2 arrow1 arrow2 false =
            some (parts2, data1, g3) ∧
          (draftDimensionLine env lm ext data1 g2 p1 p2 arrow1 arrow2
            false).placement.textPos = data1.middleOfText ∧
          parts2.text =
            labelText lm ext data1 data1.middleOfText (readStyle env g2).1.dimtxt
              (readStyle env g2).1.dimgap (p1.distanceTo lm p2)
              (draftDimensionLine env lm ext data1 g2 p1 p2 arrow1 arrow2
                false).placement.textAngle := by
  intro dimensionLine readable computed
  have hkept : data.middleOfText.valid = true → forceAutoText = false →
      ∃ (parts : DimensionLineParts) (g1 : VariableDict),
        buildDimensionLine env lm ext data g p1 p2 arrow1 arrow2 forceAutoText =
          some (parts, data, g1) ∧
        (draftDimensionLine env lm ext data g p1 p2 arrow1 arrow2
          forceAutoText).placement.textPos = data.middleOfText ∧
        parts.text =
          labelText lm ext data data.middleOfText (readStyle env g).1.dimtxt
            (readStyle env g).1.dimgap (p1.distanceTo lm p2) readable.1 := by
    intro hv hf
    obtain ⟨parts, g1, hb, ht, hpos⟩ :=
      build_kept env lm ext data g p1 p2 arrow1 arrow2 forceAutoText hv hf
    have hang := textPlacement_angle lm ext data (readStyle env g).2
      (draftDimensionLine env lm ext data g p1 p2 arrow1 arrow2
        forceAutoText).arrows.dimensionLine
      (readStyle env g).1.dimgap (readStyle env g).1.dimtxt forceAutoText
    rw [← draft_placement, draft_dimensionLine] at hang
    rw [hang] at ht
    exact ⟨parts, g1, hb, hpos, ht⟩
  have hauto : (data.middleOfText.valid = false ∨ forceAutoText = true) →
      ∃ (parts : DimensionLineParts) (g1 : VariableDict),
        buildDimensionLine env lm ext data g p1 p2 arrow1 arrow2 forceAutoText =
          some (parts, { data with middleOfText := computed }, g1) ∧
        computed.valid = true ∧
        (draftDimensionLine env lm ext data g p1 p2 arrow1 arrow2
          forceAutoText).placement.textPos = computed ∧
        parts.text =
          labelText lm ext { data with middleOfText := computed } computed
            (readStyle env g).1.dimtxt (readStyle env g).1.dimgap (p1.distanceTo lm p2)
            readable.1 := fun h =>
    build_auto env lm ext data g p1 p2 arrow1 arrow2 forceAutoText h dimensionLine rfl
      computed rfl
  refine ⟨hkept, hauto, ?_⟩
  have hsecond : ∀ data1 : RS_DimensionData, data1.middleOfText.valid = true →
      ∀ g2 : VariableDict,
        ∃ (parts2 : DimensionLineParts) (g3 : VariableDict),
          buildDimensionLine env lm ext data1 g2 p1 p2 arrow1 arrow2 false =
            some (parts2, data1, g3) ∧
          (draftDimensionLine env lm ext data1 g2 p1 p2 arrow1 arrow2
            false).placement.textPos = data1.middleOfText ∧
          parts2.text =
            labelText lm ext data1 data1.middleOfText (readStyle env g2).1.dimtxt
              (readStyle env g2).1.dimgap (p1.distanceTo lm p2)
              (draftDimensionLine env lm ext data1 g2 p1 p2 arrow1 arrow2
                false).placement.textAngle := by
    intro data1 hv g2
    obtain ⟨parts2, g3, hb, ht, hpos⟩ :=
      build_kept env lm ext data1 g2 p1 p2 arrow1 arrow2 false hv rfl
    exact ⟨parts2, g3, hb, hpos, ht⟩
  by_cases hc : data.middleOfText.valid = true ∧ forceAutoText = false
  · obtain ⟨parts, g1, hb, _⟩ := hkept hc.1 hc.2
    exact ⟨parts, data, g1, hb, hc.1, by rw [if_pos hc], hsecond data hc.1⟩
  · have hc2 : data.middleOfText.valid = false ∨ forceAutoText = true := by
      by_cases hv : data.middleOfText.valid = true
      · right
        cases hf : forceAutoText
        · exact absurd ⟨hv, hf⟩ hc
        · rfl
      · left
        simpa using hv
    obtain ⟨parts, g1, hb, hval, _⟩ := hauto hc2
    exact ⟨parts, _, g1, hb, hval, by rw [if_neg hc], hsecond _ hval⟩

/-- C18, as the code has it: when `updateCreateDimensionLine` finds the
position of the text itself, because the middle of the text is not valid or
`forceAutoText` is set, and the flag of the text orientation is stored in the
store with a value of at most 1, the middle of the text that the run leaves in
the data is this. For horizontal text, the flag not 0, it is the middle point
of the dimension line as the run has set it, without an offset, and the text
has the angle 0. For aligned text, the flag 0, it is that middle point moved
by the vector `setPolar(dimgap + dimtxt / 2, dimAngle1 + M_PI_2)` when
`makeAngleReadable` did not correct the angle and by
`setPolar(dimgap + dimtxt / 2, dimAngle1 - M_PI_2)` when it did, and the text
has the angle that `makeAngleReadable` answers. Here the dimension line is the
line from `p1` to `p2` with the arrows inside and the line from `p1 + dir` to
`p2 - dir` with the arrows outside, `dimAngle1` is its angle at its start
point, `dimgap` and `dimtxt` are the products of `getDimensionLineGap` and of
`getTextHeight` with `getGeneralScale`, and the middle point, the sums, the
products and the vector are computed in doubles, so that the offset is at a
right angle to the line and of the length `dimgap + dimtxt / 2` only as far as
the cosine and the sine of the math library and the rounding allow. -/
theorem auto_anchor (env : Env) (lm : Libm) (ext : Externals)
    (data : RS_DimensionData) (g : VariableDict) (p1 p2 : RS_Vector)
    (arrow1 arrow2 forceAutoText : Bool) (v c : Int)
    (hauto : data.middleOfText.valid = false ∨ forceAutoText = true)
    (hflag : g.find "$DIMTIH" = some (RS_Variable.VariableInt v c)) (hv : v ≤ 1) :
    let dimensionLine : RS_Line :=
      if p1.distanceTo lm p2 < fmul (readStyle env g).1.arrowSize (5 / 2) then
        ⟨p1.add (RS_Vector.polar lm (fmul (readStyle env g).1.arrowSize 2)
            (RS_Line.getAngle2 lm ⟨p1, p2⟩)),
          p2.sub (RS_Vector.polar lm (fmul (readStyle env g).1.arrowSize 2)
            (RS_Line.getAngle2 lm ⟨p1, p2⟩))⟩
      else ⟨p1, p2⟩
    ∃ (parts : DimensionLineParts) (data1 : RS_DimensionData) (g1 : VariableDict),
      buildDimensionLine env lm ext data g p1 p2 arrow1 arrow2 forceAutoText =
        some (parts, data1, g1) ∧
      data1 = { data with middleOfText := data1.middleOfText } ∧
      (v ≠ 0 →
        data1.middleOfText =
          RS_Vector.mk2
            (fdiv (fadd dimensionLine.startpoint.x dimensionLine.endpoint.x) 2)
            (fdiv (fadd dimensionLine.startpoint.y dimensionLine.endpoint.y) 2) ∧
        parts.text.angle = 0) ∧
      (v = 0 → (ext.makeAngleReadable (dimensionLine.getAngle1 lm) true).2 = false →
        data1.middleOfText =
          RS_Vector.mk2
            (fadd (fdiv (fadd dimensionLine.startpoint.x dimensionLine.endpoint.x) 2)
              (fmul (fadd (readStyle env g).1.dimgap (fdiv (readStyle env g).1.dimtxt 2))
                (lm.cos (fadd (dimensionLine.getAngle1 lm) M_PI_2))))
            (fadd (fdiv (fadd dimensionLine.startpoint.y dimensionLine.endpoint.y) 2)
              (fmul (fadd (readStyle env g).1.dimgap (fdiv (readStyle env g).1.dimtxt 2))
                (lm.sin (fadd (dimensionLine.getAngle1 lm) M_PI_2)))) ∧
        parts.text.angle = (ext.makeAngleReadable (dimensionLine.getAngle1 lm) true).1) ∧
      (v = 0 → (ext.makeAngleReadable (dimensionLine.getAngle1 lm) true).2 = true →
        data1.middleOfText =
          RS_Vector.mk2
            (fadd (fdiv (fadd dimensionLine.startpoint.x dimensionLine.endpoint.x) 2)
              (fmul (fadd (readStyle env g).1.dimgap (fdiv (readStyle env g).1.dimtxt 2))
                (lm.cos (fsub (dimensionLine.getAngle1 lm) M_PI_2))))
            (fadd (fdiv (fadd dimensionLine.startpoint.y dimensionLine.endpoint.y) 2)
              (fmul (fadd (readStyle env g).1.dimgap (fdiv (readStyle env g).1.dimtxt 2))
                (lm.sin (fsub (dimensionLine.getAngle1 lm) M_PI_2)))) ∧
        parts.text.angle = (ext.makeAngleReadable (dimensionLine.getAngle1 lm) true).1) ∧
      (readStyle env g).1.dimgap =
        fmul (getDimensionLineGap env (getTextHeight env (getGeneralScale env g).2).2).1
          (getGeneralScale env g).1 ∧
      (readStyle env g).1.dimtxt =
        fmul (getTextHeight env (getGeneralScale env g).2).1 (getGeneralScale env g).1 ∧
      (¬ p1.distanceTo lm p2 < fmul (readStyle env g).1.arrowSize (5 / 2) →
        dimensionLine = ⟨p1, p2⟩ ∧ dimensionLine.getAngle1 lm = p1.angleTo lm p2) := by
  intro dimensionLine
  have hread : getAlignText (readStyle env g).2 = (decide (v ≠ 0), (readStyle env g).2) :=
    getAlignText_of_le_one _ v c (by rw [find_readStyle]; exact hflag) hv
  obtain ⟨parts, g1, hb, _, _, ht⟩ :=
    build_auto env lm ext data g p1 p2 arrow1 arrow2 forceAutoText hauto dimensionLine rfl
      _ rfl
  have ht := congrArg RS_MTextData.angle ht
  rw [labelText_angle] at ht
  simp only [hread] at hb ht
  refine ⟨parts, _, g1, hb, rfl, fun h0 => ?_, fun h0 hc => ?_, fun h0 hc => ?_, rfl, rfl,
    fun hn => ?_⟩
  · simp only [h0, ne_eq, not_false_eq_true, decide_True, if_true] at ht ⊢
    exact ⟨rfl, ht⟩
  · simp only [h0, ne_eq, not_true_eq_false, decide_False, if_false, hc,
      Bool.false_eq_true] at ht ⊢
    exact ⟨rfl, ht⟩
  · simp only [h0, ne_eq, not_true_eq_false, decide_False, if_false, hc,
      Bool.false_eq_true, if_true] at ht ⊢
    exact ⟨rfl, ht⟩
  · have hl : dimensionLine = ⟨p1, p2⟩ := if_neg hn
    rw [hl]
    exact ⟨rfl, rfl⟩

/-! ## Theorems: the extended dimension line -/

theorem correctAngle_zero : correctAngle 0 = 0 :=
  correctAngle_of_mem 0 (le_refl _) (by linarith [M_PI_pos])

theorem correctAngle_M_PI : correctAngle M_PI = M_PI :=
  correctAngle_of_mem _ (le_of_lt M_PI_pos) (by linarith [M_PI_pos])

theorem terminators_mem (lm : Libm) (p1 p2 : RS_Vector) (arrow1 arrow2 : Bool)
    (arrowAngle1 arrowAngle2 arrowSize dimtsz : ℚ) :
    ∀ e ∈ terminators lm p1 p2 arrow1 arrow2 arrowAngle1 arrowAngle2 arrowSize dimtsz,
      e = RS_Entity.arrow p1 arrowAngle1 arrowSize ∨
      e = RS_Entity.arrow p2 arrowAngle2 arrowSize ∨
      e = tickAt (RS_Vector.polar lm dimtsz (fadd arrowAngle1 (fmul M_PI (1 / 4)))) p1 ∨
      e = tickAt (RS_Vector.polar lm dimtsz (fadd arrowAngle1 (fmul M_PI (1 / 4)))) p2 := by
  intro e he
  by_cases h : dimtsz < roundDouble (1 / 100)
  · rw [terminators_arrows lm p1 p2 arrow1 arrow2 arrowAngle1 arrowAngle2 arrowSize dimtsz h]
      at he
    cases arrow1 <;> cases arrow2 <;> simp at he <;> (try rcases he with rfl | rfl) <;> simp
  · rw [terminators_ticks lm p1 p2 arrow1 arrow2 arrowAngle1 arrowAngle2 arrowSize dimtsz
      (not_lt.1 h)] at he
    cases arrow1 <;> cases arrow2 <;> simp at he <;> (try rcases he with rfl | rfl) <;> simp

theorem distanceTo_self (lm : Libm) (p : RS_Vector) (hsqrt : lm.sqrt 0 = 0) :
    p.distanceTo lm p = 0 := by
  simp [RS_Vector.distanceTo, fsub, fmul, fadd, hsqrt]

theorem angles_degenerate (lm : Libm) (p : RS_Vector) (hatan : lm.atan2 0 0 = 0) :
    RS_Line.getAngle1 lm ⟨p, p⟩ = 0 ∧ RS_Line.getAngle2 lm ⟨p, p⟩ = 0 := by
  constructor <;>
    simp [RS_Line.getAngle1, RS_Line.getAngle2, RS_Vector.angleTo, RS_Vector.angle,
      RS_Vector.sub, RS_Vector.mk2, fsub, hatan, correctAngle_zero]

theorem polar_along_axis (lm : Libm) (a : ℚ) (hcos : lm.cos 0 = 1) (hsin : lm.sin 0 = 0) :
    RS_Vector.polar lm (fmul a 2) 0 = RS_Vector.mk2 (fmul a 2) 0 := by
  simp [RS_Vector.polar, hcos, hsin, fmul]

/-- C15, as the code has it: for `p1 == p2` the run of
`updateCreateDimensionLine` comes to its end without an error and places its
terminators at `p1`, with the angle 0. The distance is 0. When
`arrowSize * 2.5` is positive, as it is with the default arrow size, the
arrows are outside and the dimension line is not of length zero: as a whole,
split around the text or not, it runs from `p1 + (2 * arrowSize, 0)` to
`p1 - (2 * arrowSize, 0)`. When the product is not positive the dimension
line is the line from `p1` to `p1`, and it is not split. The math library is
taken to give `sqrt(0) = 0`, `atan2(0, 0) = 0`, `cos(0) = 1` and
`sin(0) = 0`, as the C library does. -/
theorem degenerate_dimension (env : Env) (lm : Libm) (ext : Externals)
    (data : RS_DimensionData) (g : VariableDict) (p : RS_Vector)
    (arrow1 arrow2 forceAutoText : Bool) (hsqrt : lm.sqrt 0 = 0)
    (hatan : lm.atan2 0 0 = 0) (hcos : lm.cos 0 = 1) (hsin : lm.sin 0 = 0) :
    ∃ (parts : DimensionLineParts) (data1 : RS_DimensionData) (g1 : VariableDict),
      buildDimensionLine env lm ext data g p p arrow1 arrow2 forceAutoText =
        some (parts, data1, g1) ∧
      p.distanceTo lm p = 0 ∧
      parts.terminators =
        terminators lm p p arrow1 arrow2 0 0 (readStyle env g).1.arrowSize
          (readStyle env g).1.dimtsz ∧
      (∀ e ∈ parts.terminators,
        e = RS_Entity.arrow p 0 (readStyle env g).1.arrowSize ∨
        e = tickAt (RS_Vector.polar lm (readStyle env g).1.dimtsz
          (fadd 0 (fmul M_PI (1 / 4)))) p) ∧
      (0 < fmul (readStyle env g).1.arrowSize (5 / 2) →
        parts.dimensionLine.startpoint =
          p.add (RS_Vector.mk2 (fmul (readStyle env g).1.arrowSize 2) 0) ∧
        parts.endpoint =
          p.sub (RS_Vector.mk2 (fmul (readStyle env g).1.arrowSize 2) 0)) ∧
      (¬ 0 < fmul (readStyle env g).1.arrowSize (5 / 2) →
        parts.dimensionLine = ⟨p, p⟩ ∧ parts.dimensionLine2 = none) := by
  have hd := distanceTo_self lm p hsqrt
  obtain ⟨ha1, ha2⟩ := angles_degenerate lm p hatan
  have hmem : ∀ e ∈ terminators lm p p arrow1 arrow2 0 0 (readStyle env g).1.arrowSize
      (readStyle env g).1.dimtsz,
      e = RS_Entity.arrow p 0 (readStyle env g).1.arrowSize ∨
      e = tickAt (RS_Vector.polar lm (readStyle env g).1.dimtsz
        (fadd 0 (fmul M_PI (1 / 4)))) p := by
    intro e he
    rcases terminators_mem _ _ _ _ _ _ _ _ _ e he with h | h | h | h
    · exact Or.inl h
    · exact Or.inl h
    · exact Or.inr h
    · exact Or.inr h
  by_cases h : 0 < fmul (readStyle env g).1.arrowSize (5 / 2)
  · obtain ⟨parts, hb, hs, he, ht, _⟩ :=
      build_outside env lm ext data g p p arrow1 arrow2 forceAutoText (by rw [hd]; exact h)
    rw [ha1, ha2] at ht
    rw [ha2, polar_along_axis lm _ hcos hsin] at hs he
    refine ⟨parts, _, _, hb, hd, ht, ?_, fun _ => ⟨hs, he⟩, fun hn => absurd h hn⟩
    rw [ht]
    exact hmem
  · obtain ⟨parts, hb, _, _, ht, hl, _, hno⟩ :=
      build_inside env lm ext data g p p arrow1 arrow2 forceAutoText (by rw [hd]; exact h)
    rw [ha1, ha2] at ht
    have hun := hno (Or.inr (by rw [hl, edgesHit_degenerate]; norm_num))
    rw [hl] at hun
    refine ⟨parts, _, _, hb, hd, ht, ?_, fun hy => absurd hy h, fun _ => hun⟩
    rw [ht]
    exact hmem

theorem RS_Line.hasPoint_of_param (l : RS_Line) (x y t : ℚ) (h0 : 0 ≤ t) (h1 : t ≤ 1)
    (hx : x = l.startpoint.x + t * (l.endpoint.x - l.startpoint.x))
    (hy : y = l.startpoint.y + t * (l.endpoint.y - l.startpoint.y)) :
    l.hasPoint x y := by
  unfold RS_Line.hasPoint
  exact ⟨t, h0, h1, hx, hy⟩

theorem extended_line_facts (p1 p2 : RS_Vector) (r d c s : ℚ) (hd : 0 < d)
    (hdist : d * d = (p2.x - p1.x) ^ 2 + (p2.y - p1.y) ^ 2)
    (hcos : c * d = p1.x - p2.x) (hsin : s * d = p1.y - p2.y) :
    p1.x + r * c = p1.x - r * ((p2.x - p1.x) / d) ∧
    p1.y + r * s = p1.y - r * ((p2.y - p1.y) / d) ∧
    p2.x - r * c = p2.x + r * ((p2.x - p1.x) / d) ∧
    p2.y - r * s = p2.y + r * ((p2.y - p1.y) / d) ∧
    (0 ≤ r →
      RS_Line.hasPoint ⟨RS_Vector.mk2 (p1.x + r * c) (p1.y + r * s),
        RS_Vector.mk2 (p2.x - r * c) (p2.y - r * s)⟩ p1.x p1.y ∧
      RS_Line.hasPoint ⟨RS_Vector.mk2 (p1.x + r * c) (p1.y + r * s),
        RS_Vector.mk2 (p2.x - r * c) (p2.y - r * s)⟩ p2.x p2.y) ∧
    ((p1.x + r * c) + (p2.x - r * c)) / 2 = (p1.x + p2.x) / 2 ∧
    ((p1.y + r * s) + (p2.y - r * s)) / 2 = (p1.y + p2.y) / 2 ∧
    ((p2.x - r * c) - (p1.x + r * c)) ^ 2 + ((p2.y - r * s) - (p1.y + r * s)) ^ 2 =
      (d + 2 * r) ^ 2 := by
  have hd0 : d ≠ 0 := ne_of_gt hd
  have hc : c = (p1.x - p2.x) / d := by
    field_simp
    exact hcos
  have hs : s = (p1.y - p2.y) / d := by
    field_simp
    exact hsin
  refine ⟨?_, ?_, ?_, ?_, fun hr => ?_, by ring, by ring, ?_⟩
  · rw [hc]
    ring
  · rw [hs]
    ring
  · rw [hc]
    ring
  · rw [hs]
    ring
  · have hpos : 0 < d + 2 * r := by linarith
    have hne : d + 2 * r ≠ 0 := ne_of_gt hpos
    constructor
    · refine RS_Line.hasPoint_of_param _ _ _ (r / (d + 2 * r)) (div_nonneg hr (le_of_lt hpos))
        ((div_le_one hpos).2 (by linarith)) ?_ ?_
      · simp only [RS_Vector.mk2]
        rw [hc]
        field_simp
        ring
      · simp only [RS_Vector.mk2]
        rw [hs]
        field_simp
        ring
    · refine RS_Line.hasPoint_of_param _ _ _ ((r + d) / (d + 2 * r))
        (div_nonneg (by linarith) (le_of_lt hpos)) ((div_le_one hpos).2 (by linarith)) ?_ ?_
      · simp only [RS_Vector.mk2]
        rw [hc]
        field_simp
        ring
      · simp only [RS_Vector.mk2]
        rw [hs]
        field_simp
        ring
  · have e1 : (p2.x - r * c) - (p1.x + r * c) = (d + 2 * r) * (-c) := by
      have : p2.x - p1.x = -(c * d) := by rw [hcos]; ring
      linear_combination this
    have e2 : (p2.y - r * s) - (p1.y + r * s) = (d + 2 * r) * (-s) := by
      have : p2.y - p1.y = -(s * d) := by rw [hsin]; ring
      linear_combination this
    have hunit : c ^ 2 + s ^ 2 = 1 := by
      have h2 : (c * d) ^ 2 + (s * d) ^ 2 = d * d := by
        rw [hcos, hsin, hdist]
        ring
      have h3 : (c ^ 2 + s ^ 2) * (d * d) = 1 * (d * d) := by
        linear_combination h2
      exact mul_right_cancel₀ (mul_ne_zero hd0 hd0) h3
    rw [e1, e2]
    linear_combination (d + 2 * r) ^ 2 * hunit

/-- C17, as the code has it: with the arrows outside, that is when the test
`distance < arrowSize * 2.5` holds, `updateCreateDimensionLine` sets the
dimension line to run from `p1 + dir` to `p2 - dir`, where `dir` is
`setPolar(arrowSize * 2, a)` and `a` is the direction from `p2` to `p1`: as a
whole, split around the text or not, the line starts at
`(p1.x + r * cos(a), p1.y + r * sin(a))` and ends at
`(p2.x - r * cos(a), p2.y - r * sin(a))` with `r = arrowSize * 2`, each sum
and product a sum or product of doubles, and the terminators are at `p1` and
at `p2`. This is the line from `p1 - r * u` to `p2 + r * u`, with `u` the unit
vector from `p1` to `p2`, when the cosine and the sine of the math library are
the direction from `p2` to `p1` exactly and the sums and products are not
rounded; then `p1` and `p2` lie on it, its middle is the middle of `p1` and
`p2`, and its length is the distance from `p1` to `p2` plus `2 * r`. -/
theorem outside_extension (env : Env) (lm : Libm) (ext : Externals)
    (data : RS_DimensionData) (g : VariableDict) (p1 p2 : RS_Vector)
    (arrow1 arrow2 forceAutoText : Bool)
    (hout : p1.distanceTo lm p2 < fmul (readStyle env g).1.arrowSize (5 / 2)) :
    let r : ℚ := fmul (readStyle env g).1.arrowSize 2
    let a : ℚ := p2.angleTo lm p1
    ∃ (parts : DimensionLineParts) (data1 : RS_DimensionData) (g1 : VariableDict),
      buildDimensionLine env lm ext data g p1 p2 arrow1 arrow2 forceAutoText =
        some (parts, data1, g1) ∧
      parts.dimensionLine.startpoint =
        RS_Vector.mk2 (fadd p1.x (fmul r (lm.cos a))) (fadd p1.y (fmul r (lm.sin a))) ∧
      parts.endpoint =
        RS_Vector.mk2 (fsub p2.x (fmul r (lm.cos a))) (fsub p2.y (fmul r (lm.sin a))) ∧
      parts.terminators =
        terminators lm p1 p2 arrow1 arrow2 (p1.angleTo lm p2) (p2.angleTo lm p1)
          (readStyle env g).1.arrowSize (readStyle env g).1.dimtsz ∧
      (∀ e ∈ parts.terminators,
        e = RS_Entity.arrow p1 (p1.angleTo lm p2) (readStyle env g).1.arrowSize ∨
        e = RS_Entity.arrow p2 (p2.angleTo lm p1) (readStyle env g).1.arrowSize ∨
        e = tickAt (RS_Vector.polar lm (readStyle env g).1.dimtsz
          (fadd (p1.angleTo lm p2) (fmul M_PI (1 / 4)))) p1 ∨
        e = tickAt (RS_Vector.polar lm (readStyle env g).1.dimtsz
          (fadd (p1.angleTo lm p2) (fmul M_PI (1 / 4)))) p2) ∧
      (∀ d : ℚ, 0 < d → d * d = (p2.x - p1.x) ^ 2 + (p2.y - p1.y) ^ 2 →
        lm.cos a * d = p1.x - p2.x → lm.sin a * d = p1.y - p2.y →
        fadd p1.x (fmul r (lm.cos a)) = p1.x + r * lm.cos a →
        fadd p1.y (fmul r (lm.sin a)) = p1.y + r * lm.sin a →
        fsub p2.x (fmul r (lm.cos a)) = p2.x - r * lm.cos a →
        fsub p2.y (fmul r (lm.sin a)) = p2.y - r * lm.sin a →
        parts.dimensionLine.startpoint =
          RS_Vector.mk2 (p1.x - r * ((p2.x - p1.x) / d)) (p1.y - r * ((p2.y - p1.y) / d)) ∧
        parts.endpoint =
          RS_Vector.mk2 (p2.x + r * ((p2.x - p1.x) / d)) (p2.y + r * ((p2.y - p1.y) / d)) ∧
        (0 ≤ r →
          RS_Line.hasPoint ⟨parts.dimensionLine.startpoint, parts.endpoint⟩ p1.x p1.y ∧
          RS_Line.hasPoint ⟨parts.dimensionLine.startpoint, parts.endpoint⟩ p2.x p2.y) ∧
        (parts.dimensionLine.startpoint.x + parts.endpoint.x) / 2 = (p1.x + p2.x) / 2 ∧
        (parts.dimensionLine.startpoint.y + parts.endpoint.y) / 2 = (p1.y + p2.y) / 2 ∧
        (parts.endpoint.x - parts.dimensionLine.startpoint.x) ^ 2 +
          (parts.endpoint.y - parts.dimensionLine.startpoint.y) ^ 2 = (d + 2 * r) ^ 2) := by
  intro r a
  obtain ⟨parts, hb, hs, he, ht, _⟩ :=
    build_outside env lm ext data g p1 p2 arrow1 arrow2 forceAutoText hout
  have hs2 : parts.dimensionLine.startpoint =
      RS_Vector.mk2 (fadd p1.x (fmul r (lm.cos a))) (fadd p1.y (fmul r (lm.sin a))) := hs
  have he2 : parts.endpoint =
      RS_Vector.mk2 (fsub p2.x (fmul r (lm.cos a))) (fsub p2.y (fmul r (lm.sin a))) := he
  have ht2 : parts.terminators =
      terminators lm p1 p2 arrow1 arrow2 (p1.angleTo lm p2) (p2.angleTo lm p1)
        (readStyle env g).1.arrowSize (readStyle env g).1.dimtsz := ht
  refine ⟨parts, _, _, hb, hs2, he2, ht2, ?_, ?_⟩
  · rw [ht2]
    exact terminators_mem _ _ _ _ _ _ _ _ _
  · intro d hd hdist hcos hsin hx1 hy1 hx2 hy2
    obtain ⟨f1, f2, f3, f4, f5, f6, f7, f8⟩ :=
      extended_line_facts p1 p2 r d (lm.cos a) (lm.sin a) hd hdist hcos hsin
    rw [hs2, he2, hx1, hy1, hx2, hy2]
    refine ⟨by rw [f1, f2], by rw [f3, f4], f5, f6, f7, f8⟩

/-! ### Reads of a flag that is stored in its domain -/

theorem getAlignText_readStyle (env : Env) (g : VariableDict) (v c : Int)
    (hf : g.find "$DIMTIH" = some (RS_Variable.VariableInt v c)) (hv : v ≤ 1) :
    getAlignText (readStyle env g).2 = (decide (v ≠ 0), (readStyle env g).2) :=
  getAlignText_of_le_one _ v c (by rw [find_readStyle]; exact hf) hv

theorem textPlacement_fixed (lm : Libm) (ext : Externals) (data : RS_DimensionData)
    (g : VariableDict) (dl : RS_Line) (dimgap dimtxt : ℚ) (forceAutoText b : Bool)
    (hg : getAlignText g = (b, g)) :
    (textPlacement lm ext data g dl dimgap dimtxt forceAutoText).graphicVariables = g ∧
    (textPlacement lm ext data g dl dimgap dimtxt forceAutoText).textAngle =
      (if b = true then 0 else (ext.makeAngleReadable (dl.getAngle1 lm) true).1) ∧
    (textPlacement lm ext data g dl dimgap dimtxt forceAutoText).corrected =
      (if b = true then false else (ext.makeAngleReadable (dl.getAngle1 lm) true).2) := by
  unfold textPlacement
  simp only [hg]
  cases b <;> split <;> simp [hg]

theorem draft_placement_fixed (env : Env) (lm : Libm) (ext : Externals)
    (data : RS_DimensionData) (g : VariableDict) (p1 p2 : RS_Vector)
    (arrow1 arrow2 forceAutoText : Bool) (v c : Int)
    (hf : g.find "$DIMTIH" = some (RS_Variable.VariableInt v c)) (hv : v ≤ 1) :
    (draftDimensionLine env lm ext data g p1 p2 arrow1 arrow2
      forceAutoText).placement.graphicVariables = (readStyle env g).2 ∧
    (getAlignText (draftDimensionLine env lm ext data g p1 p2 arrow1 arrow2
      forceAutoText).placement.graphicVariables) = (decide (v ≠ 0), (readStyle env g).2) := by
  have hg := getAlignText_readStyle env g v c hf hv
  have h := (textPlacement_fixed lm ext data (readStyle env g).2
    (draftDimensionLine env lm ext data g p1 p2 arrow1 arrow2
      forceAutoText).arrows.dimensionLine
    (readStyle env g).1.dimgap (readStyle env g).1.dimtxt forceAutoText _ hg).1
  have h2 : (draftDimensionLine env lm ext data g p1 p2 arrow1 arrow2
      forceAutoText).placement.graphicVariables = (readStyle env g).2 := h
  exact ⟨h2, by rw [h2, hg]⟩

theorem readStyle_alignedStore :
    readStyle mmEnv alignedStore = (⟨1, 5 / 2, 5 / 8, 5 / 2, 0⟩, alignedStoreRead) := by
  simp [readStyle, getGeneralScale, getTextHeight, getDimensionLineGap, getArrowSize,
    getTickSize, getGraphicVariable, getGraphicVariableDouble, VariableDict.find,
    addGraphicVariable, mmEnv, List.lookup, alignedStore, alignedStoreRead, fmul]

theorem getAlignText_alignedStoreRead :
    getAlignText alignedStoreRead = (false, alignedStoreRead) := by
  simp [getAlignText, getGraphicVariableInt, VariableDict.find, List.lookup,
    alignedStoreRead]

/-! ### The example of the dimension from (0, 0) to (100, 0) -/

theorem readStyle_empty :
    readStyle mmEnv [] = (⟨1, 5 / 2, 5 / 8, 5 / 2, 0⟩, emptyStoreRead) := by
  simp [readStyle, getGeneralScale, getTextHeight, getDimensionLineGap, getArrowSize,
    getTickSize, getGraphicVariable, getGraphicVariableDouble, VariableDict.find,
    addGraphicVariable, mmEnv, List.lookup, emptyStoreRead, fmul]

theorem getGraphicVariable_emptyStoreLeft (key : String) (d v : ℚ) (code : Int)
    (hv : getGraphicVariableDouble emptyStoreLeft key mmEnv.RS_MINDOUBLE = v)
    (hlt : -10000000000 < v) :
    getGraphicVariable mmEnv key d code emptyStoreLeft = (v, emptyStoreLeft) := by
  rw [getGraphicVariable_set mmEnv key d code emptyStoreLeft (by rw [hv]; exact hlt), hv]

theorem readStyle_emptyStoreLeft :
    readStyle mmEnv emptyStoreLeft = (⟨1, 5 / 2, 5 / 8, 5 / 2, 0⟩, emptyStoreLeft) := by
  have h1 := getGraphicVariable_emptyStoreLeft "$DIMSCALE" 1 1 40
    (by simp [getGraphicVariableDouble, VariableDict.find, List.lookup, emptyStoreLeft,
      emptyStoreRead]) (by norm_num)
  have h2 := getGraphicVariable_emptyStoreLeft "$DIMTXT" (5 / 2) (5 / 2) 40
    (by simp [getGraphicVariableDouble, VariableDict.find, List.lookup, emptyStoreLeft,
      emptyStoreRead]) (by norm_num)
  have h3 := getGraphicVariable_emptyStoreLeft "$DIMGAP" (5 / 8) (5 / 8) 40
    (by simp [getGraphicVariableDouble, VariableDict.find, List.lookup, emptyStoreLeft,
      emptyStoreRead]) (by norm_num)
  have h4 := getGraphicVariable_emptyStoreLeft "$DIMASZ" (5 / 2) (5 / 2) 40
    (by simp [getGraphicVariableDouble, VariableDict.find, List.lookup, emptyStoreLeft,
      emptyStoreRead]) (by norm_num)
  have h5 := getGraphicVariable_emptyStoreLeft "$DIMTSZ" 0 0 40
    (by simp [getGraphicVariableDouble, VariableDict.find, List.lookup, emptyStoreLeft,
      emptyStoreRead]) (by norm_num)
  simp only [readStyle, getGeneralScale, getTextHeight, getDimensionLineGap, getArrowSize,
    getTickSize, h1, h2, h3, h4, h5]
  norm_num [fmul]

theorem getAlignText_emptyStoreRead :
    getAlignText emptyStoreRead = (true, emptyStoreLeft) := by
  simp [getAlignText, getGraphicVariableInt, VariableDict.find, List.lookup,
    emptyStoreRead, emptyStoreLeft, addGraphicVariableInt]

theorem getAlignText_emptyStoreLeft :
    getAlignText emptyStoreLeft = (false, emptyStoreLeft) := by
  simp [getAlignText, getGraphicVariableInt, VariableDict.find, List.lookup,
    emptyStoreRead, emptyStoreLeft]

theorem correctAngle_M_PI_2 : correctAngle M_PI_2 = M_PI_2 :=
  correctAngle_of_mem _ (by unfold M_PI_2; linarith [M_PI_pos])
    (by unfold M_PI_2; linarith [M_PI_pos])

theorem exampleLibm_angle_upwards :
    RS_Line.getAngle1 exampleLibm ⟨RS_Vector.mk2 0 0, RS_Vector.mk2 0 100⟩ = M_PI_2 := by
  simp [RS_Line.getAngle1, RS_Vector.angleTo, RS_Vector.angle, RS_Vector.sub,
    RS_Vector.mk2, exampleLibm, correctAngle_M_PI_2, fsub]

theorem exampleLibm_polar_half :
    RS_Vector.polar exampleLibm (fadd (5 / 8) (fdiv (5 / 2) 2)) (fadd M_PI_2 M_PI_2) =
      RS_Vector.mk2 (-(15 / 8)) 0 := by
  have e : fadd M_PI_2 M_PI_2 = M_PI := by norm_num [fadd, M_PI_2, M_PI]
  have hc : exampleLibm.cos M_PI = -1 := by simp [exampleLibm, ne_of_gt M_PI_pos]
  have hs : exampleLibm.sin M_PI = 0 := by simp [exampleLibm]
  rw [e]
  simp only [RS_Vector.polar, hc, hs]
  norm_num [fadd, fdiv, fmul]

theorem textPlacement_readable (lm : Libm) (ext : Externals) (data : RS_DimensionData)
    (g : VariableDict) (dl : RS_Line) (dimgap dimtxt : ℚ) (forceAutoText : Bool) :
    (textPlacement lm ext data g dl dimgap dimtxt forceAutoText).textAngle =
      (if (getAlignText g).1 = true then 0
        else (ext.makeAngleReadable (dl.getAngle1 lm) true).1) ∧
    (textPlacement lm ext data g dl dimgap dimtxt forceAutoText).corrected =
      (if (getAlignText g).1 = true then false
        else (ext.makeAngleReadable (dl.getAngle1 lm) true).2) := by
  unfold textPlacement
  simp only []
  cases (getAlignText g).1 <;> split <;> simp

theorem uprightDraft_line (g : VariableDict)
    (hstyle : (readStyle mmEnv g).1 = ⟨1, 5 / 2, 5 / 8, 5 / 2, 0⟩) :
    (uprightDraft g).arrows.dimensionLine = ⟨RS_Vector.mk2 0 0, RS_Vector.mk2 0 100⟩ := by
  have hd := exampleLibm_distanceTo_origin 0 100 100 (by norm_num)
    (by norm_num [fadd, fmul, fsub])
  have hin : (uprightDraft g).outsideArrows = false := by
    unfold uprightDraft
    rw [Bool.eq_false_iff, Ne, draft_outsideArrows_iff, hd, hstyle]
    norm_num [fmul]
  unfold uprightDraft at hin ⊢
  rw [draft_arrows_inside mmEnv exampleLibm exampleExternals RS_DimensionData.default g
    (RS_Vector.mk2 0 0) (RS_Vector.mk2 0 100) true true false hin]

/-- C20, at a variable store that does not hold `$DIMTIH`: in one run of
`updateCreateDimensionLine` for the dimension from (0, 0) to (0, 100) the first
read of `getAlignText` answers true and the two later reads answer false. So
the angle of the text is forced to 0 although the dimension line has the angle
pi/2, the position that is computed for the text gets the offset
perpendicular to the line, from the middle (0, 50) to (-1.875, 50), and no
split of the line is made. A second run, on the store that the first run left,
gives the text the angle pi/2 of the line. -/
theorem getAlignText_reads_disagree :
    (getAlignText (readStyle mmEnv []).2).1 = true ∧
    (getAlignText (getAlignText (readStyle mmEnv []).2).2).1 = false ∧
    (uprightDraft []).placement.graphicVariables =
      (getAlignText (getAlignText (readStyle mmEnv []).2).2).2 ∧
    (getAlignText (uprightDraft []).placement.graphicVariables).1 = false ∧
    (uprightDraft []).placement.textAngle = 0 ∧
    (uprightDraft []).arrows.dimensionLine.getAngle1 exampleLibm = M_PI_2 ∧
    (uprightDraft []).placement.textPos = RS_Vector.mk2 (-(15 / 8)) 50 ∧
    RS_Line.getMiddlePoint ⟨RS_Vector.mk2 0 0, RS_Vector.mk2 0 100⟩ = RS_Vector.mk2 0 50 ∧
    (∃ parts : DimensionLineParts,
      buildDimensionLine mmEnv exampleLibm exampleExternals RS_DimensionData.default []
          (RS_Vector.mk2 0 0) (RS_Vector.mk2 0 100) true true false =
        some (parts, (uprightDraft []).placement.data, emptyStoreLeft) ∧
      parts.dimensionLine2 = none) ∧
    (uprightDraft emptyStoreLeft).placement.textAngle = M_PI_2 := by
  have hrs := readStyle_empty
  have hr1 : getAlignText (readStyle mmEnv []).2 = (true, emptyStoreLeft) := by
    rw [hrs]; exact getAlignText_emptyStoreRead
  have hr2 := getAlignText_emptyStoreLeft
  have hline := uprightDraft_line [] (by rw [hrs])
  have hline2 := uprightDraft_line emptyStoreLeft (by rw [readStyle_emptyStoreLeft])
  have hgv : (uprightDraft []).placement.graphicVariables = emptyStoreLeft := by
    have h := (textPlacement_auto exampleLibm exampleExternals RS_DimensionData.default
      (readStyle mmEnv []).2 (uprightDraft []).arrows.dimensionLine
      (readStyle mmEnv []).1.dimgap (readStyle mmEnv []).1.dimtxt false
      (Or.inl rfl)).2.2
    rw [hr1, hr2] at h
    exact h
  have hang := textPlacement_readable exampleLibm exampleExternals RS_DimensionData.default
    (readStyle mmEnv []).2 (uprightDraft []).arrows.dimensionLine
    (readStyle mmEnv []).1.dimgap (readStyle mmEnv []).1.dimtxt false
  rw [hr1] at hang
  have hangle : (uprightDraft []).placement.textAngle = 0 := hang.1
  have hcorr : (uprightDraft []).placement.corrected = false := hang.2
  have hang2 : (uprightDraft emptyStoreLeft).placement.textAngle =
      (if (getAlignText (readStyle mmEnv emptyStoreLeft).2).1 = true then 0
        else (exampleExternals.makeAngleReadable
          ((uprightDraft emptyStoreLeft).arrows.dimensionLine.getAngle1 exampleLibm)
          true).1) :=
    (textPlacement_readable exampleLibm exampleExternals RS_DimensionData.default
      (readStyle mmEnv emptyStoreLeft).2 (uprightDraft emptyStoreLeft).arrows.dimensionLine
      (readStyle mmEnv emptyStoreLeft).1.dimgap (readStyle mmEnv emptyStoreLeft).1.dimtxt
      false).1
  have hangle2 : (uprightDraft emptyStoreLeft).placement.textAngle = M_PI_2 := by
    rw [hang2, readStyle_emptyStoreLeft, hr2, hline2, exampleLibm_angle_upwards]
    simp [exampleExternals]
  have hpos : (uprightDraft []).placement.textPos = RS_Vector.mk2 (-(15 / 8)) 50 := by
    have h := (textPlacement_auto exampleLibm exampleExternals RS_DimensionData.default
      (readStyle mmEnv []).2 (uprightDraft []).arrows.dimensionLine
      (readStyle mmEnv []).1.dimgap (readStyle mmEnv []).1.dimtxt false (Or.inl rfl)).1
    have h2 : (uprightDraft []).placement.textPos = _ := h
    rw [h2, hline]
    simp only [hr1, hr2, hrs, getAlignText_emptyStoreRead, exampleLibm_angle_upwards,
      Bool.false_eq_true, if_false, if_true, exampleLibm_polar_half]
    norm_num [RS_Line.getMiddlePoint, RS_Vector.move, RS_Vector.mk2, fadd, fdiv]
  have hr3 : getAlignText (uprightDraft []).placement.graphicVariables
      = (false, emptyStoreLeft) := by rw [hgv, hr2]
  refine ⟨by rw [hr1], by rw [hr1, hr2], by rw [hgv, hr1, hr2], by rw [hr3], hangle,
    by rw [hline, exampleLibm_angle_upwards], hpos,
    by norm_num [RS_Line.getMiddlePoint, RS_Vector.mk2, fadd, fdiv], ?_, hangle2⟩
  obtain ⟨parts, hb, _, _, _, _, hno⟩ := buildDimensionLine_total mmEnv exampleLibm
    exampleExternals RS_DimensionData.default [] (RS_Vector.mk2 0 0) (RS_Vector.mk2 0 100)
    true true false
  have hr3' : getAlignText (draftDimensionLine mmEnv exampleLibm exampleExternals
      RS_DimensionData.default [] (RS_Vector.mk2 0 0) (RS_Vector.mk2 0 100) true true
      false).placement.graphicVariables = (false, emptyStoreLeft) := hr3
  rw [hr3'] at hb hno
  exact ⟨parts, hb, (hno (Or.inl rfl)).2⟩

/-! ## Theorems: examples with the values of the C library -/

theorem cLibm_sqrt_sq (q : ℚ) (h : 0 ≤ q) : cLibm.sqrt (q * q) = q := by
  show Rat.sqrt (q * q) = q
  rw [Rat.sqrt_eq, abs_of_nonneg h]

theorem cLibm_at_zero :
    cLibm.sqrt 0 = 0 ∧ cLibm.atan2 0 0 = 0 ∧ cLibm.cos 0 = 1 ∧ cLibm.sin 0 = 0 := by
  refine ⟨?_, ?_, ?_, ?_⟩
  · simpa using cLibm_sqrt_sq 0 (le_refl _)
  · simp [cLibm]
  · simp [cLibm]
  · norm_num [cLibm, M_PI, M_PI_2]

theorem cLibm_at_M_PI :
    cLibm.cos M_PI = -1 ∧ cLibm.sin M_PI = 4967757600021511 / 2 ^ 105 := by
  constructor <;> norm_num [cLibm, M_PI, M_PI_2]

theorem cLibm_at_M_PI_2 :
    cLibm.cos M_PI_2 = 4967757600021511 / 2 ^ 106 ∧ cLibm.sin M_PI_2 = 1 := by
  constructor <;> norm_num [cLibm, M_PI, M_PI_2]

theorem cLibm_distanceTo (a b : RS_Vector) (r : ℚ) (hr : 0 ≤ r)
    (h : fadd (fmul (fsub a.x b.x) (fsub a.x b.x)) (fmul (fsub a.y b.y) (fsub a.y b.y)) =
      r * r) :
    a.distanceTo cLibm b = r := by
  simp only [RS_Vector.distanceTo, h]
  exact cLibm_sqrt_sq r hr

theorem cLibm_angleTo_right (a b : RS_Vector) (hy : fsub b.y a.y = 0)
    (hx : 0 ≤ fsub b.x a.x) : a.angleTo cLibm b = 0 := by
  have h : ¬ fsub b.x a.x < 0 := not_lt.2 hx
  simp [RS_Vector.angleTo, RS_Vector.angle, RS_Vector.sub, RS_Vector.mk2, cLibm, hy, h,
    correctAngle_zero]

theorem cLibm_angleTo_left (a b : RS_Vector) (hy : fsub b.y a.y = 0)
    (hx : fsub b.x a.x < 0) : a.angleTo cLibm b = M_PI := by
  simp [RS_Vector.angleTo, RS_Vector.angle, RS_Vector.sub, RS_Vector.mk2, cLibm, hy, hx,
    correctAngle_M_PI]

theorem find_alignedStore :
    alignedStore.find "$DIMTIH" = some (RS_Variable.VariableInt 0 70) := by
  simp [alignedStore, VariableDict.find, List.lookup]

theorem read3_alignedStore (lm : Libm) (ext : Externals) (data : RS_DimensionData)
    (p1 p2 : RS_Vector) (arrow1 arrow2 forceAutoText : Bool) :
    (getAlignText (draftDimensionLine mmEnv lm ext data alignedStore p1 p2 arrow1 arrow2
      forceAutoText).placement.graphicVariables).1 = false := by
  rw [(draft_placement_fixed mmEnv lm ext data alignedStore p1 p2 arrow1 arrow2 forceAutoText
    0 70 find_alignedStore (by decide)).2]
  rfl

theorem arrows_alignedStore (lm : Libm) (p1 p2 : RS_Vector) (a1 a2 : ℚ) :
    terminators lm p1 p2 true true a1 a2 (readStyle mmEnv alignedStore).1.arrowSize
      (readStyle mmEnv alignedStore).1.dimtsz =
      [RS_Entity.arrow p1 a1 (5 / 2), RS_Entity.arrow p2 a2 (5 / 2)] := by
  rw [readStyle_alignedStore,
    terminators_arrows _ _ _ _ _ _ _ _ _ (by rw [roundDouble_hundredth]; norm_num)]
  rfl

theorem threshold_alignedStore :
    fmul (readStyle mmEnv alignedStore).1.arrowSize (5 / 2) = 25 / 4 ∧
    fmul (readStyle mmEnv alignedStore).1.arrowSize 2 = 5 := by
  rw [readStyle_alignedStore]
  constructor <;> norm_num [fmul]

/-- An instance of C15: the dimension from (3, 4) to (3, 4) with the default
arrow size 2.5 and aligned text has its two arrows at (3, 4) and a dimension
line from (8, 4) to (-2, 4). -/
theorem degenerate_dimension_witness :
    cLibm.sqrt 0 = 0 ∧ cLibm.atan2 0 0 = 0 ∧ cLibm.cos 0 = 1 ∧ cLibm.sin 0 = 0 ∧
    ∃ (parts : DimensionLineParts) (data1 : RS_DimensionData) (g1 : VariableDict),
      buildDimensionLine mmEnv cLibm exampleExternals RS_DimensionData.default alignedStore
        (RS_Vector.mk2 3 4) (RS_Vector.mk2 3 4) true true false = some (parts, data1, g1) ∧
      parts.terminators =
        [RS_Entity.arrow (RS_Vector.mk2 3 4) 0 (5 / 2),
          RS_Entity.arrow (RS_Vector.mk2 3 4) 0 (5 / 2)] ∧
      parts.dimensionLine.startpoint = RS_Vector.mk2 8 4 ∧
      parts.endpoint = RS_Vector.mk2 (-2) 4 := by
  refine ⟨cLibm_at_zero.1, cLibm_at_zero.2.1, cLibm_at_zero.2.2.1, cLibm_at_zero.2.2.2, ?_⟩
  obtain ⟨parts, data1, g1, hb, _, ht, _, hpos, _⟩ :=
    degenerate_dimension mmEnv cLibm exampleExternals RS_DimensionData.default alignedStore
      (RS_Vector.mk2 3 4) true true false cLibm_at_zero.1 cLibm_at_zero.2.1
      cLibm_at_zero.2.2.1 cLibm_at_zero.2.2.2
  obtain ⟨hs, he⟩ := hpos (by rw [threshold_alignedStore.1]; norm_num)
  rw [arrows_alignedStore] at ht
  rw [threshold_alignedStore.2] at hs he
  refine ⟨parts, data1, g1, hb, ht, ?_, ?_⟩
  · rw [hs]
    norm_num [RS_Vector.add, RS_Vector.mk2, fadd]
  · rw [he]
    norm_num [RS_Vector.sub, RS_Vector.mk2, fsub]

/-- C15 fails as stated: for `p1 == p2 == (0, 0)` and the default style, with
the arrow size 2.5, the dimension line that is built runs from (5, 0) to
(-5, 0). It is not of length zero and does not start at `p1`. The two arrows
are both at `p1`. -/
theorem degenerate_dimension_counterexample :
    (buildDimensionLine mmEnv cLibm exampleExternals RS_DimensionData.default
      alignedStore (RS_Vector.mk2 0 0) (RS_Vector.mk2 0 0) true true false).map
        (fun r => (r.1.dimensionLine, r.1.dimensionLine2, r.1.terminators))
      = some (⟨RS_Vector.mk2 5 0, RS_Vector.mk2 (-5) 0⟩, none,
          [RS_Entity.arrow (RS_Vector.mk2 0 0) 0 (5 / 2),
            RS_Entity.arrow (RS_Vector.mk2 0 0) 0 (5 / 2)]) ∧
    RS_Vector.mk2 5 0 ≠ RS_Vector.mk2 (-5) 0 ∧ RS_Vector.mk2 5 0 ≠ RS_Vector.mk2 0 0 := by
  have hd := distanceTo_self cLibm (RS_Vector.mk2 0 0) cLibm_at_zero.1
  obtain ⟨ha1, ha2⟩ := angles_degenerate cLibm (RS_Vector.mk2 0 0) cLibm_at_zero.2.1
  obtain ⟨parts, hb, _, _, ht, hl, hno⟩ :=
    build_outside mmEnv cLibm exampleExternals RS_DimensionData.default alignedStore
      (RS_Vector.mk2 0 0) (RS_Vector.mk2 0 0) true true false
      (by rw [hd, threshold_alignedStore.1]; norm_num)
  obtain ⟨h1, h2⟩ := hno (Or.inl (read3_alignedStore _ _ _ _ _ _ _ _))
  rw [hl, ha2, polar_along_axis cLibm _ cLibm_at_zero.2.2.1 cLibm_at_zero.2.2.2,
    threshold_alignedStore.2] at h1
  rw [ha1, ha2, arrows_alignedStore] at ht
  refine ⟨?_, by norm_num [RS_Vector.mk2], by norm_num [RS_Vector.mk2]⟩
  rw [hb]
  simp only [Option.map, h1, h2, ht]
  norm_num [RS_Vector.add, RS_Vector.sub, RS_Vector.mk2, fadd, fsub]

/-- C16 fails as stated: the claim has the two modes the wrong way round. For
the dimension from (0, 0) to (100, 0), whose arrows are inside, the arrow at
`p1` is built with `M_PI`, the angle at `p2`, and the arrow at `p2` with 0,
the angle at `p1`. For the dimension from (0, 0) to (1, 0), whose arrows are
outside, the arrow at `p1` is built with 0, the angle at `p1`, and the arrow
at `p2` with `M_PI`, the angle at `p2`. -/
theorem terminator_angles_counterexample :
    (buildDimensionLine mmEnv cLibm exampleExternals RS_DimensionData.default
      alignedStore (RS_Vector.mk2 0 0) (RS_Vector.mk2 100 0) true true false).map
        (fun r => r.1.terminators)
      = some [RS_Entity.arrow (RS_Vector.mk2 0 0) M_PI (5 / 2),
          RS_Entity.arrow (RS_Vector.mk2 100 0) 0 (5 / 2)] ∧
    (RS_Vector.mk2 0 0).angleTo cLibm (RS_Vector.mk2 100 0) = 0 ∧
    (RS_Vector.mk2 100 0).angleTo cLibm (RS_Vector.mk2 0 0) = M_PI ∧
    ¬ (RS_Vector.mk2 0 0).distanceTo cLibm (RS_Vector.mk2 100 0) <
      fmul (readStyle mmEnv alignedStore).1.arrowSize (5 / 2) ∧
    (buildDimensionLine mmEnv cLibm exampleExternals RS_DimensionData.default
      alignedStore (RS_Vector.mk2 0 0) (RS_Vector.mk2 1 0) true true false).map
        (fun r => r.1.terminators)
      = some [RS_Entity.arrow (RS_Vector.mk2 0 0) 0 (5 / 2),
          RS_Entity.arrow (RS_Vector.mk2 1 0) M_PI (5 / 2)] ∧
    (RS_Vector.mk2 0 0).angleTo cLibm (RS_Vector.mk2 1 0) = 0 ∧
    (RS_Vector.mk2 1 0).angleTo cLibm (RS_Vector.mk2 0 0) = M_PI ∧
    (RS_Vector.mk2 0 0).distanceTo cLibm (RS_Vector.mk2 1 0) <
      fmul (readStyle mmEnv alignedStore).1.arrowSize (5 / 2) ∧
    M_PI ≠ 0 := by
  have a1 : (RS_Vector.mk2 0 0).angleTo cLibm (RS_Vector.mk2 100 0) = 0 :=
    cLibm_angleTo_right _ _ (by norm_num [RS_Vector.mk2, fsub])
      (by norm_num [RS_Vector.mk2, fsub])
  have a2 : (RS_Vector.mk2 100 0).angleTo cLibm (RS_Vector.mk2 0 0) = M_PI :=
    cLibm_angleTo_left _ _ (by norm_num [RS_Vector.mk2, fsub])
      (by norm_num [RS_Vector.mk2, fsub])
  have b1 : (RS_Vector.mk2 0 0).angleTo cLibm (RS_Vector.mk2 1 0) = 0 :=
    cLibm_angleTo_right _ _ (by norm_num [RS_Vector.mk2, fsub])
      (by norm_num [RS_Vector.mk2, fsub])
  have b2 : (RS_Vector.mk2 1 0).angleTo cLibm (RS_Vector.mk2 0 0) = M_PI :=
    cLibm_angleTo_left _ _ (by norm_num [RS_Vector.mk2, fsub])
      (by norm_num [RS_Vector.mk2, fsub])
  have hd1 : (RS_Vector.mk2 0 0).distanceTo cLibm (RS_Vector.mk2 100 0) = 100 :=
    cLibm_distanceTo _ _ 100 (by norm_num) (by norm_num [RS_Vector.mk2, fadd, fmul, fsub])
  have hd2 : (RS_Vector.mk2 0 0).distanceTo cLibm (RS_Vector.mk2 1 0) = 1 :=
    cLibm_distanceTo _ _ 1 (by norm_num) (by norm_num [RS_Vector.mk2, fadd, fmul, fsub])
  have hin : ¬ (RS_Vector.mk2 0 0).distanceTo cLibm (RS_Vector.mk2 100 0) <
      fmul (readStyle mmEnv alignedStore).1.arrowSize (5 / 2) := by
    rw [hd1, threshold_alignedStore.1]
    norm_num
  have hout : (RS_Vector.mk2 0 0).distanceTo cLibm (RS_Vector.mk2 1 0) <
      fmul (readStyle mmEnv alignedStore).1.arrowSize (5 / 2) := by
    rw [hd2, threshold_alignedStore.1]
    norm_num
  refine ⟨?_, a1, a2, hin, ?_, b1, b2, hout, ne_of_gt M_PI_pos⟩
  · obtain ⟨parts, hb, _, _, ht, _⟩ :=
      build_inside mmEnv cLibm exampleExternals RS_DimensionData.default alignedStore
        (RS_Vector.mk2 0 0) (RS_Vector.mk2 100 0) true true false hin
    rw [arrows_alignedStore] at ht
    rw [hb]
    simp only [Option.map, ht]
    rw [show RS_Line.getAngle2 cLibm ⟨RS_Vector.mk2 0 0, RS_Vector.mk2 100 0⟩ = M_PI from a2,
      show RS_Line.getAngle1 cLibm ⟨RS_Vector.mk2 0 0, RS_Vector.mk2 100 0⟩ = 0 from a1]
  · obtain ⟨parts, hb, _, _, ht, _⟩ :=
      build_outside mmEnv cLibm exampleExternals RS_DimensionData.default alignedStore
        (RS_Vector.mk2 0 0) (RS_Vector.mk2 1 0) true true false hout
    rw [arrows_alignedStore] at ht
    rw [hb]
    simp only [Option.map, ht]
    rw [show RS_Line.getAngle2 cLibm ⟨RS_Vector.mk2 0 0, RS_Vector.mk2 1 0⟩ = M_PI from b2,
      show RS_Line.getAngle1 cLibm ⟨RS_Vector.mk2 0 0, RS_Vector.mk2 1 0⟩ = 0 from b1]

theorem fmul_five_sin : fmul 5 (4967757600021511 / 2 ^ 105) = 6209697000026889 / 2 ^ 103 := by
  have h := roundDouble_of_near (5 * (4967757600021511 / 2 ^ 105)) (-51) 6209697000026889
    (by norm_num) (by norm_num) (by norm_num) (by norm_num) (by norm_num)
  rw [fmul, h]
  norm_num

theorem roundDouble_five_sin :
    roundDouble (6209697000026889 / 2 ^ 103) = 6209697000026889 / 2 ^ 103 := by
  rw [← fmul_five_sin, fmul, roundDouble_roundDouble]

/-- An instance of C17: the dimension from (1, 0) to (0, 0) with the default
arrow size 2.5 has its arrows outside, and the C library gives the cosine 1
and the sine 0 for the direction from `p2` to `p1`, so that nothing is
rounded: the dimension line runs from (6, 0) to (-5, 0), `p1` and `p2` lie on
it, and its length is 11. -/
theorem outside_extension_witness :
    (RS_Vector.mk2 1 0).distanceTo cLibm (RS_Vector.mk2 0 0) <
      fmul (readStyle mmEnv alignedStore).1.arrowSize (5 / 2) ∧
    ∃ (parts : DimensionLineParts) (data1 : RS_DimensionData) (g1 : VariableDict),
      buildDimensionLine mmEnv cLibm exampleExternals RS_DimensionData.default alignedStore
        (RS_Vector.mk2 1 0) (RS_Vector.mk2 0 0) true true false = some (parts, data1, g1) ∧
      parts.dimensionLine.startpoint = RS_Vector.mk2 6 0 ∧
      parts.endpoint = RS_Vector.mk2 (-5) 0 ∧
      RS_Line.hasPoint ⟨parts.dimensionLine.startpoint, parts.endpoint⟩ 1 0 ∧
      RS_Line.hasPoint ⟨parts.dimensionLine.startpoint, parts.endpoint⟩ 0 0 ∧
      (parts.endpoint.x - parts.dimensionLine.startpoint.x) ^ 2 +
        (parts.endpoint.y - parts.dimensionLine.startpoint.y) ^ 2 = 11 ^ 2 := by
  have hd : (RS_Vector.mk2 1 0).distanceTo cLibm (RS_Vector.mk2 0 0) = 1 :=
    cLibm_distanceTo _ _ 1 (by norm_num) (by norm_num [RS_Vector.mk2, fadd, fmul, fsub])
  have hout : (RS_Vector.mk2 1 0).distanceTo cLibm (RS_Vector.mk2 0 0) <
      fmul (readStyle mmEnv alignedStore).1.arrowSize (5 / 2) := by
    rw [hd, threshold_alignedStore.1]
    norm_num
  have ha : (RS_Vector.mk2 0 0).angleTo cLibm (RS_Vector.mk2 1 0) = 0 :=
    cLibm_angleTo_right _ _ (by norm_num [RS_Vector.mk2, fsub])
      (by norm_num [RS_Vector.mk2, fsub])
  refine ⟨hout, ?_⟩
  have h := outside_extension mmEnv cLibm exampleExternals RS_DimensionData.default
    alignedStore (RS_Vector.mk2 1 0) (RS_Vector.mk2 0 0) true true false hout
  simp only [ha, threshold_alignedStore.2, cLibm_at_zero.2.2.1, cLibm_at_zero.2.2.2] at h
  obtain ⟨parts, data1, g1, hb, hs, he, _, _, hex⟩ := h
  have hx := hex 1 (by norm_num) (by norm_num [RS_Vector.mk2]) (by norm_num [RS_Vector.mk2])
    (by norm_num [RS_Vector.mk2]) (by norm_num [RS_Vector.mk2, fadd, fmul])
    (by norm_num [RS_Vector.mk2, fadd, fmul]) (by norm_num [RS_Vector.mk2, fsub, fmul])
    (by norm_num [RS_Vector.mk2, fsub, fmul])
  obtain ⟨_, _, hon, _, _, hlen⟩ := hx
  obtain ⟨hon1, hon2⟩ := hon (by norm_num)
  refine ⟨parts, data1, g1, hb, ?_, ?_, ?_, ?_, ?_⟩
  · rw [hs]
    norm_num [RS_Vector.mk2, fadd, fmul]
  · rw [he]
    norm_num [RS_Vector.mk2, fsub, fmul]
  · simpa [RS_Vector.mk2] using hon1
  · simpa [RS_Vector.mk2] using hon2
  · rw [hlen]
    norm_num

/-- C17 fails as stated: for the dimension from (0, 0) to (1, 0) with the
default arrow size 2.5 the direction from `p2` to `p1` is `M_PI`, whose sine in
the C library is 1.2246467991473532e-16 and not 0. The dimension line that
is built runs from (-5, 6.1e-16) to (6, -6.1e-16): it does not start at
`p1 - 5 * u`, which is (-5, 0), and neither `p1` nor `p2` lies on it. -/
theorem outside_extension_counterexample :
    (buildDimensionLine mmEnv cLibm exampleExternals RS_DimensionData.default
      alignedStore (RS_Vector.mk2 0 0) (RS_Vector.mk2 1 0) true true false).map
        (fun r => (r.1.dimensionLine, r.1.dimensionLine2))
      = some (⟨RS_Vector.mk2 (-5) (6209697000026889 / 2 ^ 103),
          RS_Vector.mk2 6 (-(6209697000026889 / 2 ^ 103))⟩, none) ∧
    (RS_Vector.mk2 0 0).distanceTo cLibm (RS_Vector.mk2 1 0) <
      fmul (readStyle mmEnv alignedStore).1.arrowSize (5 / 2) ∧
    RS_Vector.mk2 (-5) (6209697000026889 / 2 ^ 103) ≠ RS_Vector.mk2 (-5) 0 ∧
    ¬ RS_Line.hasPoint ⟨RS_Vector.mk2 (-5) (6209697000026889 / 2 ^ 103),
      RS_Vector.mk2 6 (-(6209697000026889 / 2 ^ 103))⟩ 0 0 ∧
    ¬ RS_Line.hasPoint ⟨RS_Vector.mk2 (-5) (6209697000026889 / 2 ^ 103),
      RS_Vector.mk2 6 (-(6209697000026889 / 2 ^ 103))⟩ 1 0 := by
  have hd : (RS_Vector.mk2 0 0).distanceTo cLibm (RS_Vector.mk2 1 0) = 1 :=
    cLibm_distanceTo _ _ 1 (by norm_num) (by norm_num [RS_Vector.mk2, fadd, fmul, fsub])
  have hout : (RS_Vector.mk2 0 0).distanceTo cLibm (RS_Vector.mk2 1 0) <
      fmul (readStyle mmEnv alignedStore).1.arrowSize (5 / 2) := by
    rw [hd, threshold_alignedStore.1]
    norm_num
  have ha : RS_Line.getAngle2 cLibm ⟨RS_Vector.mk2 0 0, RS_Vector.mk2 1 0⟩ = M_PI :=
    cLibm_angleTo_left _ _ (by norm_num [RS_Vector.mk2, fsub])
      (by norm_num [RS_Vector.mk2, fsub])
  obtain ⟨parts, hb, _, _, _, hl, hno⟩ :=
    build_outside mmEnv cLibm exampleExternals RS_DimensionData.default alignedStore
      (RS_Vector.mk2 0 0) (RS_Vector.mk2 1 0) true true false hout
  obtain ⟨h1, h2⟩ := hno (Or.inl (read3_alignedStore _ _ _ _ _ _ _ _))
  rw [hl, ha, threshold_alignedStore.2] at h1
  refine ⟨?_, hout, ?_, ?_, ?_⟩
  · rw [hb]
    simp only [Option.map, h1, h2, RS_Vector.polar, cLibm_at_M_PI.1, cLibm_at_M_PI.2,
      fmul_five_sin]
    simp only [RS_Vector.add, RS_Vector.sub, RS_Vector.mk2, fadd, fsub, zero_add, zero_sub,
      roundDouble_neg, roundDouble_five_sin]
    norm_num [fmul]
  · norm_num [RS_Vector.mk2]
  · rintro ⟨t, _, _, hx, hy⟩
    simp only [RS_Vector.mk2] at hx hy
    have ht : t = 5 / 11 := by linarith
    rw [ht] at hy
    norm_num at hy
  · rintro ⟨t, _, _, hx, hy⟩
    simp only [RS_Vector.mk2] at hx hy
    have ht : t = 6 / 11 := by linarith
    rw [ht] at hy
    norm_num at hy

theorem fmul_offset_cos :
    fmul (15 / 8) (4967757600021511 / 2 ^ 106) = 4657272750020167 / 2 ^ 105 := by
  have h := roundDouble_of_near (15 / 8 * (4967757600021511 / 2 ^ 106)) (-53)
    4657272750020167 (by norm_num) (by norm_num) (by norm_num) (by norm_num) (by norm_num)
  rw [fmul, h]
  norm_num

theorem fmul_offset_sin :
    fmul (15 / 8) (4967757600021511 / 2 ^ 105) = 4657272750020167 / 2 ^ 104 := by
  have h := roundDouble_of_near (15 / 8 * (4967757600021511 / 2 ^ 105)) (-52)
    4657272750020167 (by norm_num) (by norm_num) (by norm_num) (by norm_num) (by norm_num)
  rw [fmul, h]
  norm_num

theorem fadd_fifty_cos : fadd 50 (4657272750020167 / 2 ^ 105) = 50 := by
  have h := roundDouble_of_near (50 + 4657272750020167 / 2 ^ 105) 5 7036874417766400
    (by norm_num) (by norm_num) (by norm_num) (by norm_num) (by norm_num)
  rw [fadd, h]
  norm_num

theorem fadd_fifty_sin : fadd 50 (4657272750020167 / 2 ^ 104) = 50 := by
  have h := roundDouble_of_near (50 + 4657272750020167 / 2 ^ 104) 5 7036874417766400
    (by norm_num) (by norm_num) (by norm_num) (by norm_num) (by norm_num)
  rw [fadd, h]
  norm_num

theorem fadd_zero_offset :
    fadd 0 (4657272750020167 / 2 ^ 105) = 4657272750020167 / 2 ^ 105 := by
  rw [fadd, zero_add, ← fmul_offset_cos, fmul, roundDouble_roundDouble]

theorem offset_alignedStore :
    fadd (readStyle mmEnv alignedStore).1.dimgap
      (fdiv (readStyle mmEnv alignedStore).1.dimtxt 2) = 15 / 8 := by
  rw [readStyle_alignedStore]
  norm_num [fadd, fdiv]

theorem fadd_quarter_turn : fadd 0 M_PI_2 = M_PI_2 ∧ fadd M_PI_2 M_PI_2 = M_PI := by
  constructor <;> norm_num [fadd, M_PI_2, M_PI]

/-- An instance of C18: for the dimension from (0, 0) to (100, 0) with the
default style, aligned text and no valid middle of the text, the middle of
the text that the run leaves is (50, 1.875), and the text has the angle 0. -/
theorem auto_anchor_witness :
    (RS_DimensionData.default.middleOfText.valid = false ∨ false = true) ∧
    alignedStore.find "$DIMTIH" = some (RS_Variable.VariableInt 0 70) ∧
    (0 : Int) ≤ 1 ∧
    ∃ (parts : DimensionLineParts) (data1 : RS_DimensionData) (g1 : VariableDict),
      buildDimensionLine mmEnv cLibm exampleExternals RS_DimensionData.default alignedStore
        (RS_Vector.mk2 0 0) (RS_Vector.mk2 100 0) true true false = some (parts, data1, g1) ∧
      data1.middleOfText = RS_Vector.mk2 50 (15 / 8) ∧
      parts.text.angle = 0 := by
  have hd : (RS_Vector.mk2 0 0).distanceTo cLibm (RS_Vector.mk2 100 0) = 100 :=
    cLibm_distanceTo _ _ 100 (by norm_num) (by norm_num [RS_Vector.mk2, fadd, fmul, fsub])
  have hin : ¬ (RS_Vector.mk2 0 0).distanceTo cLibm (RS_Vector.mk2 100 0) <
      fmul (readStyle mmEnv alignedStore).1.arrowSize (5 / 2) := by
    rw [hd, threshold_alignedStore.1]
    norm_num
  have ha : RS_Line.getAngle1 cLibm ⟨RS_Vector.mk2 0 0, RS_Vector.mk2 100 0⟩ = 0 :=
    cLibm_angleTo_right _ _ (by norm_num [RS_Vector.mk2, fsub])
      (by norm_num [RS_Vector.mk2, fsub])
  refine ⟨Or.inl rfl, find_alignedStore, by decide, ?_⟩
  have h := auto_anchor mmEnv cLibm exampleExternals RS_DimensionData.default alignedStore
    (RS_Vector.mk2 0 0) (RS_Vector.mk2 100 0) true true false 0 70 (Or.inl rfl)
    find_alignedStore (by decide)
  simp only [if_neg hin, ha, offset_alignedStore] at h
  obtain ⟨parts, data1, g1, hb, _, _, hal, _⟩ := h
  obtain ⟨hm, hang⟩ := hal trivial rfl
  refine ⟨parts, data1, g1, hb, ?_, ?_⟩
  · rw [hm, fadd_quarter_turn.1]
    simp only [RS_Vector.polar, cLibm_at_M_PI_2.1, cLibm_at_M_PI_2.2, fmul_offset_cos,
      RS_Vector.move, RS_Vector.mk2]
    have e1 : fdiv (fadd 0 100) 2 = 50 := by norm_num [fadd, fdiv]
    have e2 : fdiv (fadd 0 0) 2 = 0 := by norm_num [fadd, fdiv]
    have e3 : fadd 0 (fmul (15 / 8) 1) = 15 / 8 := by norm_num [fadd, fmul]
    rw [e1, e2, e3, fadd_fifty_cos]
  · rw [hang]
    rfl

/-- C18 fails as stated. For the dimension from (-50, 0) to (50, 0) with the
default style and aligned text, the middle of `p1` and `p2` is (0, 0) and the
offset is 1.875, at a right angle to the line: the claim gives (0, 1.875). The
run leaves (1.148e-16, 1.875), for the cosine of `M_PI_2` in the C library is
6.123233995736766e-17 and not 0. And for the dimension from (0, 0) to (0, 100)
on a variable store that does not hold the flag of the text orientation, the
run makes horizontal text, with the angle 0, and yet it leaves the middle of
the text at (-1.875, 50) and not at the middle (0, 50) of `p1` and `p2`. -/
theorem auto_anchor_counterexample :
    (buildDimensionLine mmEnv cLibm exampleExternals RS_DimensionData.default
      alignedStore (RS_Vector.mk2 (-50) 0) (RS_Vector.mk2 50 0) true true false).map
        (fun r => r.2.1.middleOfText)
      = some (RS_Vector.mk2 (4657272750020167 / 2 ^ 105) (15 / 8)) ∧
    RS_Vector.mk2 (4657272750020167 / 2 ^ 105) (15 / 8) ≠ RS_Vector.mk2 0 (15 / 8) ∧
    RS_Line.getMiddlePoint ⟨RS_Vector.mk2 (-50) 0, RS_Vector.mk2 50 0⟩ = RS_Vector.mk2 0 0 ∧
    (buildDimensionLine mmEnv cLibm exampleExternals RS_DimensionData.default
      [] (RS_Vector.mk2 0 0) (RS_Vector.mk2 0 100) true true false).map
        (fun r => (r.1.text.angle, r.2.1.middleOfText))
      = some (0, RS_Vector.mk2 (-(15 / 8)) 50) ∧
    RS_Line.getMiddlePoint ⟨RS_Vector.mk2 0 0, RS_Vector.mk2 0 100⟩ = RS_Vector.mk2 0 50 := by
  refine ⟨?_, ?_, by norm_num [RS_Line.getMiddlePoint, RS_Vector.mk2, fadd, fdiv], ?_,
    by norm_num [RS_Line.getMiddlePoint, RS_Vector.mk2, fadd, fdiv]⟩
  · have hd : (RS_Vector.mk2 (-50) 0).distanceTo cLibm (RS_Vector.mk2 50 0) = 100 :=
      cLibm_distanceTo _ _ 100 (by norm_num) (by norm_num [RS_Vector.mk2, fadd, fmul, fsub])
    have hin : ¬ (RS_Vector.mk2 (-50) 0).distanceTo cLibm (RS_Vector.mk2 50 0) <
        fmul (readStyle mmEnv alignedStore).1.arrowSize (5 / 2) := by
      rw [hd, threshold_alignedStore.1]
      norm_num
    have ha : RS_Line.getAngle1 cLibm ⟨RS_Vector.mk2 (-50) 0, RS_Vector.mk2 50 0⟩ = 0 :=
      cLibm_angleTo_right _ _ (by norm_num [RS_Vector.mk2, fsub])
        (by norm_num [RS_Vector.mk2, fsub])
    obtain ⟨parts, g1, hb, _, _⟩ :=
      build_auto mmEnv cLibm exampleExternals RS_DimensionData.default alignedStore
        (RS_Vector.mk2 (-50) 0) (RS_Vector.mk2 50 0) true true false (Or.inl rfl)
        ⟨RS_Vector.mk2 (-50) 0, RS_Vector.mk2 50 0⟩ (by rw [if_neg hin])
        (RS_Vector.mk2 (4657272750020167 / 2 ^ 105) (15 / 8))
        (by
          rw [offset_alignedStore, ha, fadd_quarter_turn.1, readStyle_alignedStore]
          simp only [getAlignText_alignedStoreRead, Bool.false_eq_true, if_false,
            exampleExternals, RS_Vector.polar, cLibm_at_M_PI_2.1, cLibm_at_M_PI_2.2,
            fmul_offset_cos, RS_Vector.move, RS_Line.getMiddlePoint, RS_Vector.mk2]
          have e1 : fdiv (fadd (-50) 50) 2 = 0 := by norm_num [fadd, fdiv]
          have e2 : fdiv (fadd 0 0) 2 = 0 := by norm_num [fadd, fdiv]
          have e3 : fadd 0 (fmul (15 / 8) 1) = 15 / 8 := by norm_num [fadd, fmul]
          rw [e1, e2, e3, fadd_zero_offset])
    rw [hb]
    rfl
  · norm_num [RS_Vector.mk2]
  · have hd : (RS_Vector.mk2 0 0).distanceTo cLibm (RS_Vector.mk2 0 100) = 100 :=
      cLibm_distanceTo _ _ 100 (by norm_num) (by norm_num [RS_Vector.mk2, fadd, fmul, fsub])
    have hin : ¬ (RS_Vector.mk2 0 0).distanceTo cLibm (RS_Vector.mk2 0 100) <
        fmul (readStyle mmEnv []).1.arrowSize (5 / 2) := by
      rw [hd, readStyle_empty]
      norm_num [fmul]
    have ha : RS_Line.getAngle1 cLibm ⟨RS_Vector.mk2 0 0, RS_Vector.mk2 0 100⟩ = M_PI_2 := by
      simp [RS_Line.getAngle1, RS_Vector.angleTo, RS_Vector.angle, RS_Vector.sub,
        RS_Vector.mk2, cLibm, correctAngle_M_PI_2, fsub]
    have hr1 : getAlignText (readStyle mmEnv []).2 = (true, emptyStoreLeft) := by
      rw [readStyle_empty]
      exact getAlignText_emptyStoreRead
    have hoff : fadd (readStyle mmEnv []).1.dimgap (fdiv (readStyle mmEnv []).1.dimtxt 2) =
        15 / 8 := by
      rw [readStyle_empty]
      norm_num [fadd, fdiv]
    obtain ⟨parts, g1, hb, _, _, ht⟩ :=
      build_auto mmEnv cLibm exampleExternals RS_DimensionData.default []
        (RS_Vector.mk2 0 0) (RS_Vector.mk2 0 100) true true false (Or.inl rfl)
        ⟨RS_Vector.mk2 0 0, RS_Vector.mk2 0 100⟩ (by rw [if_neg hin])
        (RS_Vector.mk2 (-(15 / 8)) 50)
        (by
          rw [hoff, ha, fadd_quarter_turn.2, hr1]
          simp only [getAlignText_emptyStoreLeft, Bool.false_eq_true, if_false, if_true,
            RS_Vector.polar, cLibm_at_M_PI.1, cLibm_at_M_PI.2,
            fmul_offset_sin, RS_Vector.move, RS_Line.getMiddlePoint, RS_Vector.mk2]
          have e1 : fdiv (fadd 0 100) 2 = 50 := by norm_num [fadd, fdiv]
          have e2 : fdiv (fadd 0 0) 2 = 0 := by norm_num [fadd, fdiv]
          have e3 : fadd 0 (fmul (15 / 8) (-1)) = -(15 / 8) := by norm_num [fadd, fmul]
          rw [e1, e2, e3, fadd_fifty_sin])
    have hang := congrArg RS_MTextData.angle ht
    rw [labelText_angle, hr1] at hang
    rw [hb]
    simp only [Option.map, hang]
    rfl

end LibreCAD
